import Mathlib

/-!
# SOUL audio player venue: sub-block iteration and session state machine

A shallow embedding of `source/modules/soul_venue_audioplayer/audio_player/soul_AudioPlayer.cpp`.

* `uint32_t` / `uint64_t` values are natural numbers; every addition that can
  wrap in the source is followed by an explicit `% UINT32` / `% UINT64`.
* A C++ (pointer, count) pair over the MIDI input buffer is the list of the
  `count` events that start at the pointer.
* The performer is an external collaborator: it is a record of the calls made
  on it together with functions giving the value each query returns after a
  given call history.
-/

namespace soul.audioplayer

/-! ## Machine integers -/

/-- Number of values of a `uint32_t`. -/
def UINT32 : Nat := 4294967296

/-- Number of values of a `uint64_t`. -/
def UINT64 : Nat := 18446744073709551616

/-! ## RenderContext -/

/-- Modelled from the spec: the `MIDIEvent` record, whose declaration is outside the
two source files; the spec gives it as `{ frameIndex: uint32, packedBytes: uint32 }`. -/
structure MIDIEvent where
  frameIndex : Nat
  packedBytes : Nat
  deriving DecidableEq, Repr

/-- The value `getPackedMIDIData()` reads from an event. -/
def MIDIEvent.getPackedMIDIData (e : MIDIEvent) : Nat := e.packedBytes

/-- A `choc::buffer::FrameRange`, the argument of `getFrameRange`. -/
structure FrameRange where
  start : Nat
  stop : Nat
  deriving DecidableEq, Repr

/-- The `uint32_t` difference `end - start` of a frame range. -/
def FrameRange.size (r : FrameRange) : Nat := (r.stop + UINT32 - r.start) % UINT32

/-- Modelled from the spec: `choc::buffer::ChannelArrayView`, whose declaration is outside
the two source files. Only the geometry of a view is kept (the spec calls what a sub-block
receives "a frame-range slice of input and output channels"): the number of channels, the
position `firstFrame` of the first frame of the view inside the device block it was cut
from, and the number of frames. Sample values are not represented. -/
structure ChannelArrayView where
  numChannels : Nat
  firstFrame : Nat
  numFrames : Nat
  deriving DecidableEq, Repr

/-- The frame count `getNumFrames()` of a view. -/
def ChannelArrayView.getNumFrames (v : ChannelArrayView) : Nat := v.numFrames

/-- Modelled from the spec: `getFrameRange`, the sub-view holding the frames of `r`,
counted from the first frame of `v`. -/
def ChannelArrayView.getFrameRange (v : ChannelArrayView) (r : FrameRange) : ChannelArrayView :=
  { numChannels := v.numChannels, firstFrame := v.firstFrame + r.start, numFrames := r.size }

/-- The `RenderContext` struct. The pair `(midiIn, midiInCount)` is the list `midiIn`
of the `midiInCount` events found at the pointer; `midiOut` is the output buffer
(empty for `nullptr`). -/
structure RenderContext where
  totalFramesRendered : Nat
  inputChannels : ChannelArrayView
  outputChannels : ChannelArrayView
  midiIn : List MIDIEvent
  midiOut : List MIDIEvent
  frameOffset : Nat
  midiOutCount : Nat
  midiOutCapacity : Nat
  deriving DecidableEq, Repr

/-- The field `midiInCount`: the length of the span `(midiIn, midiInCount)`. -/
def RenderContext.midiInCount (c : RenderContext) : Nat := c.midiIn.length

/-- Result of the inner `while (midiInCount != 0)` loop of `iterateInBlocks`. -/
structure MidiScan where
  /-- value of `framesToDo` when the loop is left -/
  framesToDo : Nat
  /-- the span `(midiIn, midiInCount)` of `*this` when the loop is left -/
  midiIn : List MIDIEvent
  /-- the span `(context.midiIn, context.midiInCount)` when the loop is left -/
  taken : List MIDIEvent
  deriving DecidableEq, Repr

/-- The inner loop of `iterateInBlocks`:
```
while (midiInCount != 0)
{
    auto time = midiIn->frameIndex;
    if (time > frameOffset) { framesToDo = std::min (framesToDo, time - frameOffset); break; }
    ++midiIn; --midiInCount; context.midiInCount++;
}
```
`context.midiIn` was set to `midiIn` and `context.midiInCount` to 0 just before, so each
pass that does not break moves the event under the pointer to the end of the
context's span. -/
def scanMidi (frameOffset : Nat) : Nat → List MIDIEvent → MidiScan
  | framesToDo, [] => { framesToDo := framesToDo, midiIn := [], taken := [] }
  | framesToDo, e :: rest =>
    if e.frameIndex > frameOffset then
      { framesToDo := min framesToDo (e.frameIndex - frameOffset), midiIn := e :: rest, taken := [] }
    else
      let r := scanMidi frameOffset framesToDo rest
      { r with taken := e :: r.taken }

/-- State in which the outer loop of `iterateInBlocks` is left or interrupted. -/
structure IterateOutcome (σ : Type) where
  /-- the object `*this` -/
  self : RenderContext
  /-- the local copy `context` -/
  context : RenderContext
  /-- whatever the `render` callable has captured -/
  user : σ
  /-- the argument of each `render (context)` call, in call order -/
  calls : List RenderContext
  /-- `true` when the loop condition `framesRemaining != 0` was found false;
  `false` when the iteration budget ran out first -/
  finished : Bool

/-- The outer loop `while (framesRemaining != 0)` of `iterateInBlocks`, run for at most
`fuel` passes. `render` may change the context it is handed (it receives an lvalue)
and its own captured state. -/
def iterateLoop {σ : Type} (maxFramesPerBlock : Nat)
    (render : RenderContext → σ → RenderContext × σ) :
    Nat → RenderContext → RenderContext → Nat → σ → IterateOutcome σ
  | 0, self, context, framesRemaining, user =>
    { self := self, context := context, user := user, calls := [],
      finished := decide (framesRemaining = 0) }
  | fuel + 1, self, context, framesRemaining, user =>
    if framesRemaining = 0 then
      { self := self, context := context, user := user, calls := [], finished := true }
    else
      let scan := scanMidi self.frameOffset (min maxFramesPerBlock framesRemaining) self.midiIn
      let framesToDo := scan.framesToDo
      let range : FrameRange :=
        { start := self.frameOffset, stop := (self.frameOffset + framesToDo) % UINT32 }
      let context := { context with
        midiIn := scan.taken
        inputChannels := self.inputChannels.getFrameRange range
        outputChannels := self.outputChannels.getFrameRange range }
      let rendered := render context user
      let self := { self with
        midiIn := scan.midiIn
        frameOffset := (self.frameOffset + framesToDo) % UINT32 }
      let context' := { rendered.1 with
        totalFramesRendered := (rendered.1.totalFramesRendered + framesToDo) % UINT64
        frameOffset := (rendered.1.frameOffset + framesToDo) % UINT32 }
      let out := iterateLoop maxFramesPerBlock render fuel self context'
        (framesRemaining - framesToDo) rendered.2
      { out with calls := context :: out.calls }

/-- `RenderContext::iterateInBlocks (maxFramesPerBlock, render)`, with an iteration
budget `fuel` for the outer loop. -/
def RenderContext.iterateInBlocks {σ : Type} (self : RenderContext) (fuel : Nat)
    (maxFramesPerBlock : Nat) (render : RenderContext → σ → RenderContext × σ) (user : σ) :
    IterateOutcome σ :=
  let out := iterateLoop maxFramesPerBlock render fuel self self
    self.inputChannels.getNumFrames user
  { out with self := { out.self with midiOutCount := out.context.midiOutCount } }

/-- A `render` callable that changes nothing. -/
def idleRender : RenderContext → Unit → RenderContext × Unit := fun rc u => (rc, u)

/-- The context the device callback `AudioPlayerVenue::render` builds:
`RenderContext { 0, input, output, midiIn, nullptr, 0, midiInCount, 0, 0 }`. -/
def deviceContext (input output : ChannelArrayView) (midiIn : List MIDIEvent) : RenderContext :=
  { totalFramesRendered := 0, inputChannels := input, outputChannels := output,
    midiIn := midiIn, midiOut := [], frameOffset := 0, midiOutCount := 0, midiOutCapacity := 0 }

/-! ## Endpoints and the performer -/

/-- An `EndpointID`: the stable string id of an endpoint. -/
abbrev EndpointID := String

/-- An `EndpointHandle`: the token the performer returns for an endpoint id. -/
abbrev EndpointHandle := Nat

/-- The `EndpointType` enumeration. -/
inductive EndpointType
  | unknown
  | stream
  | value
  | event
  deriving DecidableEq, Repr

/-- Modelled from the spec: the data type of an endpoint, whose declaration is outside the
two source files. The spec lists "scalar float, vector of float, or an object type for
MIDI events"; every other type is `other`, and a vector records whether its element type
is a float. -/
inductive ValueType
  | float
  | vector (elementIsFloat : Bool) (numElements : Nat)
  | midiMessage
  | other (numElements : Nat)
  deriving DecidableEq, Repr

/-- The test `isFloat()` of a type. -/
def ValueType.isFloat : ValueType → Bool
  | .float => true
  | _ => false

/-- The test `isVector() && getElementType().isFloat()` of a type. -/
def ValueType.isVectorOfFloat : ValueType → Bool
  | .vector elementIsFloat _ => elementIsFloat
  | _ => false

/-- The value `getNumElements()` of a type. -/
def ValueType.getNumElements : ValueType → Nat
  | .float => 1
  | .vector _ n => n
  | .midiMessage => 1
  | .other n => n

/-- Modelled from the spec: `EndpointDetails`, "identity (stable string id, human name),
kind, frame data type"; the source fills `dataTypes` with `push_back`, so it is a list. -/
structure EndpointDetails where
  endpointID : EndpointID
  name : String
  endpointType : EndpointType
  dataTypes : List ValueType
  deriving DecidableEq, Repr

/-- The helper `isStream (details)`. -/
def isStream (d : EndpointDetails) : Bool := decide (d.endpointType = EndpointType.stream)

/-- The helper `isEvent (details)`. -/
def isEvent (d : EndpointDetails) : Bool := decide (d.endpointType = EndpointType.event)

/-- Modelled from the spec: `isMIDIEventEndpoint`, "performer endpoint is event with MIDI
object type". -/
def isMIDIEventEndpoint (d : EndpointDetails) : Bool :=
  isEvent d && decide (d.dataTypes = [ValueType.midiMessage])

/-- Modelled from the spec: `getFrameType()`, the single data type of a stream endpoint;
`none` stands for the failed internal assertion when there is no such type. -/
def EndpointDetails.getFrameType (d : EndpointDetails) : Option ValueType :=
  if isStream d then d.dataTypes.head? else none

/-- Modelled from the spec: `findDetailsForID`, "look up the performer endpoint by ID";
`none` stands for the failed internal assertion when no endpoint has the id. -/
def findDetailsForID (endpoints : List EndpointDetails) (endpointID : EndpointID) :
    Option EndpointDetails :=
  endpoints.find? (fun d => decide (d.endpointID = endpointID))

/-- A compiled `Program`: opaque but for its emptiness. -/
structure Program where
  isEmpty : Bool
  uid : Nat
  deriving DecidableEq, Repr

/-- The `BuildSettings` fields this code reads or writes: `maxBlockSize`, and `sampleRate`,
a `double` that is only copied from a configuration and handed on; it is kept as an
opaque number. -/
structure BuildSettings where
  maxBlockSize : Nat
  sampleRate : Nat := 0
  deriving DecidableEq, Repr

/-- One entry of the history of a performer: a call that the session made on it, or an
endpoint service callback that ran (the callback is handed the session and may itself
call the performer). -/
inductive Call
  | load (program : Program)
  | link (settings : BuildSettings)
  | unload
  | getEndpointHandle (endpointID : EndpointID)
  | prepare (numFrames : Nat)
  | advance
  | addInputEvent (handle : EndpointHandle) (midiBytes : Nat)
  | setNextInputStreamFrames (handle : EndpointHandle) (numFrames numChannels : Nat)
  | getOutputStreamFrames (handle : EndpointHandle)
  | serviceCallback (callback : Nat) (handle : EndpointHandle)
  deriving DecidableEq, Repr

/-- The `Performer` behind the session: the history of what was done to it, and the answer
each of its queries gives after a given history. Every deterministic performer is of this
form. -/
structure Performer where
  history : List Call
  loadResult : List Call → Program → Bool
  linkResult : List Call → BuildSettings → Bool
  inputEndpoints : List Call → List EndpointDetails
  outputEndpoints : List Call → List EndpointDetails
  endpointHandle : List Call → EndpointID → EndpointHandle
  linked : List Call → Bool
  xruns : List Call → Nat

/-- Appends one entry to the history. -/
def Performer.record (p : Performer) (c : Call) : Performer :=
  { p with history := p.history ++ [c] }

/-- The call `performer->load (messageList, program)`. -/
def Performer.load (p : Performer) (program : Program) : Bool × Performer :=
  (p.loadResult p.history program, p.record (Call.load program))

/-- The call `performer->link (messageList, settings, {})`. -/
def Performer.link (p : Performer) (settings : BuildSettings) : Bool × Performer :=
  (p.linkResult p.history settings, p.record (Call.link settings))

/-- The call `performer->unload()`. -/
def Performer.unload (p : Performer) : Performer := p.record Call.unload

/-- The call `performer->getEndpointHandle (endpointID)`. -/
def Performer.getEndpointHandle (p : Performer) (endpointID : EndpointID) :
    EndpointHandle × Performer :=
  (p.endpointHandle p.history endpointID, p.record (Call.getEndpointHandle endpointID))

/-- The query `performer->getInputEndpoints()`. -/
def Performer.getInputEndpoints (p : Performer) : List EndpointDetails :=
  p.inputEndpoints p.history

/-- The query `performer->getOutputEndpoints()`. -/
def Performer.getOutputEndpoints (p : Performer) : List EndpointDetails :=
  p.outputEndpoints p.history

/-- The query `performer->isLinked()`. -/
def Performer.isLinked (p : Performer) : Bool := p.linked p.history

/-- The query `performer->getXRuns()`. -/
def Performer.getXRuns (p : Performer) : Nat := p.xruns p.history

/-! ## Venue and session state -/

/-- The `SessionState` enumeration. -/
inductive SessionState
  | empty
  | loaded
  | linked
  | running
  deriving DecidableEq, Repr

/-- The struct `AudioPlayerVenue::EndpointInfo`. -/
structure EndpointInfo where
  details : EndpointDetails
  audioChannelIndex : Int
  isMIDI : Bool
  deriving DecidableEq, Repr

/-- The struct `AudioPlayerSession::Connection`. -/
structure Connection where
  audioInputStreamIndex : Int
  audioOutputStreamIndex : Int
  isMIDI : Bool
  endpointID : EndpointID
  deriving DecidableEq, Repr

/-- The three closures `buildOperationList` pushes on the operation lists, as records of
what each has captured. -/
inductive RenderOp
  | midiInput (endpointHandle : EndpointHandle)
  | audioInput (endpointHandle : EndpointHandle) (startChannel numChans bufferFrames : Nat)
  | audioOutput (endpointHandle : EndpointHandle) (startChannel numChans : Nat)
  deriving DecidableEq, Repr

/-- The struct `AudioPlayerSession::EndpointCallback`; the callable is a number. -/
structure EndpointCallback where
  endpointHandle : EndpointHandle
  callback : Nat
  deriving DecidableEq, Repr

/-- The state of an `AudioPlayerVenue` that its sessions read and write: the endpoint
catalog, the list `activeSessions` of session pointers (a session is named by the number
`AudioPlayerSession.self`), whether `audioSystem.setCallback` last installed the venue
(`true`) or `nullptr` (`false`), and the xrun count the audio system reports. -/
structure AudioPlayerVenue where
  sourceEndpoints : List EndpointInfo
  sinkEndpoints : List EndpointInfo
  activeSessions : List Nat
  callbackInstalled : Bool
  deviceBlockSize : Nat
  deviceXruns : Int

/-- The data members of `AudioPlayerSession`. `self` is the identity of the object (its
`this` pointer); `stateChangeCallback` is the registered callable, if any, and
`stateChangeLog` lists the states it has been invoked with. -/
structure AudioPlayerSession where
  self : Nat
  performer : Performer
  maxBlockSize : Nat
  totalFramesRendered : Nat
  stateChangeCallback : Option Nat
  stateChangeLog : List SessionState
  inputCallbacks : List EndpointCallback
  outputCallbacks : List EndpointCallback
  connections : List Connection
  preRenderOperations : List RenderOp
  postRenderOperations : List RenderOp
  state : SessionState

/-- The constructor `AudioPlayerSession (venue)` for a performer made by the factory. -/
def AudioPlayerSession.create (self : Nat) (performer : Performer) : AudioPlayerSession :=
  { self := self, performer := performer, maxBlockSize := 0, totalFramesRendered := 0,
    stateChangeCallback := none, stateChangeLog := [], inputCallbacks := [],
    outputCallbacks := [], connections := [], preRenderOperations := [],
    postRenderOperations := [], state := SessionState.empty }

/-! ## Venue operations -/

/-- `AudioPlayerVenue::startSession (s)`. -/
def AudioPlayerVenue.startSession (v : AudioPlayerVenue) (s : Nat) : Bool × AudioPlayerVenue :=
  let v := if s ∈ v.activeSessions then v else { v with activeSessions := v.activeSessions ++ [s] }
  (true, { v with callbackInstalled := true })

/-- `AudioPlayerVenue::stopSession (s)`. -/
def AudioPlayerVenue.stopSession (v : AudioPlayerVenue) (s : Nat) : Bool × AudioPlayerVenue :=
  let v := { v with activeSessions := v.activeSessions.erase s }
  (true, if v.activeSessions.isEmpty then { v with callbackInstalled := false } else v)

/-- `AudioPlayerVenue::findEndpoint (endpoints, endpointID)`. -/
def findEndpoint (endpoints : List EndpointInfo) (endpointID : EndpointID) : Option EndpointInfo :=
  endpoints.find? (fun e => decide (e.details.endpointID = endpointID))

/-- `AudioPlayerVenue::addEndpoint`. -/
def addEndpoint (list : List EndpointInfo) (endpointType : EndpointType) (id : EndpointID)
    (name : String) (dataType : ValueType) (audioChannelIndex : Int) (isMIDI : Bool) :
    List EndpointInfo :=
  list ++ [{ details := { endpointID := id, name := name, endpointType := endpointType,
                          dataTypes := [dataType] },
             audioChannelIndex := audioChannelIndex, isMIDI := isMIDI }]

/-- `AudioPlayerVenue::getVectorType (size)`. -/
def getVectorType (size : Int) : ValueType := ValueType.vector true size.toNat

/-- `AudioPlayerVenue::createDeviceEndpoints`, giving the source and the sink catalog. -/
def createDeviceEndpoints (numInputChannels numOutputChannels : Int) :
    List EndpointInfo × List EndpointInfo :=
  let sources : List EndpointInfo :=
    if numInputChannels > 0 then
      addEndpoint [] EndpointType.stream "defaultIn" "defaultIn" (getVectorType numInputChannels) 0 false
    else []
  let sinks : List EndpointInfo :=
    if numOutputChannels > 0 then
      addEndpoint [] EndpointType.stream "defaultOut" "defaultOut" (getVectorType numOutputChannels) 0 false
    else []
  (addEndpoint sources EndpointType.event "defaultMidiIn" "defaultMidiIn" ValueType.midiMessage 0 true,
   addEndpoint sinks EndpointType.event "defaultMidiOut" "defaultMidiOut" ValueType.midiMessage 0 true)

/-- The constructor `AudioPlayerVenue (requirements, factory)`. -/
def AudioPlayerVenue.create (numInputChannels numOutputChannels : Int) (deviceBlockSize : Nat)
    (deviceXruns : Int) : AudioPlayerVenue :=
  let endpoints := createDeviceEndpoints numInputChannels numOutputChannels
  { sourceEndpoints := endpoints.1, sinkEndpoints := endpoints.2, activeSessions := [],
    callbackInstalled := false, deviceBlockSize := deviceBlockSize, deviceXruns := deviceXruns }

/-! ## Session operations -/

/-- `AudioPlayerSession::setState (newState)`. -/
def AudioPlayerSession.setState (s : AudioPlayerSession) (newState : SessionState) :
    AudioPlayerSession :=
  if s.state ≠ newState then
    let s := { s with state := newState }
    if s.stateChangeCallback.isSome then
      { s with stateChangeLog := s.stateChangeLog ++ [s.state] }
    else s
  else s

/-- `AudioPlayerSession::isRunning()`. -/
def AudioPlayerSession.isRunning (s : AudioPlayerSession) : Bool :=
  decide (s.state = SessionState.running)

/-- `AudioPlayerSession::getTotalFramesRendered()`. -/
def AudioPlayerSession.getTotalFramesRendered (s : AudioPlayerSession) : Nat :=
  s.totalFramesRendered

/-- `AudioPlayerSession::stop()`. -/
def AudioPlayerSession.stop (v : AudioPlayerVenue) (s : AudioPlayerSession) :
    AudioPlayerVenue × AudioPlayerSession :=
  if s.isRunning then
    let v := (v.stopSession s.self).2
    let s := s.setState SessionState.linked
    (v, { s with totalFramesRendered := 0 })
  else (v, s)

/-- `AudioPlayerSession::unload()`. -/
def AudioPlayerSession.unload (v : AudioPlayerVenue) (s : AudioPlayerSession) :
    AudioPlayerVenue × AudioPlayerSession :=
  let stopped := AudioPlayerSession.stop v s
  let s := stopped.2
  let s := { s with performer := s.performer.unload }
  let s := { s with preRenderOperations := [] }
  let s := { s with postRenderOperations := [] }
  let s := { s with inputCallbacks := [] }
  let s := { s with outputCallbacks := [] }
  let s := { s with connections := [] }
  (stopped.1, s.setState SessionState.empty)

/-- `AudioPlayerSession::load (messageList, program)`; the message list is only handed on
to the performer. -/
def AudioPlayerSession.load (v : AudioPlayerVenue) (s : AudioPlayerSession) (program : Program) :
    Bool × AudioPlayerVenue × AudioPlayerSession :=
  if program.isEmpty then (false, v, s)
  else
    let unloaded := AudioPlayerSession.unload v s
    let s := unloaded.2
    let loaded := s.performer.load program
    let s := { s with performer := loaded.2 }
    if loaded.1 then (true, unloaded.1, s.setState SessionState.loaded)
    else (false, unloaded.1, s)

/-- The body of the loop of `buildOperationList` for one connection. `none` stands for a
failed internal assertion (`SOUL_ASSERT_FALSE`, or the one inside `findDetailsForID` and
`getFrameType`). -/
def AudioPlayerSession.buildOperation (s : AudioPlayerSession) (connection : Connection) :
    Option AudioPlayerSession :=
  let resolved := s.performer.getEndpointHandle connection.endpointID
  let endpointHandle := resolved.1
  let s := { s with performer := resolved.2 }
  if connection.isMIDI then
    match findDetailsForID s.performer.getInputEndpoints connection.endpointID with
    | none => none
    | some details =>
      if isMIDIEventEndpoint details then
        some { s with preRenderOperations :=
                 s.preRenderOperations ++ [RenderOp.midiInput endpointHandle] }
      else some s
  else if connection.audioInputStreamIndex ≥ 0 then
    match findDetailsForID s.performer.getInputEndpoints connection.endpointID with
    | none => none
    | some details =>
      match details.getFrameType with
      | none => none
      | some frameType =>
        let startChannel := connection.audioInputStreamIndex.toNat
        let numChans := frameType.getNumElements
        if frameType.isFloat || frameType.isVectorOfFloat then
          some { s with preRenderOperations := s.preRenderOperations ++
                   [RenderOp.audioInput endpointHandle startChannel numChans s.maxBlockSize] }
        else none
  else if connection.audioOutputStreamIndex ≥ 0 then
    match findDetailsForID s.performer.getOutputEndpoints connection.endpointID with
    | none => none
    | some details =>
      match details.getFrameType with
      | none => none
      | some frameType =>
        let startChannel := connection.audioOutputStreamIndex.toNat
        let numChans := frameType.getNumElements
        if frameType.isFloat || frameType.isVectorOfFloat then
          some { s with postRenderOperations := s.postRenderOperations ++
                   [RenderOp.audioOutput endpointHandle startChannel numChans] }
        else none
  else some s

/-- The loop `for (auto& connection : connections)` of `buildOperationList`. -/
def AudioPlayerSession.buildOperations :
    List Connection → AudioPlayerSession → Option AudioPlayerSession
  | [], s => some s
  | connection :: rest, s =>
    match s.buildOperation connection with
    | none => none
    | some s => AudioPlayerSession.buildOperations rest s

/-- `AudioPlayerSession::buildOperationList()`; `none` when an internal assertion fails. -/
def AudioPlayerSession.buildOperationList (s : AudioPlayerSession) : Option AudioPlayerSession :=
  let s := { s with preRenderOperations := [] }
  let s := { s with postRenderOperations := [] }
  AudioPlayerSession.buildOperations s.connections s

/-- `AudioPlayerSession::link (messageList, settings)`; `none` when an internal assertion
of `buildOperationList` fails, so that `link` does not return. -/
def AudioPlayerSession.link (s : AudioPlayerSession) (settings : BuildSettings) :
    Option (Bool × AudioPlayerSession) :=
  let s := { s with maxBlockSize := settings.maxBlockSize }
  match s.buildOperationList with
  | none => none
  | some s =>
    if s.state = SessionState.loaded then
      let linked := s.performer.link settings
      let s := { s with performer := linked.2 }
      if linked.1 then some (true, s.setState SessionState.linked)
      else some (false, s)
    else some (false, s)

/-- `AudioPlayerSession::start()`; `none` when `SOUL_ASSERT (performer->isLinked())`
fails. -/
def AudioPlayerSession.start (v : AudioPlayerVenue) (s : AudioPlayerSession) :
    Option (Bool × AudioPlayerVenue × AudioPlayerSession) :=
  if s.state = SessionState.linked then
    if s.performer.isLinked then
      let started := v.startSession s.self
      let s := if started.1 then s.setState SessionState.running else s
      some (s.isRunning, started.2, s)
    else none
  else some (s.isRunning, v, s)

/-- The struct `Status` without its floating-point members `cpu` and `sampleRate`. -/
structure Status where
  state : SessionState
  blockSize : Nat
  xruns : Nat
  deriving DecidableEq, Repr

/-- `AudioPlayerSession::getStatus()`. -/
def AudioPlayerSession.getStatus (v : AudioPlayerVenue) (s : AudioPlayerSession) : Status :=
  let xruns := s.performer.getXRuns
  let deviceXruns := v.deviceXruns
  { state := s.state, blockSize := v.deviceBlockSize,
    xruns := if deviceXruns > 0 then (xruns + deviceXruns.toNat % UINT32) % UINT32 else xruns }

/-- The loop of `connectInputEndpoint` over `performer->getInputEndpoints()`. -/
def connectInputLoop (externalEndpoint : EndpointInfo) (inputID : EndpointID) :
    List EndpointDetails → Option Connection
  | [] => none
  | details :: rest =>
    if details.endpointID = inputID then
      if isStream details && !externalEndpoint.isMIDI then
        some { audioInputStreamIndex := externalEndpoint.audioChannelIndex,
               audioOutputStreamIndex := -1, isMIDI := false, endpointID := details.endpointID }
      else if isEvent details && externalEndpoint.isMIDI then
        some { audioInputStreamIndex := -1, audioOutputStreamIndex := -1, isMIDI := true,
               endpointID := details.endpointID }
      else connectInputLoop externalEndpoint inputID rest
    else connectInputLoop externalEndpoint inputID rest

/-- `AudioPlayerSession::connectInputEndpoint (externalEndpoint, inputID)`. -/
def AudioPlayerSession.connectInputEndpoint (s : AudioPlayerSession)
    (externalEndpoint : EndpointInfo) (inputID : EndpointID) : Bool × AudioPlayerSession :=
  match connectInputLoop externalEndpoint inputID s.performer.getInputEndpoints with
  | some connection => (true, { s with connections := s.connections ++ [connection] })
  | none => (false, s)

/-- The loop of `connectOutputEndpoint` over `performer->getOutputEndpoints()`. -/
def connectOutputLoop (externalEndpoint : EndpointInfo) (outputID : EndpointID) :
    List EndpointDetails → Option Connection
  | [] => none
  | details :: rest =>
    if details.endpointID = outputID then
      if isStream details && !externalEndpoint.isMIDI then
        some { audioInputStreamIndex := -1,
               audioOutputStreamIndex := externalEndpoint.audioChannelIndex,
               isMIDI := false, endpointID := details.endpointID }
      else connectOutputLoop externalEndpoint outputID rest
    else connectOutputLoop externalEndpoint outputID rest

/-- `AudioPlayerSession::connectOutputEndpoint (externalEndpoint, outputID)`. -/
def AudioPlayerSession.connectOutputEndpoint (s : AudioPlayerSession)
    (externalEndpoint : EndpointInfo) (outputID : EndpointID) : Bool × AudioPlayerSession :=
  match connectOutputLoop externalEndpoint outputID s.performer.getOutputEndpoints with
  | some connection => (true, { s with connections := s.connections ++ [connection] })
  | none => (false, s)

/-- `AudioPlayerSession::connectSessionInputEndpoint (inputID, venueSourceID)`. -/
def AudioPlayerSession.connectSessionInputEndpoint (v : AudioPlayerVenue) (s : AudioPlayerSession)
    (inputID venueSourceID : EndpointID) : Bool × AudioPlayerSession :=
  match findEndpoint v.sourceEndpoints venueSourceID with
  | some venueEndpoint => s.connectInputEndpoint venueEndpoint inputID
  | none => (false, s)

/-- `AudioPlayerSession::connectSessionOutputEndpoint (outputID, venueSinkID)`. -/
def AudioPlayerSession.connectSessionOutputEndpoint (v : AudioPlayerVenue) (s : AudioPlayerSession)
    (outputID venueSinkID : EndpointID) : Bool × AudioPlayerSession :=
  match findEndpoint v.sinkEndpoints venueSinkID with
  | some venueEndpoint => s.connectOutputEndpoint venueEndpoint outputID
  | none => (false, s)

/-- The helper `containsEndpoint (list, endpointID)`. -/
def containsEndpoint (endpoints : List EndpointDetails) (endpointID : EndpointID) : Bool :=
  endpoints.any (fun d => decide (d.endpointID = endpointID))

/-- `AudioPlayerSession::setInputEndpointServiceCallback (endpoint, callback)`. -/
def AudioPlayerSession.setInputEndpointServiceCallback (s : AudioPlayerSession)
    (endpoint : EndpointID) (callback : Nat) : Bool × AudioPlayerSession :=
  if !containsEndpoint s.performer.getInputEndpoints endpoint then (false, s)
  else
    let resolved := s.performer.getEndpointHandle endpoint
    (true, { s with
      performer := resolved.2
      inputCallbacks := s.inputCallbacks ++ [{ endpointHandle := resolved.1, callback := callback }] })

/-- `AudioPlayerSession::setOutputEndpointServiceCallback (endpoint, callback)`. -/
def AudioPlayerSession.setOutputEndpointServiceCallback (s : AudioPlayerSession)
    (endpoint : EndpointID) (callback : Nat) : Bool × AudioPlayerSession :=
  if !containsEndpoint s.performer.getOutputEndpoints endpoint then (false, s)
  else
    let resolved := s.performer.getEndpointHandle endpoint
    (true, { s with
      performer := resolved.2
      outputCallbacks := s.outputCallbacks ++ [{ endpointHandle := resolved.1, callback := callback }] })

/-- `AudioPlayerSession::setStateChangeCallback (f)`. -/
def AudioPlayerSession.setStateChangeCallback (s : AudioPlayerSession) (f : Option Nat) :
    AudioPlayerSession :=
  { s with stateChangeCallback := f }

/-! ## The realtime path -/

/-- Runs one closure of the operation lists on a sub-block context. The MIDI closure calls
`perf.addInputEvent` once for each `rc.midiIn[i]`, `i = 0 .. rc.midiInCount - 1`; the audio
closures hand the interleaved buffer to the performer or fetch its output frames (the
copied samples are not represented). -/
def RenderOp.run (op : RenderOp) (rc : RenderContext) (perf : Performer) : Performer :=
  match op with
  | RenderOp.midiInput endpointHandle =>
    rc.midiIn.foldl
      (fun p e => p.record (Call.addInputEvent endpointHandle e.getPackedMIDIData)) perf
  | RenderOp.audioInput endpointHandle _ numChans bufferFrames =>
    perf.record (Call.setNextInputStreamFrames endpointHandle bufferFrames numChans)
  | RenderOp.audioOutput endpointHandle _ _ =>
    perf.record (Call.getOutputStreamFrames endpointHandle)

/-- Runs a whole operation list, front to back. -/
def runOperations (ops : List RenderOp) (rc : RenderContext) (perf : Performer) : Performer :=
  ops.foldl (fun p op => op.run rc p) perf

/-- Runs a list of endpoint service callbacks, front to back. -/
def runCallbacks (callbacks : List EndpointCallback) (perf : Performer) : Performer :=
  callbacks.foldl (fun p c => p.record (Call.serviceCallback c.callback c.endpointHandle)) perf

/-- The lambda that `processBlock` passes to `iterateInBlocks`. -/
def AudioPlayerSession.renderBlock (rc : RenderContext) (s : AudioPlayerSession) :
    RenderContext × AudioPlayerSession :=
  let perf := s.performer.record (Call.prepare rc.inputChannels.getNumFrames)
  let perf := runOperations s.preRenderOperations rc perf
  let perf := runCallbacks s.inputCallbacks perf
  let perf := perf.record Call.advance
  let perf := runOperations s.postRenderOperations rc perf
  let perf := runCallbacks s.outputCallbacks perf
  (rc, { s with performer := perf })

/-- The statements `context.totalFramesRendered = totalFramesRendered;` and
`context.iterateInBlocks (maxFramesPerBlock, [&] (RenderContext& rc) { ... });` of
`processBlock`. The loop of `iterateInBlocks` is given one pass per input frame, which
is as many as it can need once the block limit is positive. -/
def AudioPlayerSession.iterateBlock (s : AudioPlayerSession) (context : RenderContext) :
    IterateOutcome AudioPlayerSession :=
  let maxFramesPerBlock := min 512 s.maxBlockSize
  let context := { context with totalFramesRendered := s.totalFramesRendered }
  context.iterateInBlocks context.inputChannels.getNumFrames maxFramesPerBlock
    AudioPlayerSession.renderBlock s

/-- `AudioPlayerSession::processBlock (context)`. `none` when `SOUL_ASSERT (maxBlockSize > 0)`
fails (or if the loop were cut short by its budget, which does not happen). -/
def AudioPlayerSession.processBlock (s : AudioPlayerSession) (context : RenderContext) :
    Option AudioPlayerSession :=
  if s.maxBlockSize > 0 then
    let out := s.iterateBlock context
    if out.finished then
      some { out.user with
        totalFramesRendered :=
          (out.user.totalFramesRendered + out.self.outputChannels.getNumFrames) % UINT64 }
    else none
  else none

/-- Successive `processBlock` calls, one for each context of the list. -/
def AudioPlayerSession.processBlocks :
    AudioPlayerSession → List RenderContext → Option AudioPlayerSession
  | s, [] => some s
  | s, context :: rest =>
    match s.processBlock context with
    | none => none
    | some s => AudioPlayerSession.processBlocks s rest

/-! ## The device callback and the active-session list -/

/-- The sessions a venue points to: the object behind each `AudioPlayerSession*`. -/
abbrev SessionStore := Nat → AudioPlayerSession

/-- The loop `for (auto& s : activeSessions) s->processBlock (context);` of
`AudioPlayerVenue::render`. The result holds the sessions afterwards and, in call order,
the sessions on which `processBlock` was invoked; `none` when a `processBlock` fails its
assertion. -/
def renderLoop (context : RenderContext) : List Nat → SessionStore → Option (SessionStore × List Nat)
  | [], sessions => some (sessions, [])
  | s :: rest, sessions =>
    match (sessions s).processBlock context with
    | none => none
    | some s' =>
      match renderLoop context rest (Function.update sessions s s') with
      | none => none
      | some done => some (done.1, s :: done.2)

/-- `AudioPlayerVenue::render (input, output, midiIn, midiInCount)`. -/
def AudioPlayerVenue.render (v : AudioPlayerVenue) (sessions : SessionStore)
    (input output : ChannelArrayView) (midiIn : List MIDIEvent) :
    Option (SessionStore × List Nat) :=
  renderLoop (deviceContext input output midiIn) v.activeSessions sessions

/-- A call of `startSession` or `stopSession` on a venue. -/
inductive VenueCall
  | startSession (s : Nat)
  | stopSession (s : Nat)
  deriving DecidableEq, Repr

/-- The venue after one `startSession` or `stopSession` call. -/
def AudioPlayerVenue.call (v : AudioPlayerVenue) : VenueCall → AudioPlayerVenue
  | VenueCall.startSession s => (v.startSession s).2
  | VenueCall.stopSession s => (v.stopSession s).2

/-- The venue after a sequence of `startSession` and `stopSession` calls. -/
def AudioPlayerVenue.callAll (v : AudioPlayerVenue) (calls : List VenueCall) : AudioPlayerVenue :=
  calls.foldl AudioPlayerVenue.call v

/-! ## The patch instance -/

/-- The fields of `CompilationMessage` that `compileNewPlayer` writes. -/
structure CompilationMessage where
  fullMessage : String
  description : String
  isError : Bool
  deriving DecidableEq, Repr

/-- The fields of `PatchPlayerConfiguration` that `compileNewPlayer` reads; the sample
rate is a `double` that is only copied. -/
structure PatchPlayerConfiguration where
  sampleRate : Nat
  maxFramesPerBlock : Nat
  deriving DecidableEq, Repr

/-- Modelled from the spec: the `FileList` of a patch instance, whose declaration is
outside the two source files: "a tree of virtual files rooted at the manifest's parent
directory", kept as the manifest name and the names of the files found. -/
structure FileList where
  manifestName : String
  files : List String
  deriving DecidableEq, Repr

/-- Modelled from the spec: `PatchPlayerImpl`, whose declaration is outside the two source
files: "a player bound to the current file list and a new performer" with a
"compile-message list". `compiledWith` records the settings of the `compile` call made on
the player, if any, and `statusUpdated` that `updateCompileMessageStatus` was called. -/
structure PatchPlayerImpl where
  fileList : FileList
  config : PatchPlayerConfiguration
  performer : Nat
  compileMessages : List CompilationMessage
  compiledWith : Option BuildSettings
  statusUpdated : Bool
  deriving DecidableEq, Repr

/-- Modelled from the spec: the constructor `PatchPlayerImpl (fileList, config, performer)`;
a new player has no compile message and has not been compiled. -/
def PatchPlayerImpl.create (fileList : FileList) (config : PatchPlayerConfiguration)
    (performer : Nat) : PatchPlayerImpl :=
  { fileList := fileList, config := config, performer := performer, compileMessages := [],
    compiledWith := none, statusUpdated := false }

/-- The collaborators of a patch instance, each a function of what it is handed. A
`PatchLoadError` is an `Except.error` carrying its message.
* `refresh` is `fileList.refresh()`: the refreshed file list, or the error together with
  the file list as the failed refresh left it;
* `describe` is `fileList.createDescription()`;
* `compile` is `PatchPlayerImpl::compile (settings, cache, preprocessor,
  externalDataProvider, consoleHandler)` with its four collaborators fixed: the compile
  messages it leaves on the player, or the error;
* `createPerformer` is `performerFactory->createPerformer()`, the n-th performer made. -/
structure PatchCollaborators where
  refresh : FileList → Except (String × FileList) FileList
  describe : FileList → Except String String
  compile : PatchPlayerImpl → BuildSettings → Except String (List CompilationMessage)
  createPerformer : Nat → Nat

/-- The data members of `PatchInstanceImpl` that change, and the number of performers the
factory has made so far. -/
structure PatchInstanceImpl where
  fileList : FileList
  description : Option String
  performersMade : Nat
  deriving DecidableEq, Repr

/-- `PatchInstanceImpl::refreshFileList()`: an error carries the message of the
`PatchLoadError` and the instance as the failed call left it. -/
def PatchInstanceImpl.refreshFileList (env : PatchCollaborators) (inst : PatchInstanceImpl) :
    Except (String × PatchInstanceImpl) PatchInstanceImpl :=
  match env.refresh inst.fileList with
  | Except.error failed => Except.error (failed.1, { inst with fileList := failed.2 })
  | Except.ok fileList =>
    let inst := { inst with fileList := fileList }
    match env.describe inst.fileList with
    | Except.error message => Except.error (message, inst)
    | Except.ok description => Except.ok { inst with description := some description }

/-- The `try` block of `compileNewPlayer`: the player assigned to `patch`, or the message
of the `PatchLoadError` thrown, each with the instance as the block left it. -/
def PatchInstanceImpl.tryCompile (env : PatchCollaborators) (inst : PatchInstanceImpl)
    (config : PatchPlayerConfiguration) :
    Except (String × PatchInstanceImpl) (PatchPlayerImpl × PatchInstanceImpl) :=
  match inst.refreshFileList env with
  | Except.error failed => Except.error failed
  | Except.ok inst =>
    let patchImpl := PatchPlayerImpl.create inst.fileList config
      (env.createPerformer inst.performersMade)
    let inst := { inst with performersMade := inst.performersMade + 1 }
    let settings : BuildSettings :=
      { sampleRate := config.sampleRate, maxBlockSize := config.maxFramesPerBlock }
    match env.compile patchImpl settings with
    | Except.error message => Except.error (message, inst)
    | Except.ok messages =>
      Except.ok ({ patchImpl with compileMessages := messages, compiledWith := some settings },
                 inst)

/-- `PatchInstanceImpl::compileNewPlayer (config, cache, preprocessor, externalDataProvider,
consoleHandler)`: the pointer returned (`none` for a null pointer) and the instance
afterwards. -/
def PatchInstanceImpl.compileNewPlayer (env : PatchCollaborators) (inst : PatchInstanceImpl)
    (config : PatchPlayerConfiguration) : Option PatchPlayerImpl × PatchInstanceImpl :=
  match inst.tryCompile env config with
  | Except.ok done => (some done.1, done.2)
  | Except.error failed =>
    let inst := failed.2
    let patchImpl := PatchPlayerImpl.create inst.fileList config
      (env.createPerformer inst.performersMade)
    let inst := { inst with performersMade := inst.performersMade + 1 }
    let cm : CompilationMessage :=
      { fullMessage := failed.1, description := failed.1, isError := true }
    let patchImpl := { patchImpl with compileMessages := patchImpl.compileMessages ++ [cm] }
    let patchImpl := { patchImpl with statusUpdated := true }
    (some patchImpl, inst)

/-! ## Auxiliary definitions used to state the properties -/

/-- One pass of the outer loop of `iterateInBlocks` seen from `*this`: the value of
`frameOffset` when the pass starts, the final `framesToDo`, and the span of MIDI events
moved into the context. -/
structure SubBlock where
  frameOffset : Nat
  framesToDo : Nat
  midi : List MIDIEvent
  deriving DecidableEq, Repr

/-- The passes of the outer loop of `iterateInBlocks`, as a function of the only values
that steer it: `frameOffset`, `framesRemaining` and the MIDI span of `*this`. -/
def blockPlan (maxFramesPerBlock : Nat) : Nat → Nat → Nat → List MIDIEvent → List SubBlock
  | 0, _, _, _ => []
  | fuel + 1, frameOffset, framesRemaining, midiIn =>
    if framesRemaining = 0 then []
    else
      let scan := scanMidi frameOffset (min maxFramesPerBlock framesRemaining) midiIn
      { frameOffset := frameOffset, framesToDo := scan.framesToDo, midi := scan.taken } ::
        blockPlan maxFramesPerBlock fuel ((frameOffset + scan.framesToDo) % UINT32)
          (framesRemaining - scan.framesToDo) scan.midiIn

/-- The context fields that a pass of the loop writes from `*this` before `render`. -/
def SubBlock.view (input output : ChannelArrayView) (b : SubBlock) :
    ChannelArrayView × ChannelArrayView × List MIDIEvent :=
  let range : FrameRange :=
    { start := b.frameOffset, stop := (b.frameOffset + b.framesToDo) % UINT32 }
  (input.getFrameRange range, output.getFrameRange range, b.midi)

/-- The same fields read back from a context handed to `render`. -/
def RenderContext.view (c : RenderContext) : ChannelArrayView × ChannelArrayView × List MIDIEvent :=
  (c.inputChannels, c.outputChannels, c.midiIn)

/-- The frame windows of the sub-blocks `calls`, cut from the views `input` and `output`,
follow one another without gap or overlap from frame `a` to frame `b` of those views:
each sub-block starts at the frame where the one before it ended, on the input and on the
output side alike. -/
def TilesFrames (input output : ChannelArrayView) : Nat → Nat → List RenderContext → Prop
  | a, b, [] => a = b
  | a, b, c :: cs =>
    c.inputChannels.firstFrame = input.firstFrame + a ∧
      c.outputChannels.firstFrame = output.firstFrame + a ∧
      c.outputChannels.getNumFrames = c.inputChannels.getNumFrames ∧
      TilesFrames input output (a + c.inputChannels.getNumFrames) b cs

/-- Frame counts of the sub-blocks handed to `render`. -/
def frameCounts (calls : List RenderContext) : List Nat :=
  calls.map (fun c => c.inputChannels.getNumFrames)

/-- Numbers of MIDI events in the spans handed to `render`. -/
def midiCounts (calls : List RenderContext) : List Nat :=
  calls.map (fun c => c.midiIn.length)

/-- A context handed to `render`, read as a pass of the loop over a view whose first
frame is `origin`: where its frame window starts, how long it is, and its MIDI span. -/
def RenderContext.toSubBlock (origin : Nat) (c : RenderContext) : SubBlock :=
  { frameOffset := c.inputChannels.firstFrame - origin,
    framesToDo := c.inputChannels.getNumFrames,
    midi := c.midiIn }

/-- The frame count of a `prepare` call, and nothing for any other history entry. -/
def Call.preparedFrames? : Call → Option Nat
  | Call.prepare n => some n
  | _ => none

/-- The frame counts of the `prepare` calls of a performer history, in call order. -/
def preparedFrames (history : List Call) : List Nat :=
  history.filterMap Call.preparedFrames?

/-- The sub-block length in the words of the spec: for a sub-block that starts at offset
`f` with `r` frames remaining and the events `pending` not yet consumed,
`min (maxFramesPerBlock, r, t - f)` where `t` is the frame index of the first pending event
with frame index above `f`, and `min (maxFramesPerBlock, r)` when there is none. -/
def splitLength (maxFramesPerBlock f r : Nat) (pending : List MIDIEvent) : Nat :=
  match pending.find? (fun e => decide (f < e.frameIndex)) with
  | some e => min (min maxFramesPerBlock r) (e.frameIndex - f)
  | none => min maxFramesPerBlock r

/-- Output frame counts of a sequence of device blocks. -/
def outputFrames (contexts : List RenderContext) : List Nat :=
  contexts.map (fun c => c.outputChannels.getNumFrames)

/-! ## Concrete inputs -/

/-- Scenario 1 of the spec: a device block of 1000 frames on two channels with MIDI
events at frames 50, 250 and 900. -/
def scenarioContext : RenderContext :=
  deviceContext { numChannels := 2, firstFrame := 0, numFrames := 1000 }
    { numChannels := 2, firstFrame := 0, numFrames := 1000 }
    [{ frameIndex := 50, packedBytes := 9453568 }, { frameIndex := 250, packedBytes := 8405056 },
     { frameIndex := 900, packedBytes := 9455360 }]

/-- A performer that accepts every program and every link, with one float stream input
`in`, one event input `midi` and one float stream output `out`. -/
def demoPerformer : Performer :=
  { history := []
    loadResult := fun _ _ => true
    linkResult := fun _ _ => true
    inputEndpoints := fun _ =>
      [{ endpointID := "in", name := "in", endpointType := EndpointType.stream,
         dataTypes := [ValueType.float] },
       { endpointID := "midi", name := "midi", endpointType := EndpointType.event,
         dataTypes := [ValueType.midiMessage] }]
    outputEndpoints := fun _ =>
      [{ endpointID := "out", name := "out", endpointType := EndpointType.stream,
         dataTypes := [ValueType.float] }]
    endpointHandle := fun _ endpointID => endpointID.length
    linked := fun _ => true
    xruns := fun _ => 0 }

/-- A venue on a device with two inputs and two outputs. -/
def demoVenue : AudioPlayerVenue := AudioPlayerVenue.create 2 2 512 0

/-- A non-empty program. -/
def demoProgram : Program := { isEmpty := false, uid := 1 }

/-- A session of `demoVenue` that is linked with a block size of 512 and whose MIDI
input is connected to the device. -/
def demoSession : AudioPlayerSession :=
  { self := 1, performer := demoPerformer, maxBlockSize := 512, totalFramesRendered := 0,
    stateChangeCallback := none, stateChangeLog := [], inputCallbacks := [],
    outputCallbacks := [],
    connections := [{ audioInputStreamIndex := -1, audioOutputStreamIndex := -1, isMIDI := true,
                      endpointID := "midi" }],
    preRenderOperations := [RenderOp.midiInput 4], postRenderOperations := [],
    state := SessionState.linked }

/-- A device block of 10 frames whose only MIDI event carries frame index 10. -/
def lateEventContext : RenderContext :=
  deviceContext { numChannels := 2, firstFrame := 0, numFrames := 10 }
    { numChannels := 2, firstFrame := 0, numFrames := 10 }
    [{ frameIndex := 10, packedBytes := 9453568 }]

/-- An empty program. -/
def emptyProgram : Program := { isEmpty := true, uid := 0 }

/-- A device block of 2^32 - 1 frames, the largest a `uint32_t` frame count allows. -/
def hugeContext : RenderContext :=
  deviceContext { numChannels := 2, firstFrame := 0, numFrames := 4294967295 }
    { numChannels := 2, firstFrame := 0, numFrames := 4294967295 } []

/-- A fresh session of `demoVenue` after `load (demoProgram)`. -/
def loadedDemo : Bool × AudioPlayerVenue × AudioPlayerSession :=
  AudioPlayerSession.load demoVenue (AudioPlayerSession.create 1 demoPerformer) demoProgram

/-- The session of `loadedDemo` after `link` with a block size of 512. -/
def linkedDemo : Option (Bool × AudioPlayerSession) :=
  loadedDemo.2.2.link { maxBlockSize := 512 }

/-- The session of `linkedDemo` after `start()`. -/
def startedDemo : Option (Bool × AudioPlayerVenue × AudioPlayerSession) :=
  linkedDemo.bind (fun linked => AudioPlayerSession.start loadedDemo.2.1 linked.2)

/-- The session of `startedDemo`: running, with `maxBlockSize` 512 and its frame counter
at 0. -/
def runningSession : AudioPlayerSession :=
  { self := 1
    performer := { demoPerformer with
      history := [Call.unload, Call.load demoProgram, Call.link { maxBlockSize := 512 }] }
    maxBlockSize := 512, totalFramesRendered := 0
    stateChangeCallback := none, stateChangeLog := [], inputCallbacks := [],
    outputCallbacks := [], connections := [], preRenderOperations := [],
    postRenderOperations := [], state := SessionState.running }

/-- The running session after its MIDI input was connected to the device, which `connect`
allows in every state. -/
def connectedWhileRunning : Bool × AudioPlayerSession :=
  AudioPlayerSession.connectSessionInputEndpoint demoVenue runningSession "midi" "defaultMidiIn"

/-- What a test reads from a session: state, `maxBlockSize`, the two operation lists and
the connections. -/
def AudioPlayerSession.observe (s : AudioPlayerSession) :
    SessionState × Nat × List RenderOp × List RenderOp × List Connection :=
  (s.state, s.maxBlockSize, s.preRenderOperations, s.postRenderOperations, s.connections)

/-! ## Auxiliary definitions for the venue and session properties -/

/-- A venue just built by its constructor. -/
def freshVenue (numInputChannels numOutputChannels : Int) (deviceBlockSize : Nat)
    (deviceXruns : Int) : AudioPlayerVenue :=
  AudioPlayerVenue.create numInputChannels numOutputChannels deviceBlockSize deviceXruns

/-- The calls on one session of a venue, and on the venue by its other sessions, that the
properties below consider: `Reachable v s` holds for a venue `v` built by its constructor
and a session `s` created on it, after any sequence of `load`, `link`, `start`, `stop`,
`unload`, `connectSessionInputEndpoint`, `connectSessionOutputEndpoint`, of `processBlock`
while the session is in the active list (which is when `render` calls it), of the three
callback setters, and of `startSession` / `stopSession` calls made for other sessions. A call that fails an internal
assertion does not return and yields no new state. -/
inductive Reachable : AudioPlayerVenue → AudioPlayerSession → Prop
  | create (numInputChannels numOutputChannels : Int) (deviceBlockSize : Nat) (deviceXruns : Int)
      (self : Nat) (performer : Performer) :
      Reachable (freshVenue numInputChannels numOutputChannels deviceBlockSize deviceXruns)
        (AudioPlayerSession.create self performer)
  | load (v : AudioPlayerVenue) (s : AudioPlayerSession) (program : Program) :
      Reachable v s →
      Reachable (AudioPlayerSession.load v s program).2.1 (AudioPlayerSession.load v s program).2.2
  | link (v : AudioPlayerVenue) (s : AudioPlayerSession) (settings : BuildSettings)
      (result : Bool) (s' : AudioPlayerSession) :
      Reachable v s → s.link settings = some (result, s') → Reachable v s'
  | start (v : AudioPlayerVenue) (s : AudioPlayerSession)
      (result : Bool) (v' : AudioPlayerVenue) (s' : AudioPlayerSession) :
      Reachable v s → AudioPlayerSession.start v s = some (result, v', s') → Reachable v' s'
  | stop (v : AudioPlayerVenue) (s : AudioPlayerSession) :
      Reachable v s →
      Reachable (AudioPlayerSession.stop v s).1 (AudioPlayerSession.stop v s).2
  | unload (v : AudioPlayerVenue) (s : AudioPlayerSession) :
      Reachable v s →
      Reachable (AudioPlayerSession.unload v s).1 (AudioPlayerSession.unload v s).2
  | connectInput (v : AudioPlayerVenue) (s : AudioPlayerSession)
      (inputID venueSourceID : EndpointID) :
      Reachable v s →
      Reachable v (AudioPlayerSession.connectSessionInputEndpoint v s inputID venueSourceID).2
  | connectOutput (v : AudioPlayerVenue) (s : AudioPlayerSession)
      (outputID venueSinkID : EndpointID) :
      Reachable v s →
      Reachable v (AudioPlayerSession.connectSessionOutputEndpoint v s outputID venueSinkID).2
  | processBlock (v : AudioPlayerVenue) (s : AudioPlayerSession) (context : RenderContext)
      (s' : AudioPlayerSession) :
      Reachable v s → s.self ∈ v.activeSessions → s.processBlock context = some s' →
      Reachable v s'
  | setInputCallback (v : AudioPlayerVenue) (s : AudioPlayerSession)
      (endpoint : EndpointID) (callback : Nat) :
      Reachable v s → Reachable v (s.setInputEndpointServiceCallback endpoint callback).2
  | setOutputCallback (v : AudioPlayerVenue) (s : AudioPlayerSession)
      (endpoint : EndpointID) (callback : Nat) :
      Reachable v s → Reachable v (s.setOutputEndpointServiceCallback endpoint callback).2
  | setStateChangeCallback (v : AudioPlayerVenue) (s : AudioPlayerSession) (f : Option Nat) :
      Reachable v s → Reachable v (s.setStateChangeCallback f)
  | otherCall (v : AudioPlayerVenue) (s : AudioPlayerSession) (call : VenueCall) :
      Reachable v s →
      call ≠ VenueCall.startSession s.self → call ≠ VenueCall.stopSession s.self →
      Reachable (v.call call) s

/-- Exactly one of the three selectors of a connection is active: `audioInputStreamIndex >= 0`,
`audioOutputStreamIndex >= 0`, or `isMIDI`. -/
def Connection.oneSelector (c : Connection) : Prop :=
  (0 ≤ c.audioInputStreamIndex ∧ ¬ 0 ≤ c.audioOutputStreamIndex ∧ c.isMIDI = false) ∨
  (¬ 0 ≤ c.audioInputStreamIndex ∧ 0 ≤ c.audioOutputStreamIndex ∧ c.isMIDI = false) ∨
  (¬ 0 ≤ c.audioInputStreamIndex ∧ ¬ 0 ≤ c.audioOutputStreamIndex ∧ c.isMIDI = true)

/-- What holds of a venue and one of its sessions after every sequence of calls: no session
is twice in the active list, the session is in it exactly when it is running, its frame
counter is 0 unless it is running, each of its connections has exactly one selector active,
and every device endpoint that is not MIDI has a channel index of at least 0. -/
structure SessionInvariant (v : AudioPlayerVenue) (s : AudioPlayerSession) : Prop where
  nodup : v.activeSessions.Nodup
  active : s.self ∈ v.activeSessions ↔ s.state = SessionState.running
  counter : s.state ≠ SessionState.running → s.totalFramesRendered = 0
  connections : ∀ c ∈ s.connections, c.oneSelector
  sources : ∀ e ∈ v.sourceEndpoints, e.isMIDI = false → 0 ≤ e.audioChannelIndex
  sinks : ∀ e ∈ v.sinkEndpoints, e.isMIDI = false → 0 ≤ e.audioChannelIndex

/-- A record, kept beside a venue, of the call that started each session: `startedAt s` is
the number of the `startSession (s)` call since which session `s` is started, and `none`
when it is not started; `clock` counts the calls made. -/
structure StartLog where
  startedAt : Nat → Option Nat
  clock : Nat

/-- The record after one more call: a `startSession` of a session that is not started
notes the number of the call, a `stopSession` forgets the session. -/
def StartLog.call (log : StartLog) : VenueCall → StartLog
  | VenueCall.startSession s =>
    { startedAt := if (log.startedAt s).isSome then log.startedAt
                   else Function.update log.startedAt s (some log.clock),
      clock := log.clock + 1 }
  | VenueCall.stopSession s =>
    { startedAt := Function.update log.startedAt s none, clock := log.clock + 1 }

/-- The venue of `startedDemo`: session 1 is its only active session and the device
callback is installed. -/
def runningVenue : AudioPlayerVenue :=
  { demoVenue with activeSessions := [1], callbackInstalled := true }

/-- The session of `linkedDemo`: linked with `maxBlockSize` 512. -/
def linkedSession : AudioPlayerSession :=
  { runningSession with state := SessionState.linked }

/-- A performer like `demoPerformer` that reports `p` xruns. -/
def xrunPerformer (p : Nat) : Performer := { demoPerformer with xruns := fun _ => p }

/-- A venue like `demoVenue` whose device reports `d` xruns. -/
def xrunVenue (d : Int) : AudioPlayerVenue := { demoVenue with deviceXruns := d }

/-- A performer that accepts every program, whose stream input `count` and stream output
`level` carry 32-bit integers. -/
def intPerformer : Performer :=
  { demoPerformer with
    inputEndpoints := fun _ =>
      [{ endpointID := "count", name := "count", endpointType := EndpointType.stream,
         dataTypes := [ValueType.other 1] }]
    outputEndpoints := fun _ =>
      [{ endpointID := "level", name := "level", endpointType := EndpointType.stream,
         dataTypes := [ValueType.other 1] }] }

/-- A fresh session of `demoVenue` on `intPerformer` after `load (demoProgram)`. -/
def intLoaded : Bool × AudioPlayerVenue × AudioPlayerSession :=
  AudioPlayerSession.load demoVenue (AudioPlayerSession.create 2 intPerformer) demoProgram

/-- The session of `intLoaded` after its input `count` was connected to `defaultIn`. -/
def intConnectedInput : Bool × AudioPlayerSession :=
  AudioPlayerSession.connectSessionInputEndpoint intLoaded.2.1 intLoaded.2.2 "count" "defaultIn"

/-- The session of `intLoaded` after its output `level` was connected to `defaultOut`. -/
def intConnectedOutput : Bool × AudioPlayerSession :=
  AudioPlayerSession.connectSessionOutputEndpoint intLoaded.2.1 intLoaded.2.2 "level" "defaultOut"

/-- A patch instance with a manifest and no file found yet. -/
def demoInstance : PatchInstanceImpl :=
  { fileList := { manifestName := "demo.soulpatch", files := [] }, description := none,
    performersMade := 0 }

/-- A player configuration: 44100 Hz, blocks of 512 frames. -/
def demoConfiguration : PatchPlayerConfiguration := { sampleRate := 44100, maxFramesPerBlock := 512 }

/-- Collaborators of which the file-list refresh throws a `PatchLoadError` with the message
`cannot read manifest`. -/
def failingRefresh : PatchCollaborators :=
  { refresh := fun fileList => Except.error ("cannot read manifest", fileList)
    describe := fun _ => Except.ok "demo"
    compile := fun _ _ => Except.ok []
    createPerformer := fun n => n }

/-- Collaborators that all succeed; the refresh finds one source file. -/
def workingCollaborators : PatchCollaborators :=
  { refresh := fun fileList => Except.ok { fileList with files := ["demo.soul"] }
    describe := fun _ => Except.ok "demo"
    compile := fun _ _ => Except.ok []
    createPerformer := fun n => n }

/-- What holds of a venue and of the record of its start calls after every sequence of
`startSession` and `stopSession` calls on a fresh venue: no session is twice in the active
list, the list holds exactly the started sessions, in the order of the calls that started
them, every noted call number is below the clock, and the device callback is installed
exactly when the list is not empty. -/
structure VenueInvariant (v : AudioPlayerVenue) (log : StartLog) : Prop where
  nodup : v.activeSessions.Nodup
  started : ∀ s, s ∈ v.activeSessions ↔ (log.startedAt s).isSome = true
  ordered : v.activeSessions.Pairwise
    (fun a b => ∀ ta tb, log.startedAt a = some ta → log.startedAt b = some tb → ta < tb)
  past : ∀ s t, log.startedAt s = some t → t < log.clock
  callback : v.callbackInstalled = true ↔ v.activeSessions ≠ []

/-- The player carries the single fatal message `m` and was not compiled. -/
def PatchPlayerImpl.reportsOnly (p : PatchPlayerImpl) (m : String) : Prop :=
  p.compileMessages = [{ fullMessage := m, description := m, isError := true }] ∧
    p.compiledWith = none

/-- A venue together with the sessions that were created on it and are alive: `sessions p`
is the object at address `p`, and `none` when no session lives there. -/
structure VenueWorld where
  venue : AudioPlayerVenue
  sessions : Nat → Option AudioPlayerSession

/-- The world after a call on the session at `p` that left the venue as `v` and the session
as `s`. -/
def VenueWorld.set (w : VenueWorld) (p : Nat) (v : AudioPlayerVenue) (s : AudioPlayerSession) :
    VenueWorld :=
  { venue := v, sessions := Function.update w.sessions p (some s) }

/-- The world after the session at `p` is destroyed, its destructor having left the venue
as `v`. -/
def VenueWorld.remove (w : VenueWorld) (p : Nat) (v : AudioPlayerVenue) : VenueWorld :=
  { venue := v, sessions := Function.update w.sessions p none }

/-- The worlds that the calls on a venue and its sessions lead to: the venue is built by its
constructor, `createSession` makes a session at an address where none lives, and `load`,
`link`, `start`, `stop` and `unload` are called on any live session in any order; a session
may also be destroyed, which runs `unload` (`~AudioPlayerSession`). A call that fails an
internal assertion does not return and yields no new world. -/
inductive VenueReachable : VenueWorld → Prop
  | create (numInputChannels numOutputChannels : Int) (deviceBlockSize : Nat) (deviceXruns : Int) :
      VenueReachable
        { venue := freshVenue numInputChannels numOutputChannels deviceBlockSize deviceXruns,
          sessions := fun _ => none }
  | createSession (w : VenueWorld) (p : Nat) (performer : Performer) :
      VenueReachable w → w.sessions p = none →
      VenueReachable (w.set p w.venue (AudioPlayerSession.create p performer))
  | load (w : VenueWorld) (p : Nat) (s : AudioPlayerSession) (program : Program) :
      VenueReachable w → w.sessions p = some s →
      VenueReachable (w.set p (AudioPlayerSession.load w.venue s program).2.1
        (AudioPlayerSession.load w.venue s program).2.2)
  | link (w : VenueWorld) (p : Nat) (s : AudioPlayerSession) (settings : BuildSettings)
      (result : Bool) (s' : AudioPlayerSession) :
      VenueReachable w → w.sessions p = some s → s.link settings = some (result, s') →
      VenueReachable (w.set p w.venue s')
  | start (w : VenueWorld) (p : Nat) (s : AudioPlayerSession)
      (result : Bool) (v' : AudioPlayerVenue) (s' : AudioPlayerSession) :
      VenueReachable w → w.sessions p = some s →
      AudioPlayerSession.start w.venue s = some (result, v', s') →
      VenueReachable (w.set p v' s')
  | stop (w : VenueWorld) (p : Nat) (s : AudioPlayerSession) :
      VenueReachable w → w.sessions p = some s →
      VenueReachable (w.set p (AudioPlayerSession.stop w.venue s).1
        (AudioPlayerSession.stop w.venue s).2)
  | unload (w : VenueWorld) (p : Nat) (s : AudioPlayerSession) :
      VenueReachable w → w.sessions p = some s →
      VenueReachable (w.set p (AudioPlayerSession.unload w.venue s).1
        (AudioPlayerSession.unload w.venue s).2)
  | destroy (w : VenueWorld) (p : Nat) (s : AudioPlayerSession) :
      VenueReachable w → w.sessions p = some s →
      VenueReachable (w.remove p (AudioPlayerSession.unload w.venue s).1)

/-- What holds of a venue and all of its sessions after every sequence of calls: a session
is found under its own address, each session satisfies `SessionInvariant` with the venue,
no address without a session is in the active list, no session is twice in the list, and
every device endpoint that is not MIDI has a channel index of at least 0. -/
structure WorldInvariant (w : VenueWorld) : Prop where
  self : ∀ p s, w.sessions p = some s → s.self = p
  session : ∀ p s, w.sessions p = some s → SessionInvariant w.venue s
  absent : ∀ p, w.sessions p = none → p ∉ w.venue.activeSessions
  nodup : w.venue.activeSessions.Nodup
  sources : ∀ e ∈ w.venue.sourceEndpoints, e.isMIDI = false → 0 ≤ e.audioChannelIndex
  sinks : ∀ e ∈ w.venue.sinkEndpoints, e.isMIDI = false → 0 ≤ e.audioChannelIndex

/-- The world of `demoVenue` before any session is created. -/
def emptyWorld : VenueWorld := { venue := demoVenue, sessions := fun _ => none }

/-- The world of `demoVenue` after two sessions were created at addresses 1 and 2, session 1
was loaded, linked and started, and session 2 was loaded. -/
def demoWorld : VenueWorld :=
  { venue := runningVenue,
    sessions := Function.update (Function.update (fun _ => none) 1 (some runningSession)) 2
      (some (AudioPlayerSession.load runningVenue (AudioPlayerSession.create 2 demoPerformer)
        demoProgram).2.2) }

/-! ## Threads and the lock of the active-session list -/

/-- `std::recursive_mutex activeSessionLock`: the thread that owns it, if any, and how many
times that thread has locked it. -/
structure RecursiveMutex where
  owner : Option Nat
  depth : Nat
  deriving DecidableEq, Repr

/-- `lock()` by thread `t`, as the constructor of `std::lock_guard` calls it: `none` when
another thread owns the mutex, and the caller has to wait; the owner locks it once more. -/
def RecursiveMutex.lock (m : RecursiveMutex) (t : Nat) : Option RecursiveMutex :=
  match m.owner with
  | none => some { owner := some t, depth := 1 }
  | some o => if o = t then some { owner := some t, depth := m.depth + 1 } else none

/-- `unlock()` by the owner, as the destructor of `std::lock_guard` calls it. -/
def RecursiveMutex.unlock (m : RecursiveMutex) : RecursiveMutex :=
  if m.depth ≤ 1 then { owner := none, depth := 0 }
  else { owner := m.owner, depth := m.depth - 1 }

/-- Where a thread stands in a call of `AudioPlayerVenue::startSession`, `stopSession` or
`render`: `Called` before the `std::lock_guard` is constructed, `Locked` after that and
before the statements that follow it, `Returning` after them and before the guard is
destroyed. `renderDispatching next last` is the loop
`for (auto& s : activeSessions) s->processBlock (context);` of `render` about to compare
its iterator, at index `next`, with the end it found, at index `last`;
`renderProcessing next last` is that loop inside `processBlock` of the entry at index
`next`. -/
inductive Activity
  | startSessionCalled (s : Nat)
  | startSessionLocked (s : Nat)
  | startSessionReturning (s : Nat)
  | stopSessionCalled (s : Nat)
  | stopSessionLocked (s : Nat)
  | stopSessionReturning (s : Nat)
  | renderCalled
  | renderDispatching (next last : Nat)
  | renderProcessing (next last : Nat)
  | renderReturning
  deriving DecidableEq, Repr

/-- Whether the call is between the construction and the destruction of its
`std::lock_guard`. -/
def Activity.holdsLock : Activity → Bool
  | Activity.startSessionCalled _ => false
  | Activity.stopSessionCalled _ => false
  | Activity.renderCalled => false
  | _ => true

/-- Whether the call is inside the guarded part of `render`. -/
def Activity.inRender : Activity → Bool
  | Activity.renderDispatching _ _ => true
  | Activity.renderProcessing _ _ => true
  | Activity.renderReturning => true
  | _ => false

/-- What is observed of a venue: the statements of `startSession (s)` or `stopSession (s)`
ran, a `render` took the lock, called `processBlock` on a session, or released the lock. -/
inductive VenueEvent
  | call (c : VenueCall)
  | renderBegin
  | processBlock (s : Nat)
  | renderEnd
  deriving DecidableEq, Repr

/-- A venue used by several threads. `threads t` is the stack of the calls thread `t` is
in, innermost first, and empty when it is in none: `processBlock` runs the endpoint service
callbacks of the session (`c.callback (*this, c.endpointHandle)`), callables of the client
that can call `startSession` and `stopSession` of the venue (through `start`, `stop` or
`unload` of a session), and such a call stands above the `render` it was made from.
`iteratorsValid` tells whether the iterators of the loop of a `render` are valid: a
`push_back` or an erase on `activeSessions` invalidates them. `nestedCalls` counts the calls
made from inside `processBlock`, and `trace` lists the events in the order they happened.
What `processBlock` does to the session is `AudioPlayerSession.processBlock`; here only the
call is recorded. -/
structure VenueMachine where
  venue : AudioPlayerVenue
  activeSessionLock : RecursiveMutex
  threads : Nat → List Activity
  iteratorsValid : Bool
  nestedCalls : Nat
  trace : List VenueEvent

/-- The venue after its constructor, with every thread outside of it. -/
def VenueMachine.create (numInputChannels numOutputChannels : Int) (deviceBlockSize : Nat)
    (deviceXruns : Int) : VenueMachine :=
  { venue := freshVenue numInputChannels numOutputChannels deviceBlockSize deviceXruns,
    activeSessionLock := { owner := none, depth := 0 },
    threads := fun _ => [],
    iteratorsValid := true,
    nestedCalls := 0,
    trace := [] }

/-- A call a thread makes on the venue. -/
inductive VenueRequest
  | startSession (s : Nat)
  | stopSession (s : Nat)
  | render
  deriving DecidableEq, Repr

/-- The first point of a call. -/
def VenueRequest.called : VenueRequest → Activity
  | VenueRequest.startSession s => Activity.startSessionCalled s
  | VenueRequest.stopSession s => Activity.stopSessionCalled s
  | VenueRequest.render => Activity.renderCalled

/-- One move of one thread: thread `t` makes a call, or goes one step further in the
innermost call it is in. -/
inductive Move
  | call (t : Nat) (r : VenueRequest)
  | advance (t : Nat)
  deriving DecidableEq, Repr

/-- Thread `t` goes on to `stack` without touching the lock or the venue. -/
def VenueMachine.proceed (m : VenueMachine) (t : Nat) (stack : List Activity)
    (events : List VenueEvent) : VenueMachine :=
  { venue := m.venue, activeSessionLock := m.activeSessionLock,
    threads := Function.update m.threads t stack, iteratorsValid := m.iteratorsValid,
    nestedCalls := m.nestedCalls, trace := m.trace ++ events }

/-- Thread `t` makes a call from inside `processBlock`. -/
def VenueMachine.nest (m : VenueMachine) (t : Nat) (stack : List Activity) : VenueMachine :=
  { venue := m.venue, activeSessionLock := m.activeSessionLock,
    threads := Function.update m.threads t stack, iteratorsValid := m.iteratorsValid,
    nestedCalls := m.nestedCalls + 1, trace := m.trace }

/-- The construction of the `std::lock_guard` by thread `t`, which then stands at `stack`;
`none` while the thread has to wait for the lock. -/
def VenueMachine.acquire (m : VenueMachine) (t : Nat) (stack : List Activity)
    (valid : Bool) (events : List VenueEvent) : Option VenueMachine :=
  match m.activeSessionLock.lock t with
  | some l =>
    some { venue := m.venue, activeSessionLock := l,
           threads := Function.update m.threads t stack, iteratorsValid := valid,
           nestedCalls := m.nestedCalls, trace := m.trace ++ events }
  | none => none

/-- The statements of `startSession` or `stopSession` between the construction and the
destruction of the guard, which leave the venue as `v`; the iterators of a loop over
`activeSessions` stay valid only if the list was not changed. -/
def VenueMachine.edit (m : VenueMachine) (t : Nat) (stack : List Activity)
    (v : AudioPlayerVenue) (c : VenueCall) : VenueMachine :=
  { venue := v, activeSessionLock := m.activeSessionLock,
    threads := Function.update m.threads t stack,
    iteratorsValid := m.iteratorsValid && decide (v.activeSessions = m.venue.activeSessions),
    nestedCalls := m.nestedCalls, trace := m.trace ++ [VenueEvent.call c] }

/-- The destruction of the `std::lock_guard` by thread `t`, which returns from its call to
`stack`. -/
def VenueMachine.release (m : VenueMachine) (t : Nat) (stack : List Activity)
    (events : List VenueEvent) : VenueMachine :=
  { venue := m.venue, activeSessionLock := m.activeSessionLock.unlock,
    threads := Function.update m.threads t stack, iteratorsValid := m.iteratorsValid,
    nestedCalls := m.nestedCalls, trace := m.trace ++ events }

/-- The machine after a move, and `none` when the move cannot be made now. A thread that is
in no call can make any call; a thread inside `processBlock` can call `startSession` or
`stopSession` (`render` is called by the audio system only); a thread at any other point
of a call can make no call. A thread that is in no call has no step to take, a thread that
needs the lock while another thread owns it waits, and the loop of `render` has no defined
step once its iterators are invalid. -/
def VenueMachine.move (m : VenueMachine) : Move → Option VenueMachine
  | Move.call t r =>
    match m.threads t with
    | [] => some (m.proceed t [r.called] [])
    | Activity.renderProcessing next last :: rest =>
      match r with
      | VenueRequest.render => none
      | _ => some (m.nest t (r.called :: Activity.renderProcessing next last :: rest))
    | _ => none
  | Move.advance t =>
    match m.threads t with
    | [] => none
    | Activity.startSessionCalled s :: rest =>
      m.acquire t (Activity.startSessionLocked s :: rest) m.iteratorsValid []
    | Activity.startSessionLocked s :: rest =>
      some (m.edit t (Activity.startSessionReturning s :: rest) (m.venue.startSession s).2
        (VenueCall.startSession s))
    | Activity.startSessionReturning _ :: rest => some (m.release t rest [])
    | Activity.stopSessionCalled s :: rest =>
      m.acquire t (Activity.stopSessionLocked s :: rest) m.iteratorsValid []
    | Activity.stopSessionLocked s :: rest =>
      some (m.edit t (Activity.stopSessionReturning s :: rest) (m.venue.stopSession s).2
        (VenueCall.stopSession s))
    | Activity.stopSessionReturning _ :: rest => some (m.release t rest [])
    | Activity.renderCalled :: rest =>
      m.acquire t (Activity.renderDispatching 0 m.venue.activeSessions.length :: rest) true
        [VenueEvent.renderBegin]
    | Activity.renderDispatching next last :: rest =>
      if m.iteratorsValid then
        if next < last then
          match m.venue.activeSessions[next]? with
          | some s =>
            some (m.proceed t (Activity.renderProcessing next last :: rest)
              [VenueEvent.processBlock s])
          | none => none
        else some (m.proceed t (Activity.renderReturning :: rest) [])
      else none
    | Activity.renderProcessing next last :: rest =>
      some (m.proceed t (Activity.renderDispatching (next + 1) last :: rest) [])
    | Activity.renderReturning :: rest => some (m.release t rest [VenueEvent.renderEnd])

/-- The machine after a schedule of moves; a move that cannot be made leaves the machine as
it is (the thread waits). -/
def VenueMachine.run (m : VenueMachine) (schedule : List Move) : VenueMachine :=
  schedule.foldl (fun m mv => (m.move mv).getD m) m

/-- Whether a call of the stack is between the construction and the destruction of its
`std::lock_guard`. -/
def stackHoldsLock (stack : List Activity) : Bool := stack.any Activity.holdsLock

/-- Whether the thread with this stack is inside the guarded part of `render`. -/
def stackInRender (stack : List Activity) : Bool := stack.any Activity.inRender

/-- A call made on the venue with nothing else going on meanwhile. -/
inductive VenueOperation
  | call (c : VenueCall)
  | render
  deriving DecidableEq, Repr

/-- The venue after one call made with nothing else going on; `render` leaves it as it
is. -/
def AudioPlayerVenue.perform (v : AudioPlayerVenue) : VenueOperation → AudioPlayerVenue
  | VenueOperation.call c => v.call c
  | VenueOperation.render => v

/-- The events of one `render` that finds the active list `active`. -/
def renderEvents (active : List Nat) : List VenueEvent :=
  VenueEvent.renderBegin :: (active.map VenueEvent.processBlock ++ [VenueEvent.renderEnd])

/-- The events of a sequence of calls made one after the other on venue `v`: a `render`
calls `processBlock` on the active sessions of that moment, in the order of the list. -/
def serialTrace (v : AudioPlayerVenue) : List VenueOperation → List VenueEvent
  | [] => []
  | VenueOperation.call c :: rest => VenueEvent.call c :: serialTrace (v.call c) rest
  | VenueOperation.render :: rest => renderEvents v.activeSessions ++ serialTrace v rest

/-- The events that a `render` standing at this point has produced so far, for the active
list `active`. -/
def Activity.inFlight : Activity → List Nat → List VenueEvent
  | Activity.renderDispatching next _, active =>
    VenueEvent.renderBegin :: (active.take next).map VenueEvent.processBlock
  | Activity.renderProcessing next _, active =>
    VenueEvent.renderBegin :: (active.take (next + 1)).map VenueEvent.processBlock
  | Activity.renderReturning, active =>
    VenueEvent.renderBegin :: active.map VenueEvent.processBlock
  | _, _ => []

/-- The events that a `render` standing at this point is still to produce, for the active
list `active`. -/
def Activity.toCome : Activity → List Nat → List VenueEvent
  | Activity.renderDispatching next _, active =>
    (active.drop next).map VenueEvent.processBlock ++ [VenueEvent.renderEnd]
  | Activity.renderProcessing next _, active =>
    (active.drop (next + 1)).map VenueEvent.processBlock ++ [VenueEvent.renderEnd]
  | Activity.renderReturning, _ => [VenueEvent.renderEnd]
  | _, _ => []

/-- The events so far of the `render` that is the innermost call of the stack, if it is
one. -/
def stackInFlight : List Activity → List Nat → List VenueEvent
  | a :: _, active => a.inFlight active
  | [], _ => []

/-- The events so far of the `render` that is in flight, if one is, on a machine whose
threads made no call from inside `processBlock`. -/
def VenueMachine.inFlight (m : VenueMachine) : List VenueEvent :=
  match m.activeSessionLock.owner with
  | none => []
  | some t => stackInFlight (m.threads t) m.venue.activeSessions

/-- What holds of the lock after every schedule: the calls of a thread that stand between
the construction and the destruction of their `std::lock_guard` are as many as the thread
has locked the mutex, none for a thread that does not own it; and the mutex has an owner
exactly when it is locked. -/
structure LockInvariant (m : VenueMachine) : Prop where
  held : ∀ t, (m.threads t).countP Activity.holdsLock =
    if m.activeSessionLock.owner = some t then m.activeSessionLock.depth else 0
  free : m.activeSessionLock.owner = none → m.activeSessionLock.depth = 0
  owned : ∀ t, m.activeSessionLock.owner = some t → 1 ≤ m.activeSessionLock.depth

/-- What holds of the machine started on venue `origin` as long as no call was made from
inside `processBlock`: every thread is in at most one call, the lock is free or locked
once, the thread between the construction and the destruction of a `std::lock_guard` is
the owner of the lock, the iterators of the loop of `render` are valid and the loop runs
up to the end of the active list, and the events so far are those of a sequence of calls
made one after the other, followed by those of the `render` in flight. -/
structure PlainInvariant (origin : AudioPlayerVenue) (m : VenueMachine) : Prop where
  single : ∀ t, (m.threads t).length ≤ 1
  depth : m.activeSessionLock.depth = if m.activeSessionLock.owner.isSome then 1 else 0
  holder : ∀ t, stackHoldsLock (m.threads t) = true ↔ m.activeSessionLock.owner = some t
  dispatching : ∀ t next last rest,
    m.threads t = Activity.renderDispatching next last :: rest →
    last = m.venue.activeSessions.length ∧ next ≤ last ∧ m.iteratorsValid = true
  processing : ∀ t next last rest,
    m.threads t = Activity.renderProcessing next last :: rest →
    last = m.venue.activeSessions.length ∧ next < last ∧ m.iteratorsValid = true
  serial : ∃ ops : List VenueOperation,
    m.trace = serialTrace origin ops ++ m.inFlight ∧
    m.venue = ops.foldl AudioPlayerVenue.perform origin

/-- The moves in which thread `t` goes `k` steps further. -/
def advances (t k : Nat) : List Move := List.replicate k (Move.advance t)

/-- A schedule on three threads: thread 1 starts session 1; thread 0 enters `render`;
thread 2 calls `startSession (2)` while that `render` is in flight and tries to go on;
the `render` finishes; thread 2 goes on; thread 0 runs `render` once more. -/
def demoSchedule : List Move :=
  [Move.call 1 (VenueRequest.startSession 1), Move.advance 1, Move.advance 1, Move.advance 1,
   Move.call 0 VenueRequest.render, Move.advance 0,
   Move.call 2 (VenueRequest.startSession 2), Move.advance 2, Move.advance 2,
   Move.advance 0, Move.advance 2, Move.advance 0, Move.advance 0, Move.advance 0,
   Move.advance 2, Move.advance 2, Move.advance 2,
   Move.call 0 VenueRequest.render, Move.advance 0, Move.advance 0, Move.advance 0,
   Move.advance 0, Move.advance 0, Move.advance 0, Move.advance 0]

/-- A schedule on two threads: thread 1 starts session 1; thread 0 enters `render` and
`processBlock` of session 1, where a callable of the client calls `stopSession (1)`, which
takes the lock once more and removes the session from the active list. -/
def reentrantSchedule : List Move :=
  [Move.call 1 (VenueRequest.startSession 1), Move.advance 1, Move.advance 1, Move.advance 1,
   Move.call 0 VenueRequest.render, Move.advance 0, Move.advance 0,
   Move.call 0 (VenueRequest.stopSession 1), Move.advance 0, Move.advance 0]

/-- The machine on `demoVenue` after the first seven moves of `demoSchedule`: session 1 is
active, the `render` of thread 0 is in flight, and thread 2 has called
`startSession (2)`. -/
def demoInFlight : VenueMachine := (VenueMachine.create 2 2 512 0).run (demoSchedule.take 7)

/-! ## The loops of `iterateInBlocks` -/

theorem scanMidi_framesToDo_le (frameOffset framesToDo : Nat) (midiIn : List MIDIEvent) :
    (scanMidi frameOffset framesToDo midiIn).framesToDo ≤ framesToDo := by
  induction midiIn with
  | nil => simp [scanMidi]
  | cons e rest ih =>
    simp only [scanMidi]
    split
    · exact Nat.min_le_left _ _
    · exact ih

theorem scanMidi_framesToDo_pos (frameOffset framesToDo : Nat) (midiIn : List MIDIEvent)
    (h : 0 < framesToDo) : 0 < (scanMidi frameOffset framesToDo midiIn).framesToDo := by
  induction midiIn with
  | nil => simpa [scanMidi] using h
  | cons e rest ih =>
    simp only [scanMidi]
    split
    · rename_i ht
      simp only [lt_min_iff]
      omega
    · exact ih

theorem scanMidi_append (frameOffset framesToDo : Nat) (midiIn : List MIDIEvent) :
    (scanMidi frameOffset framesToDo midiIn).taken ++
      (scanMidi frameOffset framesToDo midiIn).midiIn = midiIn := by
  induction midiIn with
  | nil => simp [scanMidi]
  | cons e rest ih =>
    simp only [scanMidi]
    split
    · simp
    · simpa using ih

theorem scanMidi_taken_le (frameOffset framesToDo : Nat) (midiIn : List MIDIEvent) :
    ∀ e ∈ (scanMidi frameOffset framesToDo midiIn).taken, e.frameIndex ≤ frameOffset := by
  induction midiIn with
  | nil => simp [scanMidi]
  | cons e rest ih =>
    simp only [scanMidi]
    split
    · simp
    · rename_i ht
      intro x hx
      simp only [List.mem_cons] at hx
      rcases hx with rfl | hx
      · omega
      · exact ih x hx

theorem iterateLoop_calls {σ : Type} (maxFramesPerBlock : Nat)
    (render : RenderContext → σ → RenderContext × σ) (fuel : Nat) :
    ∀ (self context : RenderContext) (framesRemaining : Nat) (user : σ),
      (iterateLoop maxFramesPerBlock render fuel self context framesRemaining user).calls.map
          RenderContext.view =
        (blockPlan maxFramesPerBlock fuel self.frameOffset framesRemaining self.midiIn).map
          (SubBlock.view self.inputChannels self.outputChannels) := by
  induction fuel with
  | zero => intro self context framesRemaining user; simp [iterateLoop, blockPlan]
  | succ fuel ih =>
    intro self context framesRemaining user
    simp only [iterateLoop, blockPlan]
    split
    · simp
    · simp only [List.map_cons, ih]
      simp [RenderContext.view, SubBlock.view]

theorem iterateLoop_finished {σ : Type} (maxFramesPerBlock : Nat)
    (render : RenderContext → σ → RenderContext × σ) (hmax : 1 ≤ maxFramesPerBlock)
    (fuel : Nat) :
    ∀ (self context : RenderContext) (framesRemaining : Nat) (user : σ),
      framesRemaining ≤ fuel →
      (iterateLoop maxFramesPerBlock render fuel self context framesRemaining user).finished
        = true := by
  induction fuel with
  | zero =>
    intro self context framesRemaining user h
    simp only [iterateLoop]
    simp
    omega
  | succ fuel ih =>
    intro self context framesRemaining user h
    simp only [iterateLoop]
    split
    · rfl
    · rename_i hr
      apply ih
      have hpos := scanMidi_framesToDo_pos self.frameOffset
        (min maxFramesPerBlock framesRemaining) self.midiIn (by simp only [lt_min_iff]; omega)
      omega

theorem iterateInBlocks_calls {σ : Type} (ctx : RenderContext) (fuel maxFramesPerBlock : Nat)
    (render : RenderContext → σ → RenderContext × σ) (user : σ) :
    (ctx.iterateInBlocks fuel maxFramesPerBlock render user).calls.map RenderContext.view =
      (blockPlan maxFramesPerBlock fuel ctx.frameOffset ctx.inputChannels.numFrames
        ctx.midiIn).map (SubBlock.view ctx.inputChannels ctx.outputChannels) := by
  simp only [RenderContext.iterateInBlocks, ChannelArrayView.getNumFrames]
  exact iterateLoop_calls maxFramesPerBlock render fuel ctx ctx _ user

theorem frameRange_size (frameOffset framesToDo : Nat) (ho : frameOffset < UINT32)
    (hf : framesToDo < UINT32) :
    FrameRange.size { start := frameOffset, stop := (frameOffset + framesToDo) % UINT32 }
      = framesToDo := by
  simp only [FrameRange.size, UINT32] at *
  omega

theorem iterateLoop_no_frames {σ : Type} (maxFramesPerBlock : Nat)
    (render : RenderContext → σ → RenderContext × σ) (fuel : Nat)
    (self context : RenderContext) (user : σ) :
    (iterateLoop maxFramesPerBlock render fuel self context 0 user).calls = [] := by
  cases fuel <;> simp [iterateLoop]

theorem iterateLoop_tiles {σ : Type} (maxFramesPerBlock : Nat)
    (render : RenderContext → σ → RenderContext × σ) (hmax : 1 ≤ maxFramesPerBlock)
    (fuel : Nat) :
    ∀ (self context : RenderContext) (framesRemaining : Nat) (user : σ),
      framesRemaining ≤ fuel → self.frameOffset + framesRemaining < UINT32 →
      TilesFrames self.inputChannels self.outputChannels self.frameOffset
          (self.frameOffset + framesRemaining)
          (iterateLoop maxFramesPerBlock render fuel self context framesRemaining user).calls ∧
        (frameCounts
          (iterateLoop maxFramesPerBlock render fuel self context framesRemaining user).calls).sum
          = framesRemaining := by
  induction fuel with
  | zero =>
    intro self context framesRemaining user h _
    have : framesRemaining = 0 := by omega
    subst this
    simp [iterateLoop, TilesFrames, frameCounts]
  | succ fuel ih =>
    intro self context framesRemaining user h hwrap
    simp only [iterateLoop]
    split
    · rename_i hr
      subst hr
      simp [TilesFrames, frameCounts]
    · rename_i hr
      have hpos := scanMidi_framesToDo_pos self.frameOffset
        (min maxFramesPerBlock framesRemaining) self.midiIn (by simp only [lt_min_iff]; omega)
      have hle := scanMidi_framesToDo_le self.frameOffset
        (min maxFramesPerBlock framesRemaining) self.midiIn
      have hle' : (scanMidi self.frameOffset (min maxFramesPerBlock framesRemaining)
          self.midiIn).framesToDo ≤ framesRemaining := le_trans hle (Nat.min_le_right _ _)
      generalize (scanMidi self.frameOffset (min maxFramesPerBlock framesRemaining)
          self.midiIn).framesToDo = n at hpos hle hle' ⊢
      have hsize := frameRange_size self.frameOffset n (by omega) (by omega)
      have hmod : (self.frameOffset + n) % UINT32 = self.frameOffset + n :=
        Nat.mod_eq_of_lt (by omega)
      have key := ih
        { self with
          midiIn := (scanMidi self.frameOffset (min maxFramesPerBlock framesRemaining)
            self.midiIn).midiIn
          frameOffset := (self.frameOffset + n) % UINT32 }
      simp only [hmod] at key hsize ⊢
      have key2 := fun c u => key c (framesRemaining - n) u (by omega) (by omega)
      simp only [show self.frameOffset + n + (framesRemaining - n)
        = self.frameOffset + framesRemaining by omega] at key2
      refine ⟨?_, ?_⟩
      · simp only [TilesFrames, ChannelArrayView.getFrameRange, ChannelArrayView.getNumFrames,
          hsize, true_and]
        exact (key2 _ _).1
      · simp only [frameCounts, List.map_cons, List.sum_cons, ChannelArrayView.getFrameRange,
          ChannelArrayView.getNumFrames, hsize]
        have h2 := fun c u => (key2 c u).2
        simp only [frameCounts, ChannelArrayView.getNumFrames] at h2
        rw [h2]
        omega

/-! ## Sub-block iteration: the claims -/

/-- C1: for a context with `frameOffset` 0 and N input frames (N a `uint32_t`), any MIDI
input buffer, any `render` callable and any block limit of at least 1, the loop of
`iterateInBlocks` ends within N passes, the sub-blocks it hands to `render` follow one
another from frame 0 to frame N of the input and output views (the first starts at 0,
each next one starts where the previous ended, the last ends at N), their frame counts
add up to N, and `render` is not called at all when N is 0. -/
theorem iterateInBlocks_tiles_block {σ : Type} (ctx : RenderContext)
    (fuel maxFramesPerBlock : Nat) (render : RenderContext → σ → RenderContext × σ) (user : σ)
    (hOffset : ctx.frameOffset = 0)
    (hFrames : ctx.inputChannels.getNumFrames < UINT32)
    (hMax : 1 ≤ maxFramesPerBlock)
    (hFuel : ctx.inputChannels.getNumFrames ≤ fuel) :
    (ctx.iterateInBlocks fuel maxFramesPerBlock render user).finished = true ∧
      TilesFrames ctx.inputChannels ctx.outputChannels 0 ctx.inputChannels.getNumFrames
        (ctx.iterateInBlocks fuel maxFramesPerBlock render user).calls ∧
      (frameCounts (ctx.iterateInBlocks fuel maxFramesPerBlock render user).calls).sum
        = ctx.inputChannels.getNumFrames ∧
      (ctx.inputChannels.getNumFrames = 0 →
        (ctx.iterateInBlocks fuel maxFramesPerBlock render user).calls = []) := by
  have hT := iterateLoop_tiles maxFramesPerBlock render hMax fuel ctx ctx
    ctx.inputChannels.getNumFrames user hFuel (by omega)
  rw [hOffset, Nat.zero_add] at hT
  refine ⟨?_, hT.1, hT.2, ?_⟩
  · exact iterateLoop_finished maxFramesPerBlock render hMax fuel ctx ctx _ user hFuel
  · intro h0
    simp only [RenderContext.iterateInBlocks, h0]
    exact iterateLoop_no_frames maxFramesPerBlock render fuel ctx ctx user

/-- C1, on the 1000-frame block of scenario 1 with a block limit of 400. -/
theorem iterateInBlocks_tiles_block_witness :
    (scenarioContext.iterateInBlocks 1000 400 idleRender ()).finished = true ∧
      TilesFrames scenarioContext.inputChannels scenarioContext.outputChannels 0
        scenarioContext.inputChannels.getNumFrames
        (scenarioContext.iterateInBlocks 1000 400 idleRender ()).calls ∧
      (frameCounts (scenarioContext.iterateInBlocks 1000 400 idleRender ()).calls).sum
        = scenarioContext.inputChannels.getNumFrames ∧
      (scenarioContext.inputChannels.getNumFrames = 0 →
        (scenarioContext.iterateInBlocks 1000 400 idleRender ()).calls = []) :=
  iterateInBlocks_tiles_block scenarioContext 1000 400 idleRender () rfl (by decide)
    (by decide) (by decide)

theorem frameRange_size_le (frameOffset framesToDo : Nat) :
    FrameRange.size { start := frameOffset, stop := (frameOffset + framesToDo) % UINT32 }
      ≤ framesToDo := by
  simp only [FrameRange.size, UINT32]
  omega

theorem blockPlan_framesToDo_le (maxFramesPerBlock fuel : Nat) :
    ∀ (frameOffset framesRemaining : Nat) (midiIn : List MIDIEvent),
      ∀ b ∈ blockPlan maxFramesPerBlock fuel frameOffset framesRemaining midiIn,
        b.framesToDo ≤ maxFramesPerBlock := by
  induction fuel with
  | zero => intro _ _ _ b hb; simp [blockPlan] at hb
  | succ fuel ih =>
    intro frameOffset framesRemaining midiIn b hb
    simp only [blockPlan] at hb
    split at hb
    · simp at hb
    · simp only [List.mem_cons] at hb
      rcases hb with rfl | hb
      · exact le_trans (scanMidi_framesToDo_le _ _ _) (Nat.min_le_left _ _)
      · exact ih _ _ _ b hb

theorem record_foldl_history {α : Type} (f : α → Call) (l : List α) :
    ∀ p : Performer,
      (l.foldl (fun p e => p.record (f e)) p).history = p.history ++ l.map f := by
  induction l with
  | nil => intro p; simp
  | cons a l ih =>
    intro p
    simp only [List.foldl_cons]
    rw [ih]
    simp [Performer.record]

theorem preparedFrames_append (a b : List Call) :
    preparedFrames (a ++ b) = preparedFrames a ++ preparedFrames b := by
  simp [preparedFrames, List.filterMap_append]

theorem record_preparedFrames (p : Performer) (c : Call) :
    preparedFrames (p.record c).history = preparedFrames p.history ++ c.preparedFrames?.toList := by
  cases c <;> simp [Performer.record, preparedFrames, List.filterMap_append, Call.preparedFrames?]

theorem run_preparedFrames (op : RenderOp) (rc : RenderContext) (perf : Performer) :
    preparedFrames (op.run rc perf).history = preparedFrames perf.history := by
  cases op with
  | midiInput h =>
    simp only [RenderOp.run, record_foldl_history, preparedFrames_append]
    simp [preparedFrames, List.filterMap_map, Function.comp_def, Call.preparedFrames?]
  | audioInput h a b c =>
    simp [RenderOp.run, Performer.record, preparedFrames, List.filterMap_append,
      Call.preparedFrames?]
  | audioOutput h a b =>
    simp [RenderOp.run, Performer.record, preparedFrames, List.filterMap_append,
      Call.preparedFrames?]

theorem runOperations_preparedFrames (ops : List RenderOp) (rc : RenderContext) :
    ∀ perf : Performer,
      preparedFrames (runOperations ops rc perf).history = preparedFrames perf.history := by
  induction ops with
  | nil => intro perf; rfl
  | cons op ops ih =>
    intro perf
    simp only [runOperations, List.foldl_cons] at ih ⊢
    rw [ih, run_preparedFrames]

theorem runCallbacks_preparedFrames (callbacks : List EndpointCallback) (perf : Performer) :
    preparedFrames (runCallbacks callbacks perf).history = preparedFrames perf.history := by
  simp only [runCallbacks, record_foldl_history, preparedFrames_append]
  simp [preparedFrames, List.filterMap_map, Function.comp_def, Call.preparedFrames?]

theorem renderBlock_preparedFrames (rc : RenderContext) (s : AudioPlayerSession) :
    preparedFrames (AudioPlayerSession.renderBlock rc s).2.performer.history =
      preparedFrames s.performer.history ++ [rc.inputChannels.getNumFrames] := by
  simp only [AudioPlayerSession.renderBlock, runCallbacks_preparedFrames,
    runOperations_preparedFrames, record_preparedFrames, Call.preparedFrames?, Option.toList,
    List.append_nil]

theorem iterateLoop_preparedFrames (maxFramesPerBlock fuel : Nat) :
    ∀ (self context : RenderContext) (framesRemaining : Nat) (s : AudioPlayerSession),
      preparedFrames (iterateLoop maxFramesPerBlock AudioPlayerSession.renderBlock fuel self
          context framesRemaining s).user.performer.history =
        preparedFrames s.performer.history ++
          frameCounts (iterateLoop maxFramesPerBlock AudioPlayerSession.renderBlock fuel self
            context framesRemaining s).calls := by
  induction fuel with
  | zero => intro self context framesRemaining s; simp [iterateLoop, frameCounts]
  | succ fuel ih =>
    intro self context framesRemaining s
    simp only [iterateLoop]
    split
    · simp [frameCounts]
    · simp only [ih, renderBlock_preparedFrames, frameCounts, List.map_cons, List.append_assoc,
        List.singleton_append]

theorem iterateLoop_user (maxFramesPerBlock fuel : Nat) :
    ∀ (self context : RenderContext) (framesRemaining : Nat) (s : AudioPlayerSession),
      (iterateLoop maxFramesPerBlock AudioPlayerSession.renderBlock fuel self context
          framesRemaining s).user =
        { s with performer := (iterateLoop maxFramesPerBlock AudioPlayerSession.renderBlock fuel
            self context framesRemaining s).user.performer } := by
  induction fuel with
  | zero => intro self context framesRemaining s; simp [iterateLoop]
  | succ fuel ih =>
    intro self context framesRemaining s
    simp only [iterateLoop]
    split
    · rfl
    · rw [ih]
      simp [AudioPlayerSession.renderBlock]

theorem iterateLoop_self_views {σ : Type} (maxFramesPerBlock : Nat)
    (render : RenderContext → σ → RenderContext × σ) (fuel : Nat) :
    ∀ (self context : RenderContext) (framesRemaining : Nat) (user : σ),
      (iterateLoop maxFramesPerBlock render fuel self context framesRemaining user).self.outputChannels
          = self.outputChannels ∧
        (iterateLoop maxFramesPerBlock render fuel self context framesRemaining user).self.inputChannels
          = self.inputChannels := by
  induction fuel with
  | zero => intro self context framesRemaining user; simp [iterateLoop]
  | succ fuel ih =>
    intro self context framesRemaining user
    simp only [iterateLoop]
    split
    · simp
    · exact ih _ _ _ _

theorem iterateInBlocks_frames_le {σ : Type} (ctx : RenderContext) (fuel maxFramesPerBlock : Nat)
    (render : RenderContext → σ → RenderContext × σ) (user : σ) :
    ∀ c ∈ (ctx.iterateInBlocks fuel maxFramesPerBlock render user).calls,
      c.inputChannels.getNumFrames ≤ maxFramesPerBlock ∧
        c.outputChannels.getNumFrames ≤ maxFramesPerBlock := by
  intro c hc
  have hmem : c.view ∈ (ctx.iterateInBlocks fuel maxFramesPerBlock render user).calls.map
      RenderContext.view := List.mem_map_of_mem _ hc
  rw [iterateInBlocks_calls] at hmem
  obtain ⟨b, hb, hbc⟩ := List.mem_map.mp hmem
  have hle := blockPlan_framesToDo_le maxFramesPerBlock fuel _ _ _ b hb
  simp only [SubBlock.view, RenderContext.view, Prod.mk.injEq] at hbc
  obtain ⟨h1, h2, -⟩ := hbc
  rw [← h1, ← h2]
  simp only [ChannelArrayView.getFrameRange, ChannelArrayView.getNumFrames]
  exact ⟨le_trans (frameRange_size_le _ _) hle, le_trans (frameRange_size_le _ _) hle⟩

theorem iterateBlock_spec (s : AudioPlayerSession) (ctx : RenderContext)
    (hBlock : 0 < s.maxBlockSize) :
    (s.iterateBlock ctx).finished = true ∧
      (s.iterateBlock ctx).user = { s with performer := (s.iterateBlock ctx).user.performer } ∧
      (s.iterateBlock ctx).self.outputChannels = ctx.outputChannels ∧
      preparedFrames (s.iterateBlock ctx).user.performer.history =
        preparedFrames s.performer.history ++ frameCounts (s.iterateBlock ctx).calls := by
  have hmax : 1 ≤ min 512 s.maxBlockSize := by simp only [le_min_iff]; omega
  simp only [AudioPlayerSession.iterateBlock, RenderContext.iterateInBlocks]
  refine ⟨?_, ?_, ?_, ?_⟩
  · exact iterateLoop_finished _ _ hmax _ _ _ _ _ (le_refl _)
  · exact iterateLoop_user _ _ _ _ _ _
  · exact (iterateLoop_self_views _ _ _ _ _ _ _).1
  · exact iterateLoop_preparedFrames _ _ _ _ _ _

theorem processBlock_returns (s : AudioPlayerSession) (ctx : RenderContext)
    (hBlock : 0 < s.maxBlockSize) :
    s.processBlock ctx = some { s with
      performer := (s.iterateBlock ctx).user.performer
      totalFramesRendered :=
        (s.totalFramesRendered + ctx.outputChannels.getNumFrames) % UINT64 } := by
  obtain ⟨hfin, huser, hview, -⟩ := iterateBlock_spec s ctx hBlock
  simp only [AudioPlayerSession.processBlock, hBlock, if_true, hfin, hview]
  rw [huser]

/-- C3: no sub-block exceeds the limit. For every context, MIDI buffer, `render` callable,
iteration budget and `maxFramesPerBlock`, every sub-block that `iterateInBlocks` hands to
`render` has at most `maxFramesPerBlock` frames, on the input and on the output side.
Consequently a `processBlock` call on a session whose `maxBlockSize` is positive (its
assertion) returns, and the frame counts of the `prepare` calls it adds to the performer
history are all at most `min (512, maxBlockSize)`. -/
theorem subBlocks_within_limit {σ : Type} (ctx : RenderContext) (fuel maxFramesPerBlock : Nat)
    (render : RenderContext → σ → RenderContext × σ) (user : σ) (s : AudioPlayerSession)
    (hBlock : 0 < s.maxBlockSize) :
    (∀ c ∈ (ctx.iterateInBlocks fuel maxFramesPerBlock render user).calls,
      c.inputChannels.getNumFrames ≤ maxFramesPerBlock ∧
        c.outputChannels.getNumFrames ≤ maxFramesPerBlock) ∧
    ∃ s' blocks, s.processBlock ctx = some s' ∧
      preparedFrames s'.performer.history = preparedFrames s.performer.history ++ blocks ∧
      ∀ n ∈ blocks, n ≤ min 512 s.maxBlockSize := by
  refine ⟨iterateInBlocks_frames_le ctx fuel maxFramesPerBlock render user, ?_⟩
  refine ⟨_, _, processBlock_returns s ctx hBlock, (iterateBlock_spec s ctx hBlock).2.2.2, ?_⟩
  intro n hn
  simp only [frameCounts, List.mem_map] at hn
  obtain ⟨c, hc, rfl⟩ := hn
  exact (iterateInBlocks_frames_le _ _ _ _ _ c hc).1

/-- C3, on the 1000-frame block of scenario 1 and a session linked with block size 512. -/
theorem subBlocks_within_limit_witness :
    0 < demoSession.maxBlockSize ∧
    (∀ c ∈ (scenarioContext.iterateInBlocks 1000 400 idleRender ()).calls,
      c.inputChannels.getNumFrames ≤ 400 ∧ c.outputChannels.getNumFrames ≤ 400) ∧
    ∃ s' blocks, demoSession.processBlock scenarioContext = some s' ∧
      preparedFrames s'.performer.history = preparedFrames demoSession.performer.history ++ blocks ∧
      ∀ n ∈ blocks, n ≤ min 512 demoSession.maxBlockSize :=
  ⟨by decide, subBlocks_within_limit scenarioContext 1000 400 idleRender () demoSession
    (by decide)⟩

theorem iterateInBlocks_firstFrame_ge {σ : Type} (ctx : RenderContext)
    (fuel maxFramesPerBlock : Nat) (render : RenderContext → σ → RenderContext × σ) (user : σ) :
    ∀ c ∈ (ctx.iterateInBlocks fuel maxFramesPerBlock render user).calls,
      ctx.inputChannels.firstFrame ≤ c.inputChannels.firstFrame := by
  intro c hc
  have hmem : c.view ∈ (ctx.iterateInBlocks fuel maxFramesPerBlock render user).calls.map
      RenderContext.view := List.mem_map_of_mem _ hc
  rw [iterateInBlocks_calls] at hmem
  obtain ⟨b, -, hbc⟩ := List.mem_map.mp hmem
  simp only [SubBlock.view, RenderContext.view, Prod.mk.injEq] at hbc
  rw [← hbc.1]
  simp [ChannelArrayView.getFrameRange]

theorem iterateLoop_subBlocks {σ : Type} (maxFramesPerBlock : Nat)
    (render : RenderContext → σ → RenderContext × σ) (fuel : Nat) :
    ∀ (self context : RenderContext) (framesRemaining : Nat) (user : σ),
      self.frameOffset + framesRemaining < UINT32 →
      (iterateLoop maxFramesPerBlock render fuel self context framesRemaining user).calls.map
          (RenderContext.toSubBlock self.inputChannels.firstFrame) =
        blockPlan maxFramesPerBlock fuel self.frameOffset framesRemaining self.midiIn := by
  induction fuel with
  | zero => intro self context framesRemaining user _; simp [iterateLoop, blockPlan]
  | succ fuel ih =>
    intro self context framesRemaining user hwrap
    simp only [iterateLoop, blockPlan]
    split
    · simp
    · have hle : (scanMidi self.frameOffset (min maxFramesPerBlock framesRemaining)
          self.midiIn).framesToDo ≤ framesRemaining :=
        le_trans (scanMidi_framesToDo_le _ _ _) (Nat.min_le_right _ _)
      have hsize := frameRange_size self.frameOffset _ (by omega) (lt_of_le_of_lt hle (by omega))
      have hmod : (self.frameOffset + (scanMidi self.frameOffset
          (min maxFramesPerBlock framesRemaining) self.midiIn).framesToDo) % UINT32
          = self.frameOffset + (scanMidi self.frameOffset
          (min maxFramesPerBlock framesRemaining) self.midiIn).framesToDo :=
        Nat.mod_eq_of_lt (by omega)
      have key := fun c u => ih
        { self with
          midiIn := (scanMidi self.frameOffset (min maxFramesPerBlock framesRemaining)
            self.midiIn).midiIn
          frameOffset := (self.frameOffset + (scanMidi self.frameOffset
            (min maxFramesPerBlock framesRemaining) self.midiIn).framesToDo) % UINT32 }
        c (framesRemaining - (scanMidi self.frameOffset
            (min maxFramesPerBlock framesRemaining) self.midiIn).framesToDo) u
        (by simp only [hmod]; omega)
      simp only [List.map_cons, key]
      simp [RenderContext.toSubBlock, ChannelArrayView.getFrameRange,
        ChannelArrayView.getNumFrames, hsize]

theorem iterateInBlocks_subBlocks {σ : Type} (ctx : RenderContext)
    (fuel maxFramesPerBlock : Nat) (render : RenderContext → σ → RenderContext × σ) (user : σ)
    (hOffset : ctx.frameOffset = 0) (hFrames : ctx.inputChannels.getNumFrames < UINT32) :
    (ctx.iterateInBlocks fuel maxFramesPerBlock render user).calls.map
        (RenderContext.toSubBlock ctx.inputChannels.firstFrame) =
      blockPlan maxFramesPerBlock fuel 0 ctx.inputChannels.getNumFrames ctx.midiIn := by
  have h := iterateLoop_subBlocks maxFramesPerBlock render fuel ctx ctx
    ctx.inputChannels.getNumFrames user (by omega)
  rw [hOffset] at h
  simpa [RenderContext.iterateInBlocks] using h

theorem scanMidi_framesToDo_eq (frameOffset framesToDo : Nat) (midiIn : List MIDIEvent) :
    (scanMidi frameOffset framesToDo midiIn).framesToDo =
      match midiIn.find? (fun e => decide (frameOffset < e.frameIndex)) with
      | some e => min framesToDo (e.frameIndex - frameOffset)
      | none => framesToDo := by
  induction midiIn with
  | nil => simp [scanMidi]
  | cons e rest ih =>
    simp only [scanMidi, List.find?_cons]
    by_cases h : e.frameIndex > frameOffset
    · simp [h]
    · have h' : ¬ frameOffset < e.frameIndex := h
      simp only [h, if_false, h', decide_False]
      exact ih

theorem scanMidi_midiIn_eq (frameOffset framesToDo : Nat) (midiIn : List MIDIEvent) :
    (scanMidi frameOffset framesToDo midiIn).midiIn =
      midiIn.drop (scanMidi frameOffset framesToDo midiIn).taken.length := by
  have h := congrArg (List.drop (scanMidi frameOffset framesToDo midiIn).taken.length)
    (scanMidi_append frameOffset framesToDo midiIn)
  rw [List.drop_left] at h
  exact h

theorem blockPlan_split (maxFramesPerBlock fuel : Nat) :
    ∀ (frameOffset framesRemaining : Nat) (midiIn : List MIDIEvent)
      (before : List SubBlock) (b : SubBlock) (after : List SubBlock),
      blockPlan maxFramesPerBlock fuel frameOffset framesRemaining midiIn
        = before ++ b :: after →
      frameOffset + framesRemaining < UINT32 →
      b.frameOffset = frameOffset + (before.map SubBlock.framesToDo).sum ∧
        (before.map SubBlock.framesToDo).sum + b.framesToDo ≤ framesRemaining ∧
        b.framesToDo = splitLength maxFramesPerBlock
          (frameOffset + (before.map SubBlock.framesToDo).sum)
          (framesRemaining - (before.map SubBlock.framesToDo).sum)
          (midiIn.drop (before.map (fun p => p.midi.length)).sum) := by
  induction fuel with
  | zero => intro _ _ _ before b after h; simp [blockPlan] at h
  | succ fuel ih =>
    intro frameOffset framesRemaining midiIn before b after h hwrap
    simp only [blockPlan] at h
    split at h
    · simp at h
    · have hle : (scanMidi frameOffset (min maxFramesPerBlock framesRemaining)
          midiIn).framesToDo ≤ framesRemaining :=
        le_trans (scanMidi_framesToDo_le _ _ _) (Nat.min_le_right _ _)
      cases before with
      | nil =>
        simp only [List.nil_append, List.cons.injEq] at h
        obtain ⟨hb, -⟩ := h
        subst hb
        simp only [List.map_nil, List.sum_nil, Nat.add_zero, Nat.zero_add, Nat.sub_zero,
          List.drop_zero, splitLength, true_and]
        exact ⟨hle, scanMidi_framesToDo_eq _ _ _⟩
      | cons p before =>
        simp only [List.cons_append, List.cons.injEq] at h
        obtain ⟨hp, hrest⟩ := h
        have hmod : (frameOffset + (scanMidi frameOffset
            (min maxFramesPerBlock framesRemaining) midiIn).framesToDo) % UINT32
            = frameOffset + (scanMidi frameOffset
            (min maxFramesPerBlock framesRemaining) midiIn).framesToDo :=
          Nat.mod_eq_of_lt (by omega)
        rw [hmod] at hrest
        have key := ih _ _ _ before b after hrest (by omega)
        rw [scanMidi_midiIn_eq, List.drop_drop] at key
        subst hp
        simp only [List.map_cons, List.sum_cons]
        obtain ⟨k1, k2, k3⟩ := key
        refine ⟨by omega, by omega, ?_⟩
        rw [k3]
        congr 1
        · omega
        · omega

/-- C5: the split points of `iterateInBlocks` are the block limit and the pending MIDI
events. For a context with `frameOffset` 0 and N input frames (N a `uint32_t`): whenever
the sub-blocks handed to `render` are `before ++ c :: after`, with `f` the total frame
count of `before`, the sub-block `c` starts at frame `f` and its length is
`min (maxFramesPerBlock, r, t - f)`, where `r = N - f` frames remain and `t` is the frame
index of the first event, among those not handed to the sub-blocks of `before`, whose
frame index is above `f`; it is `min (maxFramesPerBlock, r)` when there is no such event.
On 1000 frames with limit 400 and events at 50, 250, 900 the frame counts are
50, 200, 400, 250, 100 and the MIDI counts 0, 1, 1, 0, 1. -/
theorem iterateInBlocks_split_points {σ : Type} (ctx : RenderContext)
    (fuel maxFramesPerBlock : Nat) (render : RenderContext → σ → RenderContext × σ) (user : σ)
    (hOffset : ctx.frameOffset = 0) (hFrames : ctx.inputChannels.getNumFrames < UINT32) :
    (∀ (before : List RenderContext) (c : RenderContext) (after : List RenderContext),
      (ctx.iterateInBlocks fuel maxFramesPerBlock render user).calls = before ++ c :: after →
      c.inputChannels.firstFrame = ctx.inputChannels.firstFrame + (frameCounts before).sum ∧
        c.inputChannels.getNumFrames =
          splitLength maxFramesPerBlock (frameCounts before).sum
            (ctx.inputChannels.getNumFrames - (frameCounts before).sum)
            (ctx.midiIn.drop (midiCounts before).sum)) ∧
    frameCounts (scenarioContext.iterateInBlocks 1000 400 idleRender ()).calls
      = [50, 200, 400, 250, 100] ∧
    midiCounts (scenarioContext.iterateInBlocks 1000 400 idleRender ()).calls
      = [0, 1, 1, 0, 1] := by
  refine ⟨?_, by decide, by decide⟩
  intro before c after hcalls
  have hplan := iterateInBlocks_subBlocks ctx fuel maxFramesPerBlock render user hOffset hFrames
  rw [hcalls, List.map_append, List.map_cons] at hplan
  have key := blockPlan_split maxFramesPerBlock fuel 0 ctx.inputChannels.getNumFrames ctx.midiIn
    _ _ _ hplan.symm (by omega)
  simp only [List.map_map, Nat.zero_add] at key
  have hge := iterateInBlocks_firstFrame_ge ctx fuel maxFramesPerBlock render user c
    (by rw [hcalls]; simp)
  have h1 : c.inputChannels.firstFrame - ctx.inputChannels.firstFrame
      = (frameCounts before).sum := key.1
  exact ⟨by omega, key.2.2⟩

/-- C5, on the 1000-frame block of scenario 1 with a block limit of 400. -/
theorem iterateInBlocks_split_points_witness :
    (∀ (before : List RenderContext) (c : RenderContext) (after : List RenderContext),
      (scenarioContext.iterateInBlocks 1000 400 idleRender ()).calls = before ++ c :: after →
      c.inputChannels.firstFrame
          = scenarioContext.inputChannels.firstFrame + (frameCounts before).sum ∧
        c.inputChannels.getNumFrames =
          splitLength 400 (frameCounts before).sum
            (scenarioContext.inputChannels.getNumFrames - (frameCounts before).sum)
            (scenarioContext.midiIn.drop (midiCounts before).sum)) ∧
    frameCounts (scenarioContext.iterateInBlocks 1000 400 idleRender ()).calls
      = [50, 200, 400, 250, 100] ∧
    midiCounts (scenarioContext.iterateInBlocks 1000 400 idleRender ()).calls
      = [0, 1, 1, 0, 1] :=
  iterateInBlocks_split_points scenarioContext 1000 400 idleRender () rfl (by decide)

theorem scanMidi_rest_ge (frameOffset framesToDo : Nat) (midiIn : List MIDIEvent)
    (hSorted : midiIn.Pairwise (fun a b => a.frameIndex ≤ b.frameIndex)) :
    ∀ e ∈ (scanMidi frameOffset framesToDo midiIn).midiIn,
      frameOffset + (scanMidi frameOffset framesToDo midiIn).framesToDo ≤ e.frameIndex := by
  induction midiIn with
  | nil => simp [scanMidi]
  | cons a rest ih =>
    rw [List.pairwise_cons] at hSorted
    simp only [scanMidi]
    split
    · intro e he
      have hmin : min framesToDo (a.frameIndex - frameOffset) ≤ a.frameIndex - frameOffset :=
        Nat.min_le_right _ _
      simp only [List.mem_cons] at he
      rcases he with rfl | he
      · simp only
        omega
      · have := hSorted.1 e he
        simp only
        omega
    · exact ih hSorted.2

theorem scanMidi_rest_sorted (frameOffset framesToDo : Nat) (midiIn : List MIDIEvent)
    (hSorted : midiIn.Pairwise (fun a b => a.frameIndex ≤ b.frameIndex)) :
    (scanMidi frameOffset framesToDo midiIn).midiIn.Pairwise
      (fun a b => a.frameIndex ≤ b.frameIndex) := by
  have h := scanMidi_append frameOffset framesToDo midiIn
  rw [← h] at hSorted
  exact (List.pairwise_append.mp hSorted).2.1

theorem blockPlan_framesToDo_pos (maxFramesPerBlock fuel : Nat) (hMax : 1 ≤ maxFramesPerBlock) :
    ∀ (frameOffset framesRemaining : Nat) (midiIn : List MIDIEvent),
      ∀ b ∈ blockPlan maxFramesPerBlock fuel frameOffset framesRemaining midiIn,
        1 ≤ b.framesToDo := by
  induction fuel with
  | zero => intro _ _ _ b hb; simp [blockPlan] at hb
  | succ fuel ih =>
    intro frameOffset framesRemaining midiIn b hb
    simp only [blockPlan] at hb
    split at hb
    · simp at hb
    · simp only [List.mem_cons] at hb
      rcases hb with rfl | hb
      · exact scanMidi_framesToDo_pos _ _ _ (by simp only [lt_min_iff]; omega)
      · exact ih _ _ _ b hb

theorem blockPlan_sorted (maxFramesPerBlock fuel : Nat) :
    ∀ (frameOffset framesRemaining : Nat) (midiIn : List MIDIEvent),
      midiIn.Pairwise (fun a b => a.frameIndex ≤ b.frameIndex) →
      (∀ e ∈ midiIn, frameOffset ≤ e.frameIndex) →
      frameOffset + framesRemaining < UINT32 →
      (∀ b ∈ blockPlan maxFramesPerBlock fuel frameOffset framesRemaining midiIn,
        ∀ e ∈ b.midi, e.frameIndex = b.frameOffset) ∧
      (1 ≤ maxFramesPerBlock → framesRemaining ≤ fuel →
        ∀ e ∈ midiIn, e.frameIndex < frameOffset + framesRemaining →
          ∃ b ∈ blockPlan maxFramesPerBlock fuel frameOffset framesRemaining midiIn,
            e ∈ b.midi) := by
  induction fuel with
  | zero =>
    intro frameOffset framesRemaining midiIn _ hge _
    refine ⟨by simp [blockPlan], ?_⟩
    intro _ hr e he hlt
    have := hge e he
    omega
  | succ fuel ih =>
    intro frameOffset framesRemaining midiIn hSorted hge hwrap
    simp only [blockPlan]
    split
    · rename_i hr
      refine ⟨by simp, ?_⟩
      intro _ _ e he hlt
      have := hge e he
      omega
    · rename_i hr
      have hle : (scanMidi frameOffset (min maxFramesPerBlock framesRemaining)
          midiIn).framesToDo ≤ framesRemaining :=
        le_trans (scanMidi_framesToDo_le _ _ _) (Nat.min_le_right _ _)
      have happ := scanMidi_append frameOffset (min maxFramesPerBlock framesRemaining) midiIn
      have htaken := scanMidi_taken_le frameOffset (min maxFramesPerBlock framesRemaining) midiIn
      have hrest := scanMidi_rest_ge frameOffset (min maxFramesPerBlock framesRemaining) midiIn
        hSorted
      have hmod : (frameOffset + (scanMidi frameOffset
          (min maxFramesPerBlock framesRemaining) midiIn).framesToDo) % UINT32
          = frameOffset + (scanMidi frameOffset
          (min maxFramesPerBlock framesRemaining) midiIn).framesToDo :=
        Nat.mod_eq_of_lt (by omega)
      have key := ih ((frameOffset + (scanMidi frameOffset
          (min maxFramesPerBlock framesRemaining) midiIn).framesToDo) % UINT32)
        (framesRemaining - (scanMidi frameOffset
          (min maxFramesPerBlock framesRemaining) midiIn).framesToDo)
        (scanMidi frameOffset (min maxFramesPerBlock framesRemaining) midiIn).midiIn
        (scanMidi_rest_sorted _ _ _ hSorted)
        (by rw [hmod]; exact hrest)
        (by rw [hmod]; omega)
      refine ⟨?_, ?_⟩
      · intro b hb e he
        simp only [List.mem_cons] at hb
        rcases hb with rfl | hb
        · have h1 := htaken e he
          have h2 := hge e (by rw [← happ]; exact List.mem_append_left _ he)
          simp only
          omega
        · exact key.1 b hb e he
      · intro hMax hFuel e he hlt
        rw [← happ] at he
        rcases List.mem_append.mp he with he | he
        · exact ⟨_, List.mem_cons_self _ _, he⟩
        · have hpos := scanMidi_framesToDo_pos frameOffset
            (min maxFramesPerBlock framesRemaining) midiIn (by simp only [lt_min_iff]; omega)
          obtain ⟨b, hb, heb⟩ := key.2 hMax (by omega) e he (by rw [hmod]; omega)
          exact ⟨b, List.mem_cons_of_mem _ hb, heb⟩

/-- C2: for a context with `frameOffset` 0 and N input frames (N a `uint32_t`), a block
limit of at least 1, enough loop passes and a MIDI input buffer sorted by `frameIndex`,
every event of the buffer whose frame index is an offset within the block (below N) is in
the MIDI span of a sub-block handed to `render` whose frame window contains that index;
and every event found in the MIDI span of a sub-block has the first frame of that
sub-block as its frame index, the sub-block having at least one frame, and that index is
an offset within the block. -/
theorem sorted_midi_delivered_in_window {σ : Type} (ctx : RenderContext)
    (fuel maxFramesPerBlock : Nat) (render : RenderContext → σ → RenderContext × σ) (user : σ)
    (hOffset : ctx.frameOffset = 0) (hFrames : ctx.inputChannels.getNumFrames < UINT32)
    (hMax : 1 ≤ maxFramesPerBlock) (hFuel : ctx.inputChannels.getNumFrames ≤ fuel)
    (hSorted : ctx.midiIn.Pairwise (fun a b => a.frameIndex ≤ b.frameIndex)) :
    (∀ e ∈ ctx.midiIn, e.frameIndex < ctx.inputChannels.getNumFrames →
      ∃ s ∈ (ctx.iterateInBlocks fuel maxFramesPerBlock render user).calls,
        e ∈ s.midiIn ∧
        s.inputChannels.firstFrame ≤ ctx.inputChannels.firstFrame + e.frameIndex ∧
        ctx.inputChannels.firstFrame + e.frameIndex
          < s.inputChannels.firstFrame + s.inputChannels.getNumFrames) ∧
    (∀ s ∈ (ctx.iterateInBlocks fuel maxFramesPerBlock render user).calls,
      ∀ e ∈ s.midiIn,
        s.inputChannels.firstFrame = ctx.inputChannels.firstFrame + e.frameIndex ∧
        1 ≤ s.inputChannels.getNumFrames ∧
        e.frameIndex < ctx.inputChannels.getNumFrames) := by
  have hplan := iterateInBlocks_subBlocks ctx fuel maxFramesPerBlock render user hOffset hFrames
  have key := blockPlan_sorted maxFramesPerBlock fuel 0 ctx.inputChannels.getNumFrames
    ctx.midiIn hSorted (fun _ _ => Nat.zero_le _) (by omega)
  have hpos := blockPlan_framesToDo_pos maxFramesPerBlock fuel hMax 0
    ctx.inputChannels.getNumFrames ctx.midiIn
  have hall : ∀ s ∈ (ctx.iterateInBlocks fuel maxFramesPerBlock render user).calls,
      ∀ e ∈ s.midiIn,
        s.inputChannels.firstFrame = ctx.inputChannels.firstFrame + e.frameIndex ∧
        1 ≤ s.inputChannels.getNumFrames ∧
        e.frameIndex < ctx.inputChannels.getNumFrames := by
    intro s hs e he
    have hmem : s.toSubBlock ctx.inputChannels.firstFrame ∈
        blockPlan maxFramesPerBlock fuel 0 ctx.inputChannels.getNumFrames ctx.midiIn := by
      rw [← hplan]
      exact List.mem_map_of_mem _ hs
    have h1 := key.1 _ hmem e he
    have h2 := hpos _ hmem
    have h3 := iterateInBlocks_firstFrame_ge ctx fuel maxFramesPerBlock render user s hs
    obtain ⟨before, after, hsplit⟩ := List.append_of_mem hmem
    obtain ⟨h4, h5, -⟩ := blockPlan_split maxFramesPerBlock fuel 0
      ctx.inputChannels.getNumFrames ctx.midiIn before _ after hsplit (by omega)
    simp only [RenderContext.toSubBlock] at h1 h2 h4 h5
    exact ⟨by omega, h2, by omega⟩
  refine ⟨?_, hall⟩
  intro e he hlt
  obtain ⟨b, hb, heb⟩ := key.2 hMax hFuel e he (by omega)
  rw [← hplan] at hb
  obtain ⟨s, hs, rfl⟩ := List.mem_map.mp hb
  have heb' : e ∈ s.midiIn := heb
  obtain ⟨h1, h2, -⟩ := hall s hs e heb'
  exact ⟨s, hs, heb', by omega, by omega⟩

/-- C2, on the 1000-frame block of scenario 1 with a block limit of 400. -/
theorem sorted_midi_delivered_in_window_witness :
    (∀ e ∈ scenarioContext.midiIn, e.frameIndex < scenarioContext.inputChannels.getNumFrames →
      ∃ s ∈ (scenarioContext.iterateInBlocks 1000 400 idleRender ()).calls,
        e ∈ s.midiIn ∧
        s.inputChannels.firstFrame ≤ scenarioContext.inputChannels.firstFrame + e.frameIndex ∧
        scenarioContext.inputChannels.firstFrame + e.frameIndex
          < s.inputChannels.firstFrame + s.inputChannels.getNumFrames) ∧
    (∀ s ∈ (scenarioContext.iterateInBlocks 1000 400 idleRender ()).calls,
      ∀ e ∈ s.midiIn,
        s.inputChannels.firstFrame = scenarioContext.inputChannels.firstFrame + e.frameIndex ∧
        1 ≤ s.inputChannels.getNumFrames ∧
        e.frameIndex < scenarioContext.inputChannels.getNumFrames) :=
  sorted_midi_delivered_in_window scenarioContext 1000 400 idleRender () rfl (by decide)
    (by decide) (by decide) (by decide)

/-- An event whose frame index is not an offset within the block: on a device block of 10
frames with block limit 512, the sorted MIDI buffer holding one event with frame index 10
is not delivered; the loop ends after its single sub-block of 10 frames, whose MIDI span
is empty. -/
theorem late_midi_event_not_delivered :
    lateEventContext.frameOffset = 0 ∧
    lateEventContext.midiIn.Pairwise (fun a b => a.frameIndex ≤ b.frameIndex) ∧
    (lateEventContext.iterateInBlocks 10 512 idleRender ()).finished = true ∧
    frameCounts (lateEventContext.iterateInBlocks 10 512 idleRender ()).calls = [10] ∧
    ∃ e ∈ lateEventContext.midiIn,
      ∀ s ∈ (lateEventContext.iterateInBlocks 10 512 idleRender ()).calls, e ∉ s.midiIn := by
  decide

/-! ## The frame counter -/

theorem processBlocks_total (contexts : List RenderContext) :
    ∀ s : AudioPlayerSession, 0 < s.maxBlockSize → s.totalFramesRendered < UINT64 →
      ∃ s', s.processBlocks contexts = some s' ∧ s'.maxBlockSize = s.maxBlockSize ∧
        s'.state = s.state ∧
        s'.totalFramesRendered =
          (s.totalFramesRendered + (outputFrames contexts).sum) % UINT64 := by
  induction contexts with
  | nil =>
    intro s _ hlt
    refine ⟨s, rfl, rfl, rfl, ?_⟩
    simp only [outputFrames, List.map_nil, List.sum_nil, Nat.add_zero]
    exact (Nat.mod_eq_of_lt hlt).symm
  | cons c rest ih =>
    intro s hBlock _
    simp only [AudioPlayerSession.processBlocks, processBlock_returns s c hBlock]
    obtain ⟨s', h1, h2, h3, h4⟩ := ih { s with
      performer := (s.iterateBlock c).user.performer
      totalFramesRendered := (s.totalFramesRendered + c.outputChannels.getNumFrames) % UINT64 }
      hBlock (Nat.mod_lt _ (by decide))
    refine ⟨s', h1, h2, h3, ?_⟩
    rw [h4]
    simp only [outputFrames, List.map_cons, List.sum_cons, UINT64]
    omega

/-- C6, as amended: for a session whose `maxBlockSize` is positive (the assertion of
`processBlock`) and whose frame counter is 0, any sequence of `processBlock` calls returns
and leaves `getTotalFramesRendered()` equal to the sum of the output frame counts of the
contexts modulo 2^64; and as long as that sum is below 2^64, the counter after each
call is at least the counter before it. -/
theorem totalFramesRendered_sum (s : AudioPlayerSession) (contexts : List RenderContext)
    (hBlock : 0 < s.maxBlockSize) (hZero : s.totalFramesRendered = 0) :
    (∃ s', s.processBlocks contexts = some s' ∧
      s'.getTotalFramesRendered = (outputFrames contexts).sum % UINT64) ∧
    ((outputFrames contexts).sum < UINT64 →
      ∀ (before : List RenderContext) (c : RenderContext) (after : List RenderContext),
        contexts = before ++ c :: after →
        ∃ a b, s.processBlocks before = some a ∧ a.processBlock c = some b ∧
          a.getTotalFramesRendered = (outputFrames before).sum ∧
          b.getTotalFramesRendered = (outputFrames before).sum + c.outputChannels.getNumFrames ∧
          a.getTotalFramesRendered ≤ b.getTotalFramesRendered) := by
  have hlt : s.totalFramesRendered < UINT64 := by rw [hZero]; decide
  refine ⟨?_, ?_⟩
  · obtain ⟨s', h1, -, -, h4⟩ := processBlocks_total contexts s hBlock hlt
    refine ⟨s', h1, ?_⟩
    rw [AudioPlayerSession.getTotalFramesRendered, h4, hZero, Nat.zero_add]
  · intro hsum before c after hsplit
    subst hsplit
    simp only [outputFrames, List.map_append, List.map_cons, List.sum_append, List.sum_cons]
      at hsum
    obtain ⟨a, h1, h2, -, h4⟩ := processBlocks_total before s hBlock hlt
    have ha : a.totalFramesRendered = (outputFrames before).sum := by
      rw [h4, hZero, Nat.zero_add]
      exact Nat.mod_eq_of_lt (by simp only [outputFrames]; omega)
    have hb := processBlock_returns a c (by rw [h2]; exact hBlock)
    refine ⟨a, _, h1, hb, ha, ?_, ?_⟩
    · simp only [AudioPlayerSession.getTotalFramesRendered, ha]
      exact Nat.mod_eq_of_lt (by simp only [outputFrames]; omega)
    · simp only [AudioPlayerSession.getTotalFramesRendered, ha]
      rw [Nat.mod_eq_of_lt (by simp only [outputFrames]; omega)]
      omega

/-- C6, as amended, on the running demo session and three blocks of scenario 1. -/
theorem totalFramesRendered_sum_witness :
    (∃ s', runningSession.processBlocks [scenarioContext, scenarioContext, scenarioContext]
        = some s' ∧
      s'.getTotalFramesRendered
        = (outputFrames [scenarioContext, scenarioContext, scenarioContext]).sum % UINT64) ∧
    ((outputFrames [scenarioContext, scenarioContext, scenarioContext]).sum < UINT64 →
      ∀ (before : List RenderContext) (c : RenderContext) (after : List RenderContext),
        [scenarioContext, scenarioContext, scenarioContext] = before ++ c :: after →
        ∃ a b, runningSession.processBlocks before = some a ∧ a.processBlock c = some b ∧
          a.getTotalFramesRendered = (outputFrames before).sum ∧
          b.getTotalFramesRendered = (outputFrames before).sum + c.outputChannels.getNumFrames ∧
          a.getTotalFramesRendered ≤ b.getTotalFramesRendered) :=
  totalFramesRendered_sum runningSession [scenarioContext, scenarioContext, scenarioContext]
    (by decide) rfl

theorem processBlock_total (s : AudioPlayerSession) (ctx : RenderContext)
    (hBlock : 0 < s.maxBlockSize) :
    ∃ s', s.processBlock ctx = some s' ∧
      s'.getTotalFramesRendered =
        (s.getTotalFramesRendered + ctx.outputChannels.getNumFrames) % UINT64 :=
  ⟨_, processBlock_returns s ctx hBlock, rfl⟩

/-- C6 fails as stated: a running session whose counter starts at 0 and that renders
2^32 + 1 device blocks of 2^32 - 1 frames has its counter at 2^64 - 1; the next
`processBlock` of such a block wraps the `uint64_t` counter around to 2^32 - 2, which is
lower. -/
theorem totalFramesRendered_wraps :
    runningSession.state = SessionState.running ∧ runningSession.totalFramesRendered = 0 ∧
    ∃ a b, runningSession.processBlocks (List.replicate 4294967297 hugeContext) = some a ∧
      a.processBlock hugeContext = some b ∧
      a.getTotalFramesRendered = 18446744073709551615 ∧
      b.getTotalFramesRendered = 4294967294 ∧
      b.getTotalFramesRendered < a.getTotalFramesRendered := by
  refine ⟨rfl, rfl, ?_⟩
  obtain ⟨a, h1, h2, -, h4⟩ := processBlocks_total (List.replicate 4294967297 hugeContext)
    runningSession (by decide) (by decide)
  have hsum : (outputFrames (List.replicate 4294967297 hugeContext)).sum
      = 4294967297 * 4294967295 := by
    rw [outputFrames, List.map_replicate, List.sum_replicate, smul_eq_mul]
    rfl
  have ha : a.getTotalFramesRendered = 18446744073709551615 := by
    rw [AudioPlayerSession.getTotalFramesRendered, h4, hsum]
    rfl
  obtain ⟨b, hb, hbt⟩ := processBlock_total a hugeContext (by rw [h2]; decide)
  have hwrap : (18446744073709551615 + hugeContext.outputChannels.getNumFrames) % UINT64
      = 4294967294 := rfl
  rw [ha, hwrap] at hbt
  refine ⟨a, b, h1, hb, ha, hbt, ?_⟩
  rw [ha, hbt]
  decide

/-! ## The session state machine -/

@[simp] theorem setState_state (s : AudioPlayerSession) (newState : SessionState) :
    (s.setState newState).state = newState := by
  simp only [AudioPlayerSession.setState]
  split_ifs with h1 h2
  · rfl
  · rfl
  · exact not_not.mp h1

@[simp] theorem setState_performer (s : AudioPlayerSession) (newState : SessionState) :
    (s.setState newState).performer = s.performer := by
  simp only [AudioPlayerSession.setState]
  split_ifs <;> rfl

@[simp] theorem setState_maxBlockSize (s : AudioPlayerSession) (newState : SessionState) :
    (s.setState newState).maxBlockSize = s.maxBlockSize := by
  simp only [AudioPlayerSession.setState]
  split_ifs <;> rfl

@[simp] theorem setState_connections (s : AudioPlayerSession) (newState : SessionState) :
    (s.setState newState).connections = s.connections := by
  simp only [AudioPlayerSession.setState]
  split_ifs <;> rfl

@[simp] theorem setState_preRenderOperations (s : AudioPlayerSession) (newState : SessionState) :
    (s.setState newState).preRenderOperations = s.preRenderOperations := by
  simp only [AudioPlayerSession.setState]
  split_ifs <;> rfl

@[simp] theorem setState_postRenderOperations (s : AudioPlayerSession) (newState : SessionState) :
    (s.setState newState).postRenderOperations = s.postRenderOperations := by
  simp only [AudioPlayerSession.setState]
  split_ifs <;> rfl

@[simp] theorem setState_inputCallbacks (s : AudioPlayerSession) (newState : SessionState) :
    (s.setState newState).inputCallbacks = s.inputCallbacks := by
  simp only [AudioPlayerSession.setState]
  split_ifs <;> rfl

@[simp] theorem setState_outputCallbacks (s : AudioPlayerSession) (newState : SessionState) :
    (s.setState newState).outputCallbacks = s.outputCallbacks := by
  simp only [AudioPlayerSession.setState]
  split_ifs <;> rfl

@[simp] theorem setState_totalFramesRendered (s : AudioPlayerSession) (newState : SessionState) :
    (s.setState newState).totalFramesRendered = s.totalFramesRendered := by
  simp only [AudioPlayerSession.setState]
  split_ifs <;> rfl

@[simp] theorem setState_self (s : AudioPlayerSession) (newState : SessionState) :
    (s.setState newState).self = s.self := by
  simp only [AudioPlayerSession.setState]
  split_ifs <;> rfl

theorem stop_fields (v : AudioPlayerVenue) (s : AudioPlayerSession) :
    (AudioPlayerSession.stop v s).2.performer = s.performer ∧
      (AudioPlayerSession.stop v s).2.self = s.self ∧
      (AudioPlayerSession.stop v s).2.maxBlockSize = s.maxBlockSize ∧
      (AudioPlayerSession.stop v s).2.connections = s.connections ∧
      (AudioPlayerSession.stop v s).2.preRenderOperations = s.preRenderOperations ∧
      (AudioPlayerSession.stop v s).2.postRenderOperations = s.postRenderOperations ∧
      (AudioPlayerSession.stop v s).2.inputCallbacks = s.inputCallbacks ∧
      (AudioPlayerSession.stop v s).2.outputCallbacks = s.outputCallbacks := by
  simp only [AudioPlayerSession.stop]
  split_ifs with h <;> simp

theorem stop_state (v : AudioPlayerVenue) (s : AudioPlayerSession) :
    (AudioPlayerSession.stop v s).2.state =
      if s.state = SessionState.running then SessionState.linked else s.state := by
  simp only [AudioPlayerSession.stop, AudioPlayerSession.isRunning]
  by_cases h : s.state = SessionState.running <;> simp [h]

theorem unload_fields (v : AudioPlayerVenue) (s : AudioPlayerSession) :
    (AudioPlayerSession.unload v s).2.state = SessionState.empty ∧
      (AudioPlayerSession.unload v s).2.performer = s.performer.unload ∧
      (AudioPlayerSession.unload v s).2.connections = [] ∧
      (AudioPlayerSession.unload v s).2.preRenderOperations = [] ∧
      (AudioPlayerSession.unload v s).2.postRenderOperations = [] ∧
      (AudioPlayerSession.unload v s).2.inputCallbacks = [] ∧
      (AudioPlayerSession.unload v s).2.outputCallbacks = [] ∧
      (AudioPlayerSession.unload v s).1 = (AudioPlayerSession.stop v s).1 := by
  simp [AudioPlayerSession.unload, (stop_fields v s).1]

/-- What `load` returns and leaves behind, case by case. -/
theorem load_cases (v : AudioPlayerVenue) (s : AudioPlayerSession) (program : Program) :
    (program.isEmpty = true → AudioPlayerSession.load v s program = (false, v, s)) ∧
    (program.isEmpty = false → (s.performer.unload.load program).1 = true →
      (AudioPlayerSession.load v s program).1 = true ∧
      (AudioPlayerSession.load v s program).2.2.state = SessionState.loaded ∧
      (AudioPlayerSession.load v s program).2.2.connections = [] ∧
      (AudioPlayerSession.load v s program).2.2.preRenderOperations = [] ∧
      (AudioPlayerSession.load v s program).2.2.postRenderOperations = [] ∧
      (AudioPlayerSession.load v s program).2.2.inputCallbacks = [] ∧
      (AudioPlayerSession.load v s program).2.2.outputCallbacks = []) ∧
    (program.isEmpty = false → (s.performer.unload.load program).1 = false →
      (AudioPlayerSession.load v s program).1 = false ∧
      (AudioPlayerSession.load v s program).2.2.state = SessionState.empty) := by
  obtain ⟨u1, u2, u3, u4, u5, u6, u7, -⟩ := unload_fields v s
  refine ⟨?_, ?_, ?_⟩
  · intro h
    simp [AudioPlayerSession.load, h]
  · intro h hacc
    simp [AudioPlayerSession.load, h, u2, hacc, u3, u4, u5, u6, u7]
  · intro h hrej
    simp [AudioPlayerSession.load, h, u2, hrej, u1]

theorem buildOperation_fields (s s' : AudioPlayerSession) (connection : Connection)
    (h : s.buildOperation connection = some s') :
    s'.state = s.state ∧ s'.connections = s.connections ∧ s'.maxBlockSize = s.maxBlockSize := by
  unfold AudioPlayerSession.buildOperation at h
  simp only at h
  repeat' split at h
  all_goals first
    | (cases h; done)
    | (simp only [Option.some.injEq] at h; subst h; simp)

theorem buildOperations_fields (connections : List Connection) :
    ∀ (s s' : AudioPlayerSession), AudioPlayerSession.buildOperations connections s = some s' →
      s'.state = s.state ∧ s'.connections = s.connections ∧
        s'.maxBlockSize = s.maxBlockSize := by
  induction connections with
  | nil =>
    intro s s' h
    simp only [AudioPlayerSession.buildOperations, Option.some.injEq] at h
    subst h
    exact ⟨rfl, rfl, rfl⟩
  | cons c rest ih =>
    intro s s' h
    simp only [AudioPlayerSession.buildOperations] at h
    cases hc : s.buildOperation c with
    | none => rw [hc] at h; cases h
    | some s1 =>
      rw [hc] at h
      obtain ⟨a1, a2, a3⟩ := buildOperation_fields s s1 c hc
      obtain ⟨b1, b2, b3⟩ := ih s1 s' h
      exact ⟨b1.trans a1, b2.trans a2, b3.trans a3⟩

theorem buildOperationList_fields (s s' : AudioPlayerSession)
    (h : s.buildOperationList = some s') :
    s'.state = s.state ∧ s'.connections = s.connections ∧ s'.maxBlockSize = s.maxBlockSize := by
  simp only [AudioPlayerSession.buildOperationList] at h
  have key := buildOperations_fields _ _ _ h
  simpa using key

/-- What `link` returns and leaves behind once `buildOperationList` has completed. -/
theorem link_cases (s b : AudioPlayerSession) (settings : BuildSettings)
    (hBuild : ({ s with maxBlockSize := settings.maxBlockSize }).buildOperationList = some b) :
    b.state = s.state ∧ b.connections = s.connections ∧
    b.maxBlockSize = settings.maxBlockSize ∧
    (s.state = SessionState.loaded → (b.performer.link settings).1 = true →
      s.link settings = some (true, ({ b with performer := (b.performer.link settings).2 }).setState
        SessionState.linked)) ∧
    (s.state = SessionState.loaded → (b.performer.link settings).1 = false →
      s.link settings = some (false, { b with performer := (b.performer.link settings).2 })) ∧
    (s.state ≠ SessionState.loaded → s.link settings = some (false, b)) := by
  obtain ⟨h1, h2, h3⟩ := buildOperationList_fields _ _ hBuild
  simp only at h1 h2 h3
  refine ⟨h1, h2, h3, ?_, ?_, ?_⟩
  · intro hs hl
    simp only [AudioPlayerSession.link]
    rw [hBuild]
    simp [h1, hs, hl]
  · intro hs hl
    simp only [AudioPlayerSession.link]
    rw [hBuild]
    simp [h1, hs, hl]
  · intro hs
    simp only [AudioPlayerSession.link]
    rw [hBuild]
    simp [h1, hs]

theorem link_returns_iff (s : AudioPlayerSession) (settings : BuildSettings) :
    (s.link settings).isSome =
      (({ s with maxBlockSize := settings.maxBlockSize }).buildOperationList).isSome := by
  simp only [AudioPlayerSession.link]
  cases ({ s with maxBlockSize := settings.maxBlockSize }).buildOperationList with
  | none => rfl
  | some b =>
    simp only
    split_ifs <;> rfl

/-- What `start` returns and leaves behind, case by case. -/
theorem start_cases (v : AudioPlayerVenue) (s : AudioPlayerSession) :
    (s.state ≠ SessionState.linked →
      AudioPlayerSession.start v s = some (s.isRunning, v, s)) ∧
    (s.state = SessionState.linked → s.performer.isLinked = true →
      AudioPlayerSession.start v s =
        some (true, (v.startSession s.self).2, s.setState SessionState.running)) ∧
    (s.state = SessionState.linked → s.performer.isLinked = false →
      AudioPlayerSession.start v s = none) := by
  refine ⟨?_, ?_, ?_⟩
  · intro h
    simp [AudioPlayerSession.start, h]
  · intro h hl
    simp [AudioPlayerSession.start, h, hl, AudioPlayerVenue.startSession,
      AudioPlayerSession.isRunning]
  · intro h hl
    simp [AudioPlayerSession.start, h, hl]
theorem runningSession_reachable :
    startedDemo.map (fun r => (r.1, r.2.1.activeSessions, r.2.1.callbackInstalled,
        r.2.2.observe, r.2.2.totalFramesRendered, r.2.2.performer.history)) =
      some (true, [1], true, runningSession.observe, runningSession.totalFramesRendered,
        runningSession.performer.history) :=
  rfl

/-- C7, as amended: `load`, `link` and `start` return true only if the post-state is the
one the transition intends (loaded, linked, running). Conversely, when the post-state of
`load` is loaded (of `link`: linked) and the session was not already in that state before
the call, the call returned true; for `start` the converse holds without that proviso:
it returns true exactly when the post-state is running. A `load` with an empty program
returns false and changes neither the venue nor the session, so that on a loaded session
the post-state is loaded; a `link` on a session that is not loaded, when it returns,
returns false and leaves the state where it was, so that on a linked session the
post-state is linked. `link` returns whenever the operation-list builder completes, and
`start` whenever the session is not linked or the performer reports that it is linked
(its assertion). -/
theorem transition_result_matches_post_state (v : AudioPlayerVenue) (s : AudioPlayerSession)
    (program : Program) (settings : BuildSettings) :
    ((AudioPlayerSession.load v s program).1 = true →
      (AudioPlayerSession.load v s program).2.2.state = SessionState.loaded) ∧
    ((AudioPlayerSession.load v s program).2.2.state = SessionState.loaded →
      s.state ≠ SessionState.loaded → (AudioPlayerSession.load v s program).1 = true) ∧
    (∀ r s', s.link settings = some (r, s') →
      (r = true → s'.state = SessionState.linked) ∧
      (s'.state = SessionState.linked → s.state ≠ SessionState.linked → r = true)) ∧
    (∀ r v' s', AudioPlayerSession.start v s = some (r, v', s') →
      (r = true ↔ s'.state = SessionState.running)) ∧
    (program.isEmpty = true → AudioPlayerSession.load v s program = (false, v, s)) ∧
    (program.isEmpty = true → s.state = SessionState.loaded →
      (AudioPlayerSession.load v s program).1 = false ∧
      (AudioPlayerSession.load v s program).2.2.state = SessionState.loaded) ∧
    (∀ r s', s.link settings = some (r, s') → s.state ≠ SessionState.loaded →
      r = false ∧ s'.state = s.state) ∧
    (∀ r s', s.link settings = some (r, s') → s.state = SessionState.linked →
      r = false ∧ s'.state = SessionState.linked) ∧
    (s.link settings).isSome =
      (({ s with maxBlockSize := settings.maxBlockSize }).buildOperationList).isSome ∧
    (AudioPlayerSession.start v s).isSome =
      (decide (s.state ≠ SessionState.linked) || s.performer.isLinked) := by
  obtain ⟨l1, l2, l3⟩ := load_cases v s program
  obtain ⟨s1, s2, s3⟩ := start_cases v s
  have hrejected : ∀ r s', s.link settings = some (r, s') → s.state ≠ SessionState.loaded →
      r = false ∧ s'.state = s.state := by
    intro r s' hlink hs
    have hsome : (({ s with maxBlockSize := settings.maxBlockSize }).buildOperationList).isSome
        = true := by rw [← link_returns_iff, hlink]; rfl
    obtain ⟨b, hb⟩ := Option.isSome_iff_exists.mp hsome
    obtain ⟨c1, -, -, -, -, c6⟩ := link_cases s b settings hb
    rw [c6 hs] at hlink
    simp only [Option.some.injEq, Prod.mk.injEq] at hlink
    obtain ⟨rfl, rfl⟩ := hlink
    exact ⟨rfl, c1⟩
  refine ⟨?_, ?_, ?_, ?_, l1, ?_, hrejected, ?_, link_returns_iff s settings, ?_⟩
  rotate_left 4
  · intro he hs
    rw [l1 he]
    exact ⟨rfl, hs⟩
  · intro r s' hlink hs
    obtain ⟨h1, h2⟩ := hrejected r s' hlink (by rw [hs]; decide)
    exact ⟨h1, h2.trans hs⟩
  rotate_left 1
  · intro h
    cases he : program.isEmpty with
    | true => rw [l1 he] at h; cases h
    | false =>
      cases ha : (s.performer.unload.load program).1 with
      | true => exact (l2 he ha).2.1
      | false => rw [(l3 he ha).1] at h; cases h
  · intro h hs
    cases he : program.isEmpty with
    | true => rw [l1 he] at h; exact absurd h hs
    | false =>
      cases ha : (s.performer.unload.load program).1 with
      | true => exact (l2 he ha).1
      | false => rw [(l3 he ha).2] at h; cases h
  · intro r s' hlink
    have hsome : (({ s with maxBlockSize := settings.maxBlockSize }).buildOperationList).isSome
        = true := by rw [← link_returns_iff, hlink]; rfl
    obtain ⟨b, hb⟩ := Option.isSome_iff_exists.mp hsome
    obtain ⟨c1, -, -, c4, c5, c6⟩ := link_cases s b settings hb
    by_cases hs : s.state = SessionState.loaded
    · cases hl : (b.performer.link settings).1 with
      | true =>
        rw [c4 hs hl] at hlink
        simp only [Option.some.injEq, Prod.mk.injEq] at hlink
        obtain ⟨rfl, rfl⟩ := hlink
        exact ⟨fun _ => setState_state _ _, fun _ _ => rfl⟩
      | false =>
        rw [c5 hs hl] at hlink
        simp only [Option.some.injEq, Prod.mk.injEq] at hlink
        obtain ⟨rfl, rfl⟩ := hlink
        refine ⟨fun h => (by cases h), fun h hne => ?_⟩
        simp only [c1] at h
        exact absurd h hne
    · rw [c6 hs] at hlink
      simp only [Option.some.injEq, Prod.mk.injEq] at hlink
      obtain ⟨rfl, rfl⟩ := hlink
      refine ⟨fun h => (by cases h), fun h hne => ?_⟩
      rw [c1] at h
      exact absurd h hne
  · intro r v' s' hstart
    by_cases hs : s.state = SessionState.linked
    · cases hl : s.performer.isLinked with
      | true =>
        rw [s2 hs hl] at hstart
        simp only [Option.some.injEq, Prod.mk.injEq] at hstart
        obtain ⟨rfl, -, rfl⟩ := hstart
        simp [setState_state]
      | false => rw [s3 hs hl] at hstart; cases hstart
    · rw [s1 hs] at hstart
      simp only [Option.some.injEq, Prod.mk.injEq] at hstart
      obtain ⟨rfl, -, rfl⟩ := hstart
      simp [AudioPlayerSession.isRunning]
  · by_cases hs : s.state = SessionState.linked
    · cases hl : s.performer.isLinked with
      | true => rw [s2 hs hl]; simp
      | false => rw [s3 hs hl]; simp [hs]
    · rw [s1 hs]; simp [hs]

/-- C7, as amended, on the demo session: `load` of the demo program on the fresh session
returns true, so the post-state is loaded; and `load` of the empty program on that loaded
session returns false and leaves it loaded. -/
theorem transition_result_matches_post_state_witness :
    (AudioPlayerSession.load demoVenue (AudioPlayerSession.create 1 demoPerformer)
      demoProgram).2.2.state = SessionState.loaded ∧
    (AudioPlayerSession.load loadedDemo.2.1 loadedDemo.2.2 emptyProgram).1 = false ∧
    (AudioPlayerSession.load loadedDemo.2.1 loadedDemo.2.2 emptyProgram).2.2.state
      = SessionState.loaded :=
  ⟨(transition_result_matches_post_state demoVenue (AudioPlayerSession.create 1 demoPerformer)
      demoProgram { maxBlockSize := 512 }).1 rfl,
   (transition_result_matches_post_state loadedDemo.2.1 loadedDemo.2.2 emptyProgram
      { maxBlockSize := 512 }).2.2.2.2.2.1 rfl rfl⟩

/-- C7 fails as stated: a freshly loaded session stays loaded when `load` is called with
an empty program, yet that call returns false; and the linked session stays linked when
`link` is called again, yet that call returns false. -/
theorem rejected_call_leaves_intended_state :
    loadedDemo.1 = true ∧ loadedDemo.2.2.state = SessionState.loaded ∧
    (AudioPlayerSession.load loadedDemo.2.1 loadedDemo.2.2 emptyProgram).1 = false ∧
    (AudioPlayerSession.load loadedDemo.2.1 loadedDemo.2.2 emptyProgram).2.2.state
      = SessionState.loaded ∧
    linkedDemo.map (fun r => (r.1, r.2.state)) = some (true, SessionState.linked) ∧
    (linkedDemo.bind (fun linked => linked.2.link { maxBlockSize := 512 })).map
      (fun r => (r.1, r.2.state)) = some (false, SessionState.linked) := by
  decide

/-- C8, the code at the failing input: on the running session (block size 512, no
operations) `link` with a block size of 64 returns false and leaves the state running,
but `maxBlockSize` is now 64; and once a MIDI connection was added to the running session,
`link` returns false but the pre-render operation list, empty before, now holds the MIDI
operation. -/
theorem link_in_illegal_state_has_effect :
    runningSession.observe = (SessionState.running, 512, [], [], []) ∧
    (runningSession.link { maxBlockSize := 64 }).map (fun r => (r.1, r.2.observe))
      = some (false, SessionState.running, 64, [], [], []) ∧
    connectedWhileRunning.1 = true ∧
    connectedWhileRunning.2.observe = (SessionState.running, 512, [], [],
      [{ audioInputStreamIndex := -1, audioOutputStreamIndex := -1, isMIDI := true,
         endpointID := "midi" }]) ∧
    (connectedWhileRunning.2.link { maxBlockSize := 512 }).map (fun r => (r.1, r.2.observe))
      = some (false, SessionState.running, 512, [RenderOp.midiInput 4], [],
          [{ audioInputStreamIndex := -1, audioOutputStreamIndex := -1, isMIDI := true,
             endpointID := "midi" }]) :=
  ⟨rfl, rfl, rfl, rfl, rfl⟩

/-- C9: for every session state and program, `load (program)` returns true iff the program
is non-empty and the performer, unloaded first, accepts it. When it returns true the state
is loaded and the connection table, both operation lists and both service-callback lists
are empty. When the program is non-empty and the performer rejects it, the session ends
in state empty. When the program is empty the call returns false (and changes nothing). -/
theorem load_result_and_post_state (v : AudioPlayerVenue) (s : AudioPlayerSession)
    (program : Program) :
    ((AudioPlayerSession.load v s program).1 = true ↔
      (program.isEmpty = false ∧ (s.performer.unload.load program).1 = true)) ∧
    ((AudioPlayerSession.load v s program).1 = true →
      (AudioPlayerSession.load v s program).2.2.state = SessionState.loaded ∧
      (AudioPlayerSession.load v s program).2.2.connections = [] ∧
      (AudioPlayerSession.load v s program).2.2.preRenderOperations = [] ∧
      (AudioPlayerSession.load v s program).2.2.postRenderOperations = [] ∧
      (AudioPlayerSession.load v s program).2.2.inputCallbacks = [] ∧
      (AudioPlayerSession.load v s program).2.2.outputCallbacks = []) ∧
    (program.isEmpty = false → (s.performer.unload.load program).1 = false →
      (AudioPlayerSession.load v s program).2.2.state = SessionState.empty) ∧
    (program.isEmpty = true →
      (AudioPlayerSession.load v s program).1 = false ∧
      (AudioPlayerSession.load v s program).2.2 = s) := by
  obtain ⟨l1, l2, l3⟩ := load_cases v s program
  have hiff : (AudioPlayerSession.load v s program).1 = true ↔
      (program.isEmpty = false ∧ (s.performer.unload.load program).1 = true) := by
    cases he : program.isEmpty with
    | true => rw [l1 he]; simp
    | false =>
      cases ha : (s.performer.unload.load program).1 with
      | true => simp [(l2 he ha).1]
      | false => simp [(l3 he ha).1]
  refine ⟨hiff, ?_, ?_, ?_⟩
  · intro h
    obtain ⟨he, ha⟩ := hiff.mp h
    exact (l2 he ha).2
  · intro he ha
    exact (l3 he ha).2
  · intro he
    rw [l1 he]
    exact ⟨rfl, rfl⟩

theorem buildOperation_identity (s s' : AudioPlayerSession) (connection : Connection)
    (h : s.buildOperation connection = some s') :
    s'.self = s.self ∧ s'.totalFramesRendered = s.totalFramesRendered := by
  unfold AudioPlayerSession.buildOperation at h
  simp only at h
  repeat' split at h
  all_goals first
    | (cases h; done)
    | (simp only [Option.some.injEq] at h; subst h; simp)

theorem buildOperations_identity (connections : List Connection) :
    ∀ (s s' : AudioPlayerSession), AudioPlayerSession.buildOperations connections s = some s' →
      s'.self = s.self ∧ s'.totalFramesRendered = s.totalFramesRendered := by
  induction connections with
  | nil =>
    intro s s' h
    simp only [AudioPlayerSession.buildOperations, Option.some.injEq] at h
    subst h
    exact ⟨rfl, rfl⟩
  | cons c rest ih =>
    intro s s' h
    simp only [AudioPlayerSession.buildOperations] at h
    cases hc : s.buildOperation c with
    | none => rw [hc] at h; cases h
    | some s1 =>
      rw [hc] at h
      obtain ⟨a1, a2⟩ := buildOperation_identity s s1 c hc
      obtain ⟨b1, b2⟩ := ih s1 s' h
      exact ⟨b1.trans a1, b2.trans a2⟩

theorem link_fields (s s' : AudioPlayerSession) (settings : BuildSettings) (result : Bool)
    (h : s.link settings = some (result, s')) :
    s'.self = s.self ∧ s'.totalFramesRendered = s.totalFramesRendered ∧
      s'.connections = s.connections ∧
      (s'.state = s.state ∨
        (s.state = SessionState.loaded ∧ s'.state = SessionState.linked)) := by
  have hsome : (({ s with maxBlockSize := settings.maxBlockSize }).buildOperationList).isSome
      = true := by rw [← link_returns_iff, h]; rfl
  obtain ⟨b, hb⟩ := Option.isSome_iff_exists.mp hsome
  obtain ⟨c1, c2, -, c4, c5, c6⟩ := link_cases s b settings hb
  have hid := buildOperations_identity _ _ _ hb
  simp only at hid
  obtain ⟨i1, i2⟩ := hid
  by_cases hs : s.state = SessionState.loaded
  · cases hl : (b.performer.link settings).1 with
    | true =>
      rw [c4 hs hl] at h
      simp only [Option.some.injEq, Prod.mk.injEq] at h
      obtain ⟨-, rfl⟩ := h
      simp [i1, i2, c2, hs]
    | false =>
      rw [c5 hs hl] at h
      simp only [Option.some.injEq, Prod.mk.injEq] at h
      obtain ⟨-, rfl⟩ := h
      simp [i1, i2, c2, c1]
  · rw [c6 hs] at h
    simp only [Option.some.injEq, Prod.mk.injEq] at h
    obtain ⟨-, rfl⟩ := h
    simp [i1, i2, c2, c1]

theorem stopSession_fields (v : AudioPlayerVenue) (x : Nat) :
    (v.stopSession x).2.activeSessions = v.activeSessions.erase x ∧
      (v.stopSession x).2.sourceEndpoints = v.sourceEndpoints ∧
      (v.stopSession x).2.sinkEndpoints = v.sinkEndpoints := by
  simp only [AudioPlayerVenue.stopSession]
  split_ifs <;> simp

theorem startSession_fields (v : AudioPlayerVenue) (x : Nat) :
    (v.startSession x).2.activeSessions =
        (if x ∈ v.activeSessions then v.activeSessions else v.activeSessions ++ [x]) ∧
      (v.startSession x).2.sourceEndpoints = v.sourceEndpoints ∧
      (v.startSession x).2.sinkEndpoints = v.sinkEndpoints ∧
      (v.startSession x).2.callbackInstalled = true := by
  simp only [AudioPlayerVenue.startSession]
  split_ifs <;> simp

theorem startSession_nodup (v : AudioPlayerVenue) (x : Nat) (h : v.activeSessions.Nodup) :
    (v.startSession x).2.activeSessions.Nodup := by
  rw [(startSession_fields v x).1]
  split_ifs with hx
  · exact h
  · rw [← List.concat_eq_append]
    exact List.Nodup.concat hx h

theorem invariant_create (numInputChannels numOutputChannels : Int) (deviceBlockSize : Nat)
    (deviceXruns : Int) (self : Nat) (performer : Performer) :
    SessionInvariant (freshVenue numInputChannels numOutputChannels deviceBlockSize deviceXruns)
      (AudioPlayerSession.create self performer) := by
  refine ⟨?_, ?_, ?_, ?_, ?_, ?_⟩
  · simp [freshVenue, AudioPlayerVenue.create]
  · simp [freshVenue, AudioPlayerVenue.create, AudioPlayerSession.create]
  · intro _; rfl
  · simp [AudioPlayerSession.create]
  · intro e he hm
    simp only [freshVenue, AudioPlayerVenue.create, createDeviceEndpoints, addEndpoint] at he
    split_ifs at he <;> simp at he <;> rcases he with rfl | rfl <;> simp_all
  · intro e he hm
    simp only [freshVenue, AudioPlayerVenue.create, createDeviceEndpoints, addEndpoint] at he
    split_ifs at he <;> simp at he <;> rcases he with rfl | rfl <;> simp_all

theorem invariant_stop (v : AudioPlayerVenue) (s : AudioPlayerSession)
    (h : SessionInvariant v s) :
    SessionInvariant (AudioPlayerSession.stop v s).1 (AudioPlayerSession.stop v s).2 := by
  by_cases hs : s.state = SessionState.running
  · have hstop : AudioPlayerSession.stop v s =
        ((v.stopSession s.self).2,
          { s.setState SessionState.linked with totalFramesRendered := 0 }) := by
      simp [AudioPlayerSession.stop, AudioPlayerSession.isRunning, hs]
    rw [hstop]
    obtain ⟨f1, f2, f3⟩ := stopSession_fields v s.self
    refine ⟨?_, ?_, ?_, ?_, ?_, ?_⟩
    · rw [f1]; exact h.nodup.erase _
    · simp only [f1, setState_self, setState_state]
      constructor
      · intro hmem; exact absurd hmem h.nodup.not_mem_erase
      · intro hc; cases hc
    · intro _; rfl
    · simpa using h.connections
    · rw [f2]; exact h.sources
    · rw [f3]; exact h.sinks
  · have hstop : AudioPlayerSession.stop v s = (v, s) := by
      simp [AudioPlayerSession.stop, AudioPlayerSession.isRunning, hs]
    rw [hstop]
    exact h

theorem stop_not_running (v : AudioPlayerVenue) (s : AudioPlayerSession) :
    (AudioPlayerSession.stop v s).2.state ≠ SessionState.running := by
  rw [stop_state]
  split_ifs with h
  · decide
  · exact h

theorem invariant_unload (v : AudioPlayerVenue) (s : AudioPlayerSession)
    (h : SessionInvariant v s) :
    SessionInvariant (AudioPlayerSession.unload v s).1 (AudioPlayerSession.unload v s).2 := by
  have hi := invariant_stop v s h
  have hn := stop_not_running v s
  refine ⟨?_, ?_, ?_, ?_, ?_, ?_⟩
  · simpa [AudioPlayerSession.unload] using hi.nodup
  · have hmem : (AudioPlayerSession.stop v s).2.self ∉ (AudioPlayerSession.stop v s).1.activeSessions :=
      fun hm => hn (hi.active.mp hm)
    simp only [AudioPlayerSession.unload, setState_self, setState_state]
    constructor
    · intro hm; exact absurd hm hmem
    · intro hc; cases hc
  · intro _
    simpa [AudioPlayerSession.unload] using hi.counter hn
  · simp [AudioPlayerSession.unload]
  · simpa [AudioPlayerSession.unload] using hi.sources
  · simpa [AudioPlayerSession.unload] using hi.sinks

theorem load_eq (v : AudioPlayerVenue) (s : AudioPlayerSession) (program : Program) :
    (program.isEmpty = true → AudioPlayerSession.load v s program = (false, v, s)) ∧
    (program.isEmpty = false →
      ((AudioPlayerSession.unload v s).2.performer.load program).1 = true →
      AudioPlayerSession.load v s program =
        (true, (AudioPlayerSession.unload v s).1,
          ({ (AudioPlayerSession.unload v s).2 with
              performer := ((AudioPlayerSession.unload v s).2.performer.load program).2 }).setState
            SessionState.loaded)) ∧
    (program.isEmpty = false →
      ((AudioPlayerSession.unload v s).2.performer.load program).1 = false →
      AudioPlayerSession.load v s program =
        (false, (AudioPlayerSession.unload v s).1,
          { (AudioPlayerSession.unload v s).2 with
              performer := ((AudioPlayerSession.unload v s).2.performer.load program).2 })) := by
  refine ⟨?_, ?_, ?_⟩
  · intro he; simp [AudioPlayerSession.load, he]
  · intro he ha; simp [AudioPlayerSession.load, he, ha]
  · intro he ha; simp [AudioPlayerSession.load, he, ha]

theorem invariant_load (v : AudioPlayerVenue) (s : AudioPlayerSession) (program : Program)
    (h : SessionInvariant v s) :
    SessionInvariant (AudioPlayerSession.load v s program).2.1
      (AudioPlayerSession.load v s program).2.2 := by
  have hu := invariant_unload v s h
  have hstate := (unload_fields v s).1
  obtain ⟨l1, l2, l3⟩ := load_eq v s program
  cases he : program.isEmpty with
  | true => rw [l1 he]; exact h
  | false =>
    have hmem : (AudioPlayerSession.unload v s).2.self ∉
        (AudioPlayerSession.unload v s).1.activeSessions := by
      intro hm
      have := hu.active.mp hm
      rw [hstate] at this
      cases this
    have hcount := hu.counter (by rw [hstate]; decide)
    cases ha : ((AudioPlayerSession.unload v s).2.performer.load program).1 with
    | true =>
      rw [l2 he ha]
      refine ⟨hu.nodup, ?_, ?_, ?_, hu.sources, hu.sinks⟩
      · simp only [setState_self, setState_state]
        constructor
        · intro hm; exact absurd hm hmem
        · intro hc; cases hc
      · intro _
        simpa using hcount
      · simpa using hu.connections
    | false =>
      rw [l3 he ha]
      refine ⟨hu.nodup, ?_, ?_, hu.connections, hu.sources, hu.sinks⟩
      · constructor
        · intro hm; exact absurd hm hmem
        · intro hc
          have hc' : (AudioPlayerSession.unload v s).2.state = SessionState.running := hc
          rw [hstate] at hc'
          cases hc'
      · intro _
        exact hcount

theorem invariant_link (v : AudioPlayerVenue) (s s' : AudioPlayerSession)
    (settings : BuildSettings) (result : Bool) (h : SessionInvariant v s)
    (hlink : s.link settings = some (result, s')) : SessionInvariant v s' := by
  obtain ⟨f1, f2, f3, f4⟩ := link_fields s s' settings result hlink
  refine ⟨h.nodup, ?_, ?_, ?_, h.sources, h.sinks⟩
  · rw [f1]
    rcases f4 with f4 | ⟨f4, f5⟩
    · rw [f4]; exact h.active
    · rw [f5]
      constructor
      · intro hm
        have := h.active.mp hm
        rw [f4] at this
        cases this
      · intro hc; cases hc
  · intro hs
    rw [f2]
    rcases f4 with f4 | ⟨f4, -⟩
    · exact h.counter (by rw [← f4]; exact hs)
    · exact h.counter (by rw [f4]; decide)
  · rw [f3]; exact h.connections

theorem invariant_start (v v' : AudioPlayerVenue) (s s' : AudioPlayerSession) (result : Bool)
    (h : SessionInvariant v s)
    (hstart : AudioPlayerSession.start v s = some (result, v', s')) :
    SessionInvariant v' s' := by
  obtain ⟨s1, s2, s3⟩ := start_cases v s
  by_cases hs : s.state = SessionState.linked
  · cases hl : s.performer.isLinked with
    | true =>
      rw [s2 hs hl] at hstart
      simp only [Option.some.injEq, Prod.mk.injEq] at hstart
      obtain ⟨-, rfl, rfl⟩ := hstart
      obtain ⟨g1, g2, g3, -⟩ := startSession_fields v s.self
      have hnot : s.self ∉ v.activeSessions := by
        intro hm
        have := h.active.mp hm
        rw [hs] at this
        cases this
      refine ⟨startSession_nodup v s.self h.nodup, ?_, ?_, ?_, ?_, ?_⟩
      · simp only [setState_self, setState_state, g1, if_neg hnot]
        simp
      · intro hc
        simp at hc
      · simpa using h.connections
      · rw [g2]; exact h.sources
      · rw [g3]; exact h.sinks
    | false => rw [s3 hs hl] at hstart; cases hstart
  · rw [s1 hs] at hstart
    simp only [Option.some.injEq, Prod.mk.injEq] at hstart
    obtain ⟨-, rfl, rfl⟩ := hstart
    exact h

theorem connectInputLoop_shape (e : EndpointInfo) (inputID : EndpointID) (c : Connection) :
    ∀ l : List EndpointDetails, connectInputLoop e inputID l = some c →
      (e.isMIDI = false ∧ c =
        { audioInputStreamIndex := e.audioChannelIndex, audioOutputStreamIndex := -1,
          isMIDI := false, endpointID := inputID }) ∨
      (e.isMIDI = true ∧ c =
        { audioInputStreamIndex := -1, audioOutputStreamIndex := -1,
          isMIDI := true, endpointID := inputID }) := by
  intro l
  induction l with
  | nil => intro h; simp [connectInputLoop] at h
  | cons d rest ih =>
    intro h
    simp only [connectInputLoop] at h
    split_ifs at h with h1 h2 h3
    · simp only [Option.some.injEq] at h
      simp only [Bool.and_eq_true, Bool.not_eq_true'] at h2
      left
      exact ⟨h2.2, by rw [← h, h1]⟩
    · simp only [Option.some.injEq] at h
      simp only [Bool.and_eq_true] at h3
      right
      exact ⟨h3.2, by rw [← h, h1]⟩
    · exact ih h
    · exact ih h

theorem connectInputLoop_isSome (e : EndpointInfo) (inputID : EndpointID) :
    ∀ l : List EndpointDetails, (connectInputLoop e inputID l).isSome = true ↔
      ∃ d ∈ l, d.endpointID = inputID ∧
        ((isStream d = true ∧ e.isMIDI = false) ∨ (isEvent d = true ∧ e.isMIDI = true)) := by
  intro l
  induction l with
  | nil => simp [connectInputLoop]
  | cons d rest ih =>
    simp only [connectInputLoop, List.mem_cons, exists_eq_or_imp]
    split_ifs with h1 h2 h3
    · simp only [Bool.and_eq_true, Bool.not_eq_true'] at h2
      simp [h1, h2]
    · simp only [Bool.and_eq_true] at h3
      simp [h1, h3]
    · simp only [Bool.and_eq_true, Bool.not_eq_true', not_and] at h2 h3
      rw [ih]
      constructor
      · intro hx; exact Or.inr hx
      · rintro (⟨-, hx⟩ | hx)
        · rcases hx with ⟨a, b⟩ | ⟨a, b⟩
          · exact absurd b (by simpa using h2 a)
          · exact absurd b (by simpa using h3 a)
        · exact hx
    · rw [ih]
      constructor
      · intro hx; exact Or.inr hx
      · rintro (⟨hx, -⟩ | hx)
        · exact absurd hx h1
        · exact hx

theorem connectOutputLoop_shape (e : EndpointInfo) (outputID : EndpointID) (c : Connection) :
    ∀ l : List EndpointDetails, connectOutputLoop e outputID l = some c →
      e.isMIDI = false ∧ c =
        { audioInputStreamIndex := -1, audioOutputStreamIndex := e.audioChannelIndex,
          isMIDI := false, endpointID := outputID } := by
  intro l
  induction l with
  | nil => intro h; simp [connectOutputLoop] at h
  | cons d rest ih =>
    intro h
    simp only [connectOutputLoop] at h
    split_ifs at h with h1 h2
    · simp only [Option.some.injEq] at h
      simp only [Bool.and_eq_true, Bool.not_eq_true'] at h2
      exact ⟨h2.2, by rw [← h, h1]⟩
    · exact ih h
    · exact ih h

theorem connectOutputLoop_isSome (e : EndpointInfo) (outputID : EndpointID) :
    ∀ l : List EndpointDetails, (connectOutputLoop e outputID l).isSome = true ↔
      ∃ d ∈ l, d.endpointID = outputID ∧ isStream d = true ∧ e.isMIDI = false := by
  intro l
  induction l with
  | nil => simp [connectOutputLoop]
  | cons d rest ih =>
    simp only [connectOutputLoop, List.mem_cons, exists_eq_or_imp]
    split_ifs with h1 h2
    · simp only [Bool.and_eq_true, Bool.not_eq_true'] at h2
      simp [h1, h2]
    · simp only [Bool.and_eq_true, Bool.not_eq_true', not_and] at h2
      rw [ih]
      constructor
      · intro hx; exact Or.inr hx
      · rintro (⟨-, a, b⟩ | hx)
        · exact absurd b (by simpa using h2 a)
        · exact hx
    · rw [ih]
      constructor
      · intro hx; exact Or.inr hx
      · rintro (⟨hx, -⟩ | hx)
        · exact absurd hx h1
        · exact hx

theorem findEndpoint_mem (endpoints : List EndpointInfo) (endpointID : EndpointID)
    (e : EndpointInfo) (h : findEndpoint endpoints endpointID = some e) :
    e ∈ endpoints ∧ e.details.endpointID = endpointID := by
  simp only [findEndpoint] at h
  exact ⟨List.mem_of_find?_eq_some h, by simpa using List.find?_some h⟩

/-- What `connectSessionInputEndpoint` returns and leaves behind, case by case. -/
theorem connectInput_cases (v : AudioPlayerVenue) (s : AudioPlayerSession)
    (inputID venueSourceID : EndpointID) :
    (∃ e c, findEndpoint v.sourceEndpoints venueSourceID = some e ∧
        connectInputLoop e inputID s.performer.getInputEndpoints = some c ∧
        AudioPlayerSession.connectSessionInputEndpoint v s inputID venueSourceID =
          (true, { s with connections := s.connections ++ [c] })) ∨
    ((∀ e, findEndpoint v.sourceEndpoints venueSourceID = some e →
        connectInputLoop e inputID s.performer.getInputEndpoints = none) ∧
      AudioPlayerSession.connectSessionInputEndpoint v s inputID venueSourceID = (false, s)) := by
  simp only [AudioPlayerSession.connectSessionInputEndpoint]
  cases hf : findEndpoint v.sourceEndpoints venueSourceID with
  | none => right; simp
  | some e =>
    simp only [AudioPlayerSession.connectInputEndpoint]
    cases hc : connectInputLoop e inputID s.performer.getInputEndpoints with
    | none => right; simp [hc]
    | some c => left; exact ⟨e, c, rfl, hc, rfl⟩

/-- What `connectSessionOutputEndpoint` returns and leaves behind, case by case. -/
theorem connectOutput_cases (v : AudioPlayerVenue) (s : AudioPlayerSession)
    (outputID venueSinkID : EndpointID) :
    (∃ e c, findEndpoint v.sinkEndpoints venueSinkID = some e ∧
        connectOutputLoop e outputID s.performer.getOutputEndpoints = some c ∧
        AudioPlayerSession.connectSessionOutputEndpoint v s outputID venueSinkID =
          (true, { s with connections := s.connections ++ [c] })) ∨
    ((∀ e, findEndpoint v.sinkEndpoints venueSinkID = some e →
        connectOutputLoop e outputID s.performer.getOutputEndpoints = none) ∧
      AudioPlayerSession.connectSessionOutputEndpoint v s outputID venueSinkID = (false, s)) := by
  simp only [AudioPlayerSession.connectSessionOutputEndpoint]
  cases hf : findEndpoint v.sinkEndpoints venueSinkID with
  | none => right; simp
  | some e =>
    simp only [AudioPlayerSession.connectOutputEndpoint]
    cases hc : connectOutputLoop e outputID s.performer.getOutputEndpoints with
    | none => right; simp [hc]
    | some c => left; exact ⟨e, c, rfl, hc, rfl⟩

theorem invariant_connectInput (v : AudioPlayerVenue) (s : AudioPlayerSession)
    (inputID venueSourceID : EndpointID) (h : SessionInvariant v s) :
    SessionInvariant v
      (AudioPlayerSession.connectSessionInputEndpoint v s inputID venueSourceID).2 := by
  rcases connectInput_cases v s inputID venueSourceID with ⟨e, c, hf, hc, heq⟩ | ⟨-, heq⟩
  · rw [heq]
    refine ⟨h.nodup, h.active, h.counter, ?_, h.sources, h.sinks⟩
    intro c' hc'
    simp only [List.mem_append, List.mem_singleton] at hc'
    rcases hc' with hc' | rfl
    · exact h.connections c' hc'
    · rcases connectInputLoop_shape e inputID c' _ hc with ⟨hm, rfl⟩ | ⟨hm, rfl⟩
      · left
        exact ⟨h.sources e (findEndpoint_mem _ _ _ hf).1 hm, (show ¬ (0 : Int) ≤ -1 by decide), rfl⟩
      · right; right
        exact ⟨(show ¬ (0 : Int) ≤ -1 by decide), (show ¬ (0 : Int) ≤ -1 by decide), rfl⟩
  · rw [heq]; exact h

theorem invariant_connectOutput (v : AudioPlayerVenue) (s : AudioPlayerSession)
    (outputID venueSinkID : EndpointID) (h : SessionInvariant v s) :
    SessionInvariant v
      (AudioPlayerSession.connectSessionOutputEndpoint v s outputID venueSinkID).2 := by
  rcases connectOutput_cases v s outputID venueSinkID with ⟨e, c, hf, hc, heq⟩ | ⟨-, heq⟩
  · rw [heq]
    refine ⟨h.nodup, h.active, h.counter, ?_, h.sources, h.sinks⟩
    intro c' hc'
    simp only [List.mem_append, List.mem_singleton] at hc'
    rcases hc' with hc' | rfl
    · exact h.connections c' hc'
    · obtain ⟨hm, rfl⟩ := connectOutputLoop_shape e outputID c' _ hc
      right; left
      exact ⟨(show ¬ (0 : Int) ≤ -1 by decide), h.sinks e (findEndpoint_mem _ _ _ hf).1 hm, rfl⟩
  · rw [heq]; exact h

theorem processBlock_some (s s' : AudioPlayerSession) (context : RenderContext)
    (h : s.processBlock context = some s') :
    0 < s.maxBlockSize ∧
      s' = { s with
        performer := (s.iterateBlock context).user.performer
        totalFramesRendered :=
          (s.totalFramesRendered + context.outputChannels.getNumFrames) % UINT64 } := by
  by_cases hb : 0 < s.maxBlockSize
  · rw [processBlock_returns s context hb] at h
    simp only [Option.some.injEq] at h
    exact ⟨hb, h.symm⟩
  · simp [AudioPlayerSession.processBlock, hb] at h

theorem invariant_processBlock (v : AudioPlayerVenue) (s s' : AudioPlayerSession)
    (context : RenderContext) (h : SessionInvariant v s) (hactive : s.self ∈ v.activeSessions)
    (hp : s.processBlock context = some s') : SessionInvariant v s' := by
  obtain ⟨-, rfl⟩ := processBlock_some s s' context hp
  refine ⟨h.nodup, h.active, ?_, h.connections, h.sources, h.sinks⟩
  intro hs
  exact absurd (h.active.mp hactive) hs

theorem invariant_otherCall (v : AudioPlayerVenue) (s : AudioPlayerSession) (call : VenueCall)
    (h : SessionInvariant v s) (h1 : call ≠ VenueCall.startSession s.self)
    (h2 : call ≠ VenueCall.stopSession s.self) : SessionInvariant (v.call call) s := by
  cases call with
  | startSession x =>
    have hx : s.self ≠ x := fun hc => h1 (by rw [hc])
    obtain ⟨g1, g2, g3, -⟩ := startSession_fields v x
    refine ⟨startSession_nodup v x h.nodup, ?_, h.counter, h.connections, ?_, ?_⟩
    · simp only [AudioPlayerVenue.call, g1]
      rw [← h.active]
      split_ifs
      · rfl
      · simp [hx]
    · simp only [AudioPlayerVenue.call, g2]; exact h.sources
    · simp only [AudioPlayerVenue.call, g3]; exact h.sinks
  | stopSession x =>
    have hx : s.self ≠ x := fun hc => h2 (by rw [hc])
    obtain ⟨g1, g2, g3⟩ := stopSession_fields v x
    refine ⟨?_, ?_, h.counter, h.connections, ?_, ?_⟩
    · simp only [AudioPlayerVenue.call, g1]; exact h.nodup.erase _
    · simp only [AudioPlayerVenue.call, g1]
      rw [List.mem_erase_of_ne hx]
      exact h.active
    · simp only [AudioPlayerVenue.call, g2]; exact h.sources
    · simp only [AudioPlayerVenue.call, g3]; exact h.sinks

theorem invariant_setInputCallback (v : AudioPlayerVenue) (s : AudioPlayerSession)
    (endpoint : EndpointID) (callback : Nat) (h : SessionInvariant v s) :
    SessionInvariant v (s.setInputEndpointServiceCallback endpoint callback).2 := by
  simp only [AudioPlayerSession.setInputEndpointServiceCallback]
  split_ifs
  · exact h
  · exact ⟨h.nodup, h.active, h.counter, h.connections, h.sources, h.sinks⟩

theorem invariant_setOutputCallback (v : AudioPlayerVenue) (s : AudioPlayerSession)
    (endpoint : EndpointID) (callback : Nat) (h : SessionInvariant v s) :
    SessionInvariant v (s.setOutputEndpointServiceCallback endpoint callback).2 := by
  simp only [AudioPlayerSession.setOutputEndpointServiceCallback]
  split_ifs
  · exact h
  · exact ⟨h.nodup, h.active, h.counter, h.connections, h.sources, h.sinks⟩

theorem reachable_invariant (v : AudioPlayerVenue) (s : AudioPlayerSession)
    (h : Reachable v s) : SessionInvariant v s := by
  induction h with
  | create a b c d self performer => exact invariant_create a b c d self performer
  | load v s program _ ih => exact invariant_load v s program ih
  | link v s settings result s' _ hlink ih => exact invariant_link v s s' settings result ih hlink
  | start v s result v' s' _ hstart ih => exact invariant_start v v' s s' result ih hstart
  | stop v s _ ih => exact invariant_stop v s ih
  | unload v s _ ih => exact invariant_unload v s ih
  | connectInput v s a b _ ih => exact invariant_connectInput v s a b ih
  | connectOutput v s a b _ ih => exact invariant_connectOutput v s a b ih
  | processBlock v s context s' _ hactive hp ih =>
    exact invariant_processBlock v s s' context ih hactive hp
  | setInputCallback v s endpoint callback _ ih =>
    exact invariant_setInputCallback v s endpoint callback ih
  | setOutputCallback v s endpoint callback _ ih =>
    exact invariant_setOutputCallback v s endpoint callback ih
  | setStateChangeCallback v s f _ ih =>
    exact ⟨ih.nodup, ih.active, ih.counter, ih.connections, ih.sources, ih.sinks⟩
  | otherCall v s call _ h1 h2 ih => exact invariant_otherCall v s call ih h1 h2

theorem runningSession_reachable_pair : Reachable runningVenue runningSession := by
  have h0 := Reachable.create 2 2 512 0 1 demoPerformer
  have h1 := Reachable.load _ _ demoProgram h0
  have h2 : Reachable loadedDemo.2.1 linkedSession :=
    Reachable.link _ _ { maxBlockSize := 512 } true linkedSession h1 rfl
  exact Reachable.start _ _ true runningVenue runningSession h2 rfl

/-! ## `start` -/

/-- C11, as amended: `start()` returns true iff the state before the call was linked or
running. From linked (the performer reporting that it is linked, as `start` asserts) it
returns true, the post-state is running, the session is in the venue's active list, at its
end when it was not in the list before, and the device callback is installed. From
running it returns true and changes nothing. From empty and from loaded it returns false
and changes neither the session nor the venue. -/
theorem start_result_and_post_state (v : AudioPlayerVenue) (s : AudioPlayerSession) :
    (∀ r v' s', AudioPlayerSession.start v s = some (r, v', s') →
      (r = true ↔ (s.state = SessionState.linked ∨ s.state = SessionState.running))) ∧
    (s.state = SessionState.linked → s.performer.isLinked = true →
      ∃ v' s', AudioPlayerSession.start v s = some (true, v', s') ∧
        s'.state = SessionState.running ∧ s.self ∈ v'.activeSessions ∧
        (s.self ∉ v.activeSessions → v'.activeSessions = v.activeSessions ++ [s.self]) ∧
        v'.callbackInstalled = true) ∧
    (s.state = SessionState.running → AudioPlayerSession.start v s = some (true, v, s)) ∧
    (s.state ≠ SessionState.linked → s.state ≠ SessionState.running →
      AudioPlayerSession.start v s = some (false, v, s)) ∧
    (Reachable v s → s.state = SessionState.linked → s.self ∉ v.activeSessions) := by
  obtain ⟨s1, s2, s3⟩ := start_cases v s
  refine ⟨?_, ?_, ?_, ?_, ?_⟩
  rotate_left 4
  · intro hr hs hm
    have := (reachable_invariant v s hr).active.mp hm
    rw [hs] at this
    cases this
  · intro r v' s' hstart
    by_cases hs : s.state = SessionState.linked
    · cases hl : s.performer.isLinked with
      | true =>
        rw [s2 hs hl] at hstart
        simp only [Option.some.injEq, Prod.mk.injEq] at hstart
        obtain ⟨rfl, -, -⟩ := hstart
        simp [hs]
      | false => rw [s3 hs hl] at hstart; cases hstart
    · rw [s1 hs] at hstart
      simp only [Option.some.injEq, Prod.mk.injEq] at hstart
      obtain ⟨rfl, -, -⟩ := hstart
      simp [AudioPlayerSession.isRunning, hs]
  · intro hs hl
    refine ⟨_, _, s2 hs hl, setState_state _ _, ?_, ?_, ?_⟩
    · simp only [AudioPlayerVenue.startSession]
      split_ifs with h
      · exact h
      · simp
    · intro h
      simp [AudioPlayerVenue.startSession, h]
    · simp [AudioPlayerVenue.startSession]
  · intro hs
    rw [s1 (by rw [hs]; decide)]
    simp [AudioPlayerSession.isRunning, hs]
  · intro h1 h2
    rw [s1 h1]
    simp [AudioPlayerSession.isRunning, h2]

/-- C11, as amended, on the linked demo session: `start()` returns true, the session is
running and is the one active session of the venue. -/
theorem start_result_and_post_state_witness :
    linkedSession.state = SessionState.linked ∧ linkedSession.performer.isLinked = true ∧
    ∃ v' s', AudioPlayerSession.start demoVenue linkedSession = some (true, v', s') ∧
      s'.state = SessionState.running ∧ linkedSession.self ∈ v'.activeSessions ∧
      (linkedSession.self ∉ demoVenue.activeSessions →
        v'.activeSessions = demoVenue.activeSessions ++ [linkedSession.self]) ∧
      v'.callbackInstalled = true :=
  ⟨rfl, rfl, (start_result_and_post_state demoVenue linkedSession).2.1 rfl rfl⟩

/-- C11 fails as stated: the running demo session was not linked before the call, yet
`start()` returns true (and leaves the state running and the active list as it was). -/
theorem start_while_running_returns_true :
    runningSession.state = SessionState.running ∧
    (AudioPlayerSession.start runningVenue runningSession).map
        (fun r => (r.1, r.2.1.activeSessions, r.2.2.state))
      = some (true, [1], SessionState.running) :=
  ⟨rfl, rfl⟩

/-! ## `stop`, `unload` and the connection table -/

theorem stop_leaves_inactive (v : AudioPlayerVenue) (s : AudioPlayerSession)
    (h : Reachable v s) : s.self ∉ (AudioPlayerSession.stop v s).1.activeSessions := by
  have hi := invariant_stop v s (reachable_invariant v s h)
  have hn := stop_not_running v s
  have hself : (AudioPlayerSession.stop v s).2.self = s.self := (stop_fields v s).2.1
  intro hm
  rw [← hself] at hm
  exact hn (hi.active.mp hm)

/-- C12: for every reachable venue and session, after `stop()` the session is not running,
is not in the venue's active list and `getTotalFramesRendered()` is 0; a running session
ends in state linked, and in any other state `stop()` changes nothing; calling `stop()` a
second time changes nothing. -/
theorem stop_is_idempotent (v : AudioPlayerVenue) (s : AudioPlayerSession)
    (h : Reachable v s) :
    (AudioPlayerSession.stop v s).2.isRunning = false ∧
    s.self ∉ (AudioPlayerSession.stop v s).1.activeSessions ∧
    (AudioPlayerSession.stop v s).2.getTotalFramesRendered = 0 ∧
    (s.state = SessionState.running →
      (AudioPlayerSession.stop v s).2.state = SessionState.linked) ∧
    (s.state ≠ SessionState.running → AudioPlayerSession.stop v s = (v, s)) ∧
    AudioPlayerSession.stop (AudioPlayerSession.stop v s).1 (AudioPlayerSession.stop v s).2
      = AudioPlayerSession.stop v s := by
  have hinv := reachable_invariant v s h
  have hi := invariant_stop v s hinv
  have hn := stop_not_running v s
  have hself : (AudioPlayerSession.stop v s).2.self = s.self := (stop_fields v s).2.1
  have hidle : ∀ (v' : AudioPlayerVenue) (s' : AudioPlayerSession),
      s'.state ≠ SessionState.running → AudioPlayerSession.stop v' s' = (v', s') := by
    intro v' s' hs'
    simp [AudioPlayerSession.stop, AudioPlayerSession.isRunning, hs']
  refine ⟨?_, ?_, ?_, ?_, ?_, ?_⟩
  · simpa [AudioPlayerSession.isRunning] using hn
  · intro hm
    rw [← hself] at hm
    exact hn (hi.active.mp hm)
  · exact hi.counter hn
  · intro hs
    rw [stop_state, if_pos hs]
  · exact hidle v s
  · exact hidle _ _ hn

/-- C12, on the running demo session in its venue. -/
theorem stop_is_idempotent_witness :
    (AudioPlayerSession.stop runningVenue runningSession).2.isRunning = false ∧
    runningSession.self ∉ (AudioPlayerSession.stop runningVenue runningSession).1.activeSessions ∧
    (AudioPlayerSession.stop runningVenue runningSession).2.getTotalFramesRendered = 0 ∧
    (runningSession.state = SessionState.running →
      (AudioPlayerSession.stop runningVenue runningSession).2.state = SessionState.linked) ∧
    (runningSession.state ≠ SessionState.running →
      AudioPlayerSession.stop runningVenue runningSession = (runningVenue, runningSession)) ∧
    AudioPlayerSession.stop (AudioPlayerSession.stop runningVenue runningSession).1
        (AudioPlayerSession.stop runningVenue runningSession).2
      = AudioPlayerSession.stop runningVenue runningSession :=
  stop_is_idempotent runningVenue runningSession runningSession_reachable_pair

/-- C13: for every reachable venue and session, in whatever state (running included), after
`unload()` the state is empty, the session is not in the venue's active list, and its
connection table, both operation lists and both service-callback lists are empty. -/
theorem unload_clears_session (v : AudioPlayerVenue) (s : AudioPlayerSession)
    (h : Reachable v s) :
    (AudioPlayerSession.unload v s).2.state = SessionState.empty ∧
    s.self ∉ (AudioPlayerSession.unload v s).1.activeSessions ∧
    (AudioPlayerSession.unload v s).2.connections = [] ∧
    (AudioPlayerSession.unload v s).2.preRenderOperations = [] ∧
    (AudioPlayerSession.unload v s).2.postRenderOperations = [] ∧
    (AudioPlayerSession.unload v s).2.inputCallbacks = [] ∧
    (AudioPlayerSession.unload v s).2.outputCallbacks = [] := by
  obtain ⟨u1, -, u3, u4, u5, u6, u7, u8⟩ := unload_fields v s
  refine ⟨u1, ?_, u3, u4, u5, u6, u7⟩
  rw [u8]
  exact stop_leaves_inactive v s h

/-- C13, on the running demo session in its venue. -/
theorem unload_clears_session_witness :
    (AudioPlayerSession.unload runningVenue runningSession).2.state = SessionState.empty ∧
    runningSession.self ∉ (AudioPlayerSession.unload runningVenue runningSession).1.activeSessions ∧
    (AudioPlayerSession.unload runningVenue runningSession).2.connections = [] ∧
    (AudioPlayerSession.unload runningVenue runningSession).2.preRenderOperations = [] ∧
    (AudioPlayerSession.unload runningVenue runningSession).2.postRenderOperations = [] ∧
    (AudioPlayerSession.unload runningVenue runningSession).2.inputCallbacks = [] ∧
    (AudioPlayerSession.unload runningVenue runningSession).2.outputCallbacks = [] :=
  unload_clears_session runningVenue runningSession runningSession_reachable_pair

/-- C19: in every session reachable on a venue built by its constructor (whose endpoints
come from `createDeviceEndpoints`), by any sequence of connect, `load`, `link`, `unload`
and the other calls, every connection of the table has exactly one of its three selectors
active: `audioInputStreamIndex >= 0`, `audioOutputStreamIndex >= 0`, or `isMIDI`. -/
theorem connections_have_one_selector (v : AudioPlayerVenue) (s : AudioPlayerSession)
    (h : Reachable v s) : ∀ c ∈ s.connections, c.oneSelector :=
  (reachable_invariant v s h).connections

/-- C19, on the running demo session after its MIDI input and its stream output were
connected to the device. -/
theorem connections_have_one_selector_witness :
    (AudioPlayerSession.connectSessionOutputEndpoint runningVenue
        (AudioPlayerSession.connectSessionInputEndpoint runningVenue runningSession
          "midi" "defaultMidiIn").2 "out" "defaultOut").2.connections.length = 2 ∧
    ∀ c ∈ (AudioPlayerSession.connectSessionOutputEndpoint runningVenue
        (AudioPlayerSession.connectSessionInputEndpoint runningVenue runningSession
          "midi" "defaultMidiIn").2 "out" "defaultOut").2.connections, c.oneSelector :=
  ⟨rfl, connections_have_one_selector _ _
    (Reachable.connectOutput _ _ "out" "defaultOut"
      (Reachable.connectInput _ _ "midi" "defaultMidiIn" runningSession_reachable_pair))⟩

/-! ## Connecting endpoints -/

theorem freshVenue_source (numInputChannels numOutputChannels : Int) (deviceBlockSize : Nat)
    (deviceXruns : Int) (venueSourceID : EndpointID) (e : EndpointInfo)
    (h : findEndpoint
      (freshVenue numInputChannels numOutputChannels deviceBlockSize deviceXruns).sourceEndpoints
      venueSourceID = some e) :
    (e.isMIDI = false ∧ venueSourceID = "defaultIn" ∧ isStream e.details = true) ∨
    (e.isMIDI = true ∧ venueSourceID = "defaultMidiIn" ∧ isEvent e.details = true) := by
  obtain ⟨hmem, hid⟩ := findEndpoint_mem _ _ _ h
  simp only [freshVenue, AudioPlayerVenue.create, createDeviceEndpoints, addEndpoint] at hmem
  split_ifs at hmem
  · simp only [List.nil_append, List.singleton_append, List.mem_cons, List.mem_singleton,
      List.not_mem_nil, or_false] at hmem
    rcases hmem with rfl | rfl
    · left; exact ⟨rfl, hid.symm, rfl⟩
    · right; exact ⟨rfl, hid.symm, rfl⟩
  · simp only [List.nil_append, List.mem_singleton] at hmem
    subst hmem
    right; exact ⟨rfl, hid.symm, rfl⟩

/-- C17: `connectSessionInputEndpoint (inputID, venueSourceID)` returns true iff
`venueSourceID` names a device source endpoint `e`, `inputID` names a performer input
endpoint `d`, and the shapes agree: `d` is a stream and `e` is not MIDI, or `d` is an event
and `e` is MIDI. When it returns true exactly one connection, for `inputID`, is appended to
the connection table and nothing else changes; when it returns false the session is
unchanged. On a venue built by its constructor the source that is not MIDI is the stream
`defaultIn` and the MIDI source is the event `defaultMidiIn`; connecting `defaultMidiIn` to
the stream input `in` of the demo performer returns false and adds nothing. -/
theorem connectSessionInputEndpoint_result (v : AudioPlayerVenue) (s : AudioPlayerSession)
    (inputID venueSourceID : EndpointID) :
    ((AudioPlayerSession.connectSessionInputEndpoint v s inputID venueSourceID).1 = true ↔
      ∃ e d, findEndpoint v.sourceEndpoints venueSourceID = some e ∧
        d ∈ s.performer.getInputEndpoints ∧ d.endpointID = inputID ∧
        ((isStream d = true ∧ e.isMIDI = false) ∨ (isEvent d = true ∧ e.isMIDI = true))) ∧
    ((AudioPlayerSession.connectSessionInputEndpoint v s inputID venueSourceID).1 = true →
      ∃ c, c.endpointID = inputID ∧
        (AudioPlayerSession.connectSessionInputEndpoint v s inputID venueSourceID).2
          = { s with connections := s.connections ++ [c] }) ∧
    ((AudioPlayerSession.connectSessionInputEndpoint v s inputID venueSourceID).1 = false →
      (AudioPlayerSession.connectSessionInputEndpoint v s inputID venueSourceID).2 = s) ∧
    (∀ (numInputChannels numOutputChannels : Int) (deviceBlockSize : Nat) (deviceXruns : Int)
        (e : EndpointInfo),
      findEndpoint
        (freshVenue numInputChannels numOutputChannels deviceBlockSize deviceXruns).sourceEndpoints
        venueSourceID = some e →
      (e.isMIDI = false ∧ venueSourceID = "defaultIn" ∧ isStream e.details = true) ∨
      (e.isMIDI = true ∧ venueSourceID = "defaultMidiIn" ∧ isEvent e.details = true)) ∧
    (AudioPlayerSession.connectSessionInputEndpoint runningVenue runningSession
        "in" "defaultMidiIn").1 = false ∧
    (AudioPlayerSession.connectSessionInputEndpoint runningVenue runningSession
        "in" "defaultMidiIn").2.connections = runningSession.connections := by
  refine ⟨?_, ?_, ?_, ?_, rfl, rfl⟩
  · rcases connectInput_cases v s inputID venueSourceID with ⟨e, c, hf, hc, heq⟩ | ⟨hnone, heq⟩
    · rw [heq]
      have hsome : (connectInputLoop e inputID s.performer.getInputEndpoints).isSome = true := by
        rw [hc]; rfl
      obtain ⟨d, hd, hid, hshape⟩ := (connectInputLoop_isSome e inputID _).mp hsome
      simp only [true_iff]
      exact ⟨e, d, hf, hd, hid, hshape⟩
    · rw [heq]
      simp only [Bool.false_eq_true, false_iff]
      rintro ⟨e, d, hf, hd, hid, hshape⟩
      have hsome := (connectInputLoop_isSome e inputID _).mpr ⟨d, hd, hid, hshape⟩
      rw [hnone e hf] at hsome
      cases hsome
  · intro htrue
    rcases connectInput_cases v s inputID venueSourceID with ⟨e, c, hf, hc, heq⟩ | ⟨hnone, heq⟩
    · refine ⟨c, ?_, by rw [heq]⟩
      rcases connectInputLoop_shape e inputID c _ hc with ⟨-, rfl⟩ | ⟨-, rfl⟩ <;> rfl
    · rw [heq] at htrue; cases htrue
  · intro hfalse
    rcases connectInput_cases v s inputID venueSourceID with ⟨e, c, hf, hc, heq⟩ | ⟨hnone, heq⟩
    · rw [heq] at hfalse; cases hfalse
    · rw [heq]
  · intro a b c d e h
    exact freshVenue_source a b c d venueSourceID e h

/-- C18, the code at the failing input: on a performer whose stream input `count` and
stream output `level` carry integers, `connectSessionInputEndpoint ("count", "defaultIn")`
and `connectSessionOutputEndpoint ("level", "defaultOut")` both return true and each adds
a connection; `link` on either session then fails the internal assertion of the
operation-list builder and does not return. -/
theorem connect_accepts_unsupported_frame_type :
    intLoaded.1 = true ∧ intLoaded.2.2.connections = [] ∧
    intConnectedInput.1 = true ∧
    intConnectedInput.2.connections =
      [{ audioInputStreamIndex := 0, audioOutputStreamIndex := -1, isMIDI := false,
         endpointID := "count" }] ∧
    (intConnectedInput.2.link { maxBlockSize := 512 }).isNone = true ∧
    intConnectedOutput.1 = true ∧
    intConnectedOutput.2.connections =
      [{ audioInputStreamIndex := -1, audioOutputStreamIndex := 0, isMIDI := false,
         endpointID := "level" }] ∧
    (intConnectedOutput.2.link { maxBlockSize := 512 }).isNone = true :=
  ⟨rfl, rfl, rfl, rfl, rfl, rfl, rfl, rfl⟩

/-! ## Status -/

/-- C16, as amended: for a performer xrun count `p` (a `uint32_t`) and a device xrun count
`d` (a signed integer, negative meaning unknown), `getStatus().xruns` is
`(p + max (0, d)) mod 2^32`, hence `p + max (0, d)` whenever that sum is below 2^32;
`p = 3, d = 5` gives 8 and `p = 3, d = -1` gives 3. -/
theorem status_xruns (v : AudioPlayerVenue) (s : AudioPlayerSession)
    (hp : s.performer.getXRuns < UINT32) :
    (AudioPlayerSession.getStatus v s).xruns =
      (s.performer.getXRuns + (max 0 v.deviceXruns).toNat) % UINT32 ∧
    (s.performer.getXRuns + (max 0 v.deviceXruns).toNat < UINT32 →
      (AudioPlayerSession.getStatus v s).xruns =
        s.performer.getXRuns + (max 0 v.deviceXruns).toNat) ∧
    (AudioPlayerSession.getStatus (xrunVenue 5)
      (AudioPlayerSession.create 1 (xrunPerformer 3))).xruns = 8 ∧
    (AudioPlayerSession.getStatus (xrunVenue (-1))
      (AudioPlayerSession.create 1 (xrunPerformer 3))).xruns = 3 := by
  have key : (AudioPlayerSession.getStatus v s).xruns =
      (s.performer.getXRuns + (max 0 v.deviceXruns).toNat) % UINT32 := by
    simp only [AudioPlayerSession.getStatus]
    by_cases hd : v.deviceXruns > 0
    · have hmax : max 0 v.deviceXruns = v.deviceXruns := max_eq_right (le_of_lt hd)
      rw [if_pos hd, hmax]
      simp only [UINT32]
      omega
    · have hmax : max 0 v.deviceXruns = 0 := max_eq_left (not_lt.mp hd)
      rw [if_neg hd, hmax]
      simp only [Int.toNat_zero, Nat.add_zero]
      exact (Nat.mod_eq_of_lt hp).symm
  refine ⟨key, ?_, rfl, rfl⟩
  intro hlt
  rw [key]
  exact Nat.mod_eq_of_lt hlt

/-- C16, as amended, on a performer reporting 3 xruns and a device reporting 5. -/
theorem status_xruns_witness :
    (AudioPlayerSession.getStatus (xrunVenue 5)
        (AudioPlayerSession.create 1 (xrunPerformer 3))).xruns =
      ((AudioPlayerSession.create 1 (xrunPerformer 3)).performer.getXRuns
        + (max 0 (xrunVenue 5).deviceXruns).toNat) % UINT32 ∧
    ((AudioPlayerSession.create 1 (xrunPerformer 3)).performer.getXRuns
        + (max 0 (xrunVenue 5).deviceXruns).toNat < UINT32 →
      (AudioPlayerSession.getStatus (xrunVenue 5)
          (AudioPlayerSession.create 1 (xrunPerformer 3))).xruns =
        (AudioPlayerSession.create 1 (xrunPerformer 3)).performer.getXRuns
          + (max 0 (xrunVenue 5).deviceXruns).toNat) ∧
    (AudioPlayerSession.getStatus (xrunVenue 5)
      (AudioPlayerSession.create 1 (xrunPerformer 3))).xruns = 8 ∧
    (AudioPlayerSession.getStatus (xrunVenue (-1))
      (AudioPlayerSession.create 1 (xrunPerformer 3))).xruns = 3 :=
  status_xruns (xrunVenue 5) (AudioPlayerSession.create 1 (xrunPerformer 3)) (by decide)

/-- C16 fails as stated: with a performer reporting 2^32 - 1 xruns and a device reporting
1, `p + max (0, d)` is 2^32 but `getStatus().xruns`, a `uint32_t`, is 0. -/
theorem status_xruns_wrap :
    (AudioPlayerSession.create 1 (xrunPerformer 4294967295)).performer.getXRuns = 4294967295 ∧
    (xrunVenue 1).deviceXruns = 1 ∧
    (AudioPlayerSession.getStatus (xrunVenue 1)
      (AudioPlayerSession.create 1 (xrunPerformer 4294967295))).xruns = 0 :=
  ⟨rfl, rfl, rfl⟩

/-! ## The patch instance -/

theorem compileNewPlayer_failed (env : PatchCollaborators) (inst inst' : PatchInstanceImpl)
    (config : PatchPlayerConfiguration) (m : String)
    (h : inst.tryCompile env config = Except.error (m, inst')) :
    ∃ p, (inst.compileNewPlayer env config).1 = some p ∧ p.reportsOnly m := by
  simp only [PatchInstanceImpl.compileNewPlayer, h]
  exact ⟨_, rfl, by simp [PatchPlayerImpl.reportsOnly, PatchPlayerImpl.create]⟩

/-- C20: `compileNewPlayer` returns a non-null player for every input. When the file-list
refresh (`fileList.refresh()` or `createDescription()`) or the compile throws a
`PatchLoadError` with message `m`, the returned player is a new player whose
compile-message list holds exactly one message, with `isError` true and `fullMessage` `m`,
and on which no compile is recorded. When nothing fails, the returned player is the one on
which `compile` was invoked, with the settings
`{ sampleRate = config.sampleRate, maxBlockSize = config.maxFramesPerBlock }`. With a
refresh that throws `cannot read manifest`, the player carries that one message. -/
theorem compileNewPlayer_result (env : PatchCollaborators) (inst : PatchInstanceImpl)
    (config : PatchPlayerConfiguration) :
    (inst.compileNewPlayer env config).1.isSome = true ∧
    (∀ m fileList, env.refresh inst.fileList = Except.error (m, fileList) →
      ∃ p, (inst.compileNewPlayer env config).1 = some p ∧ p.reportsOnly m) ∧
    (∀ m fileList, env.refresh inst.fileList = Except.ok fileList →
      env.describe fileList = Except.error m →
      ∃ p, (inst.compileNewPlayer env config).1 = some p ∧ p.reportsOnly m) ∧
    (∀ m fileList description, env.refresh inst.fileList = Except.ok fileList →
      env.describe fileList = Except.ok description →
      env.compile (PatchPlayerImpl.create fileList config (env.createPerformer inst.performersMade))
        { sampleRate := config.sampleRate, maxBlockSize := config.maxFramesPerBlock }
        = Except.error m →
      ∃ p, (inst.compileNewPlayer env config).1 = some p ∧ p.reportsOnly m) ∧
    (∀ messages fileList description, env.refresh inst.fileList = Except.ok fileList →
      env.describe fileList = Except.ok description →
      env.compile (PatchPlayerImpl.create fileList config (env.createPerformer inst.performersMade))
        { sampleRate := config.sampleRate, maxBlockSize := config.maxFramesPerBlock }
        = Except.ok messages →
      (inst.compileNewPlayer env config).1 =
        some { PatchPlayerImpl.create fileList config (env.createPerformer inst.performersMade) with
          compileMessages := messages
          compiledWith := some { sampleRate := config.sampleRate,
                                 maxBlockSize := config.maxFramesPerBlock } }) ∧
    (demoInstance.compileNewPlayer failingRefresh demoConfiguration).1.map
        (fun p => p.compileMessages)
      = some [{ fullMessage := "cannot read manifest", description := "cannot read manifest",
                isError := true }] := by
  refine ⟨?_, ?_, ?_, ?_, ?_, rfl⟩
  · simp only [PatchInstanceImpl.compileNewPlayer]
    cases inst.tryCompile env config <;> rfl
  · intro m fileList h
    exact compileNewPlayer_failed env inst { inst with fileList := fileList } config m
      (by simp only [PatchInstanceImpl.tryCompile, PatchInstanceImpl.refreshFileList, h])
  · intro m fileList h1 h2
    exact compileNewPlayer_failed env inst { inst with fileList := fileList } config m
      (by simp only [PatchInstanceImpl.tryCompile, PatchInstanceImpl.refreshFileList, h1, h2])
  · intro m fileList description h1 h2 h3
    exact compileNewPlayer_failed env inst
      { inst with fileList := fileList, description := some description,
                  performersMade := inst.performersMade + 1 } config m
      (by simp only [PatchInstanceImpl.tryCompile, PatchInstanceImpl.refreshFileList, h1, h2, h3])
  · intro messages fileList description h1 h2 h3
    simp only [PatchInstanceImpl.compileNewPlayer, PatchInstanceImpl.tryCompile,
      PatchInstanceImpl.refreshFileList, h1, h2, h3]

/-- C20, with collaborators that all succeed: the returned player is the one that was
compiled, with the settings taken from the configuration. -/
theorem compileNewPlayer_result_witness :
    (demoInstance.compileNewPlayer workingCollaborators demoConfiguration).1 =
      some { PatchPlayerImpl.create { manifestName := "demo.soulpatch", files := ["demo.soul"] }
               demoConfiguration (workingCollaborators.createPerformer demoInstance.performersMade) with
        compileMessages := []
        compiledWith := some { sampleRate := demoConfiguration.sampleRate,
                               maxBlockSize := demoConfiguration.maxFramesPerBlock } } :=
  (compileNewPlayer_result workingCollaborators demoInstance demoConfiguration).2.2.2.2.1
    [] { manifestName := "demo.soulpatch", files := ["demo.soul"] } "demo" rfl rfl rfl

/-! ## The active-session list and the device callback -/

theorem venueInvariant_fresh (numInputChannels numOutputChannels : Int) (deviceBlockSize : Nat)
    (deviceXruns : Int) :
    VenueInvariant (freshVenue numInputChannels numOutputChannels deviceBlockSize deviceXruns)
      { startedAt := fun _ => none, clock := 0 } := by
  refine ⟨?_, ?_, ?_, ?_, ?_⟩ <;> simp [freshVenue, AudioPlayerVenue.create]

theorem venueInvariant_start (v : AudioPlayerVenue) (log : StartLog) (x : Nat)
    (h : VenueInvariant v log) :
    VenueInvariant (v.call (VenueCall.startSession x)) (log.call (VenueCall.startSession x)) := by
  obtain ⟨g1, -, -, g4⟩ := startSession_fields v x
  by_cases hx : x ∈ v.activeSessions
  · have hsome : (log.startedAt x).isSome = true := (h.started x).mp hx
    have hact : (v.call (VenueCall.startSession x)).activeSessions = v.activeSessions := by
      simp only [AudioPlayerVenue.call, g1, if_pos hx]
    have hlog : (log.call (VenueCall.startSession x)).startedAt = log.startedAt := by
      simp only [StartLog.call, hsome, if_true]
    refine ⟨?_, ?_, ?_, ?_, ?_⟩
    · rw [hact]; exact h.nodup
    · rw [hact, hlog]; exact h.started
    · rw [hact, hlog]; exact h.ordered
    · intro s t hs
      rw [hlog] at hs
      have := h.past s t hs
      simp only [StartLog.call]
      omega
    · simp only [AudioPlayerVenue.call, g4, true_iff]
      rw [show (v.startSession x).2.activeSessions = v.activeSessions by rw [g1, if_pos hx]]
      exact List.ne_nil_of_mem hx
  · have hnone : (log.startedAt x).isSome = false := by
      cases hc : (log.startedAt x).isSome with
      | true => exact absurd ((h.started x).mpr hc) hx
      | false => rfl
    have hact : (v.call (VenueCall.startSession x)).activeSessions = v.activeSessions ++ [x] := by
      simp only [AudioPlayerVenue.call, g1, if_neg hx]
    have hlog : (log.call (VenueCall.startSession x)).startedAt
        = Function.update log.startedAt x (some log.clock) := by
      simp only [StartLog.call, hnone, Bool.false_eq_true, if_false]
    have hother : ∀ a ∈ v.activeSessions,
        Function.update log.startedAt x (some log.clock) a = log.startedAt a := by
      intro a ha
      exact Function.update_noteq (fun hc : a = x => hx (by rw [← hc]; exact ha)) _ _
    refine ⟨?_, ?_, ?_, ?_, ?_⟩
    · rw [hact, ← List.concat_eq_append]
      exact List.Nodup.concat hx h.nodup
    · intro s
      rw [hact, hlog]
      by_cases hs : s = x
      · subst hs
        simp
      · rw [Function.update_noteq hs]
        simp only [List.mem_append, List.mem_singleton, hs, or_false]
        exact h.started s
    · rw [hact, hlog, List.pairwise_append]
      refine ⟨?_, List.pairwise_singleton _ _, ?_⟩
      · refine List.Pairwise.imp_of_mem ?_ h.ordered
        intro a b ha hb hab ta tb hta htb
        rw [hother a ha] at hta
        rw [hother b hb] at htb
        exact hab ta tb hta htb
      · intro a ha b hb ta tb hta htb
        simp only [List.mem_singleton] at hb
        subst hb
        rw [hother a ha] at hta
        rw [Function.update_same] at htb
        simp only [Option.some.injEq] at htb
        subst htb
        exact h.past a ta hta
    · intro s t hs
      rw [hlog] at hs
      simp only [StartLog.call]
      by_cases hsx : s = x
      · subst hsx
        rw [Function.update_same] at hs
        simp only [Option.some.injEq] at hs
        omega
      · rw [Function.update_noteq hsx] at hs
        have := h.past s t hs
        omega
    · simp only [AudioPlayerVenue.call, g4, true_iff]
      rw [show (v.startSession x).2.activeSessions = v.activeSessions ++ [x] by
        rw [g1, if_neg hx]]
      simp

theorem venueInvariant_stop (v : AudioPlayerVenue) (log : StartLog) (x : Nat)
    (h : VenueInvariant v log) :
    VenueInvariant (v.call (VenueCall.stopSession x)) (log.call (VenueCall.stopSession x)) := by
  obtain ⟨g1, -, -⟩ := stopSession_fields v x
  have hact : (v.call (VenueCall.stopSession x)).activeSessions = v.activeSessions.erase x := by
    simp only [AudioPlayerVenue.call, g1]
  have hlog : (log.call (VenueCall.stopSession x)).startedAt
      = Function.update log.startedAt x none := rfl
  have hother : ∀ a ∈ v.activeSessions.erase x,
      Function.update log.startedAt x none a = log.startedAt a := by
    intro a ha
    exact Function.update_noteq ((h.nodup.mem_erase_iff.mp ha).1) _ _
  refine ⟨?_, ?_, ?_, ?_, ?_⟩
  · rw [hact]; exact h.nodup.erase _
  · intro s
    rw [hact, hlog, h.nodup.mem_erase_iff]
    by_cases hs : s = x
    · subst hs
      simp
    · rw [Function.update_noteq hs]
      simp only [ne_eq, hs, not_false_eq_true, true_and]
      exact h.started s
  · rw [hact, hlog]
    refine List.Pairwise.imp_of_mem ?_ (h.ordered.sublist (List.erase_sublist x _))
    intro a b ha hb hab ta tb hta htb
    rw [hother a ha] at hta
    rw [hother b hb] at htb
    exact hab ta tb hta htb
  · intro s t hs
    rw [hlog] at hs
    simp only [StartLog.call]
    by_cases hsx : s = x
    · subst hsx
      rw [Function.update_same] at hs
      cases hs
    · rw [Function.update_noteq hsx] at hs
      have := h.past s t hs
      omega
  · simp only [AudioPlayerVenue.call, AudioPlayerVenue.stopSession]
    by_cases he : (v.activeSessions.erase x).isEmpty = true
    · simp only [he, if_true]
      have : v.activeSessions.erase x = [] := List.isEmpty_iff.mp he
      simp [this]
    · simp only [he, Bool.false_eq_true, if_false]
      have hne : v.activeSessions.erase x ≠ [] := fun hc => he (List.isEmpty_iff.mpr hc)
      have hne' : v.activeSessions ≠ [] := by
        intro hc
        rw [hc] at hne
        exact hne rfl
      constructor
      · intro _; exact hne
      · intro _; exact h.callback.mpr hne'

theorem venueInvariant_callAll (calls : List VenueCall) :
    ∀ (v : AudioPlayerVenue) (log : StartLog), VenueInvariant v log →
      VenueInvariant (v.callAll calls) (calls.foldl StartLog.call log) := by
  induction calls with
  | nil => intro v log h; exact h
  | cons c rest ih =>
    intro v log h
    simp only [AudioPlayerVenue.callAll, List.foldl_cons]
    apply ih
    cases c with
    | startSession x => exact venueInvariant_start v log x h
    | stopSession x => exact venueInvariant_stop v log x h

/-- C15: starting from a fresh venue (no active session, no callback installed), after every
sequence of `startSession` and `stopSession` calls the device callback is installed iff
the active-session list is not empty. -/
theorem callback_installed_iff_active (numInputChannels numOutputChannels : Int)
    (deviceBlockSize : Nat) (deviceXruns : Int) (calls : List VenueCall) :
    (freshVenue numInputChannels numOutputChannels deviceBlockSize deviceXruns).activeSessions
      = [] ∧
    (freshVenue numInputChannels numOutputChannels deviceBlockSize
      deviceXruns).callbackInstalled = false ∧
    (((freshVenue numInputChannels numOutputChannels deviceBlockSize deviceXruns).callAll
        calls).callbackInstalled = true ↔
      ((freshVenue numInputChannels numOutputChannels deviceBlockSize deviceXruns).callAll
        calls).activeSessions ≠ []) :=
  ⟨rfl, rfl,
   (venueInvariant_callAll calls _ _
     (venueInvariant_fresh numInputChannels numOutputChannels deviceBlockSize
       deviceXruns)).callback⟩

/-! ## Bound on the realtime loop -/

theorem blockPlan_length_le (maxFramesPerBlock fuel : Nat) (hMax : 1 ≤ maxFramesPerBlock) :
    ∀ (frameOffset framesRemaining : Nat) (midiIn : List MIDIEvent),
      (blockPlan maxFramesPerBlock fuel frameOffset framesRemaining midiIn).length
        ≤ framesRemaining := by
  induction fuel with
  | zero => intro _ _ _; simp [blockPlan]
  | succ fuel ih =>
    intro frameOffset framesRemaining midiIn
    simp only [blockPlan]
    split
    · simp
    · rename_i hr
      have hpos := scanMidi_framesToDo_pos frameOffset
        (min maxFramesPerBlock framesRemaining) midiIn (by simp only [lt_min_iff]; omega)
      have hrec := ih ((frameOffset + (scanMidi frameOffset
          (min maxFramesPerBlock framesRemaining) midiIn).framesToDo) % UINT32)
        (framesRemaining - (scanMidi frameOffset
          (min maxFramesPerBlock framesRemaining) midiIn).framesToDo)
        (scanMidi frameOffset (min maxFramesPerBlock framesRemaining) midiIn).midiIn
      simp only [List.length_cons]
      omega

theorem blockPlan_bounds (maxFramesPerBlock fuel : Nat) :
    ∀ (frameOffset framesRemaining : Nat) (midiIn : List MIDIEvent),
      frameOffset < UINT32 →
      ∀ b ∈ blockPlan maxFramesPerBlock fuel frameOffset framesRemaining midiIn,
        b.frameOffset < UINT32 ∧ b.framesToDo ≤ framesRemaining := by
  induction fuel with
  | zero => intro _ _ _ _ b hb; simp [blockPlan] at hb
  | succ fuel ih =>
    intro frameOffset framesRemaining midiIn ho b hb
    simp only [blockPlan] at hb
    split at hb
    · simp at hb
    · have hle : (scanMidi frameOffset (min maxFramesPerBlock framesRemaining)
          midiIn).framesToDo ≤ framesRemaining :=
        le_trans (scanMidi_framesToDo_le _ _ _) (Nat.min_le_right _ _)
      simp only [List.mem_cons] at hb
      rcases hb with rfl | hb
      · exact ⟨ho, hle⟩
      · have hrec := ih _ _ _ (Nat.mod_lt _ (by decide)) b hb
        exact ⟨hrec.1, le_trans hrec.2 (Nat.sub_le _ _)⟩

theorem iterateInBlocks_calls_length {σ : Type} (ctx : RenderContext)
    (fuel maxFramesPerBlock : Nat) (render : RenderContext → σ → RenderContext × σ) (user : σ) :
    (ctx.iterateInBlocks fuel maxFramesPerBlock render user).calls.length =
      (blockPlan maxFramesPerBlock fuel ctx.frameOffset ctx.inputChannels.numFrames
        ctx.midiIn).length := by
  have h := congrArg List.length (iterateInBlocks_calls ctx fuel maxFramesPerBlock render user)
  simpa using h

/-- C23: the realtime loop is bounded. For every context whose `frameOffset` and input
frame count N are `uint32_t` values, every MIDI input buffer (any length, any frame
indices, sorted or not), every `render` callable and every block limit of at least 1, the
loop of `iterateInBlocks` ends within N passes, every sub-block handed to `render` has at
least one frame, and `render` is invoked at most N times; and `processBlock`, whose
assertion makes the block limit at least 1, returns. -/
theorem iterateInBlocks_bounded {σ : Type} (ctx : RenderContext)
    (fuel maxFramesPerBlock : Nat) (render : RenderContext → σ → RenderContext × σ) (user : σ)
    (s : AudioPlayerSession)
    (hMax : 1 ≤ maxFramesPerBlock)
    (hOffset : ctx.frameOffset < UINT32)
    (hFrames : ctx.inputChannels.getNumFrames < UINT32)
    (hFuel : ctx.inputChannels.getNumFrames ≤ fuel)
    (hBlock : 0 < s.maxBlockSize) :
    (ctx.iterateInBlocks fuel maxFramesPerBlock render user).finished = true ∧
    (∀ c ∈ (ctx.iterateInBlocks fuel maxFramesPerBlock render user).calls,
      1 ≤ c.inputChannels.getNumFrames ∧ 1 ≤ c.outputChannels.getNumFrames) ∧
    (ctx.iterateInBlocks fuel maxFramesPerBlock render user).calls.length
      ≤ ctx.inputChannels.getNumFrames ∧
    (s.processBlock ctx).isSome = true ∧
    (s.iterateBlock ctx).finished = true ∧
    (s.iterateBlock ctx).calls.length ≤ ctx.inputChannels.getNumFrames := by
  refine ⟨?_, ?_, ?_, ?_, ?_, ?_⟩
  · exact iterateLoop_finished maxFramesPerBlock render hMax fuel ctx ctx _ user hFuel
  · intro c hc
    have hmem : c.view ∈ (ctx.iterateInBlocks fuel maxFramesPerBlock render user).calls.map
        RenderContext.view := List.mem_map_of_mem _ hc
    rw [iterateInBlocks_calls] at hmem
    obtain ⟨b, hb, hbc⟩ := List.mem_map.mp hmem
    have hpos := blockPlan_framesToDo_pos maxFramesPerBlock fuel hMax _ _ _ b hb
    obtain ⟨hbo, hbf⟩ := blockPlan_bounds maxFramesPerBlock fuel _ _ _ hOffset b hb
    have hsize := frameRange_size b.frameOffset b.framesToDo hbo
      (lt_of_le_of_lt hbf hFrames)
    simp only [SubBlock.view, RenderContext.view, Prod.mk.injEq] at hbc
    obtain ⟨h1, h2, -⟩ := hbc
    rw [← h1, ← h2]
    simp only [ChannelArrayView.getFrameRange, ChannelArrayView.getNumFrames, hsize]
    exact ⟨hpos, hpos⟩
  · rw [iterateInBlocks_calls_length]
    exact blockPlan_length_le maxFramesPerBlock fuel hMax _ _ _
  · rw [processBlock_returns s ctx hBlock]
    rfl
  · exact (iterateBlock_spec s ctx hBlock).1
  · simp only [AudioPlayerSession.iterateBlock]
    rw [iterateInBlocks_calls_length]
    exact blockPlan_length_le _ _ (by simp only [le_min_iff]; omega) _ _ _

/-- C23, on the 1000-frame block of scenario 1 with a block limit of 400 and on the linked
demo session. -/
theorem iterateInBlocks_bounded_witness :
    (scenarioContext.iterateInBlocks 1000 400 idleRender ()).finished = true ∧
    (∀ c ∈ (scenarioContext.iterateInBlocks 1000 400 idleRender ()).calls,
      1 ≤ c.inputChannels.getNumFrames ∧ 1 ≤ c.outputChannels.getNumFrames) ∧
    (scenarioContext.iterateInBlocks 1000 400 idleRender ()).calls.length
      ≤ scenarioContext.inputChannels.getNumFrames ∧
    (demoSession.processBlock scenarioContext).isSome = true ∧
    (demoSession.iterateBlock scenarioContext).finished = true ∧
    (demoSession.iterateBlock scenarioContext).calls.length
      ≤ scenarioContext.inputChannels.getNumFrames :=
  iterateInBlocks_bounded scenarioContext 1000 400 idleRender () demoSession (by decide)
    (by decide) (by decide) (by decide) (by decide)

/-! ## MIDI tie-break -/

theorem scanMidi_taken_eq (frameOffset framesToDo : Nat) (midiIn : List MIDIEvent) :
    (scanMidi frameOffset framesToDo midiIn).taken =
      midiIn.takeWhile (fun e => decide (e.frameIndex ≤ frameOffset)) := by
  induction midiIn with
  | nil => simp [scanMidi]
  | cons e rest ih =>
    simp only [scanMidi, List.takeWhile_cons]
    by_cases h : e.frameIndex > frameOffset
    · have h' : ¬ e.frameIndex ≤ frameOffset := by omega
      simp [h, h']
    · have h' : e.frameIndex ≤ frameOffset := by omega
      simp only [h, if_false, h', decide_True, if_true, ih]

theorem scanMidi_rest_head (frameOffset framesToDo : Nat) (midiIn : List MIDIEvent) :
    ∀ e, (scanMidi frameOffset framesToDo midiIn).midiIn.head? = some e →
      frameOffset < e.frameIndex := by
  induction midiIn with
  | nil => intro e h; simp [scanMidi] at h
  | cons a rest ih =>
    intro e h
    simp only [scanMidi] at h
    split at h
    · rename_i ha
      simp only [List.head?_cons, Option.some.injEq] at h
      subst h
      exact ha
    · exact ih e h

theorem blockPlan_slices (maxFramesPerBlock fuel : Nat) :
    ∀ (frameOffset framesRemaining : Nat) (midiIn : List MIDIEvent)
      (before : List SubBlock) (b : SubBlock) (after : List SubBlock),
      blockPlan maxFramesPerBlock fuel frameOffset framesRemaining midiIn
        = before ++ b :: after →
      b.midi = (midiIn.drop (before.map (fun p => p.midi.length)).sum).takeWhile
          (fun e => decide (e.frameIndex ≤ b.frameOffset)) ∧
        ∀ e, (midiIn.drop ((before.map (fun p => p.midi.length)).sum
            + b.midi.length)).head? = some e → b.frameOffset < e.frameIndex := by
  induction fuel with
  | zero => intro _ _ _ before b after h; simp [blockPlan] at h
  | succ fuel ih =>
    intro frameOffset framesRemaining midiIn before b after h
    simp only [blockPlan] at h
    split at h
    · simp at h
    · cases before with
      | nil =>
        simp only [List.nil_append, List.cons.injEq] at h
        obtain ⟨hb, -⟩ := h
        subst hb
        simp only [List.map_nil, List.sum_nil, List.drop_zero, Nat.zero_add]
        refine ⟨scanMidi_taken_eq _ _ _, ?_⟩
        intro e he
        rw [← scanMidi_midiIn_eq] at he
        exact scanMidi_rest_head _ _ _ e he
      | cons p before =>
        simp only [List.cons_append, List.cons.injEq] at h
        obtain ⟨hp, hrest⟩ := h
        have key := ih _ _ _ before b after hrest
        rw [scanMidi_midiIn_eq, List.drop_drop, List.drop_drop] at key
        subst hp
        simp only [List.map_cons, List.sum_cons]
        obtain ⟨k1, k2⟩ := key
        refine ⟨k1, ?_⟩
        intro e he
        apply k2 e
        rw [← he, Nat.add_assoc]

theorem iterateLoop_offsets {σ : Type} (maxFramesPerBlock : Nat)
    (render : RenderContext → σ → RenderContext × σ)
    (hRender : ∀ rc u, (render rc u).1.frameOffset = rc.frameOffset) (fuel : Nat) :
    ∀ (self context : RenderContext) (framesRemaining : Nat) (user : σ),
      context.frameOffset = self.frameOffset →
      (iterateLoop maxFramesPerBlock render fuel self context framesRemaining user).calls.map
          (fun c => (c.frameOffset, c.midiIn)) =
        (blockPlan maxFramesPerBlock fuel self.frameOffset framesRemaining self.midiIn).map
          (fun b => (b.frameOffset, b.midi)) := by
  induction fuel with
  | zero => intro self context framesRemaining user _; simp [iterateLoop, blockPlan]
  | succ fuel ih =>
    intro self context framesRemaining user heq
    simp only [iterateLoop, blockPlan]
    split
    · simp
    · simp only [List.map_cons, List.cons.injEq, Prod.mk.injEq, heq, true_and]
      apply ih
      simp only [hRender, heq]

theorem iterateInBlocks_offsets {σ : Type} (ctx : RenderContext) (fuel maxFramesPerBlock : Nat)
    (render : RenderContext → σ → RenderContext × σ) (user : σ)
    (hRender : ∀ rc u, (render rc u).1.frameOffset = rc.frameOffset) :
    (ctx.iterateInBlocks fuel maxFramesPerBlock render user).calls.map
        (fun c => (c.frameOffset, c.midiIn)) =
      (blockPlan maxFramesPerBlock fuel ctx.frameOffset ctx.inputChannels.getNumFrames
        ctx.midiIn).map (fun b => (b.frameOffset, b.midi)) := by
  simp only [RenderContext.iterateInBlocks]
  exact iterateLoop_offsets maxFramesPerBlock render hRender fuel ctx ctx _ user rfl

/-- C22: MIDI tie-break. For every context, MIDI input buffer, block limit, iteration
budget and `render` callable that leaves the `frameOffset` of the context it is handed
alone (as the one of `processBlock` does): whenever the sub-blocks handed to `render` are
`before ++ c :: after`, the MIDI span of `c` consists exactly of the leading events, among
those not handed to the sub-blocks of `before`, whose `frameIndex` is at most the
`frameOffset` of `c`; the event that follows the span, if any, has a larger `frameIndex`
and is postponed. Hence every event in the span of `c` has a `frameIndex` of at most the
`frameOffset` of `c`. When moreover the buffer is sorted, `frameOffset` starts at 0 and the
input frame count is a `uint32_t`, the `frameIndex` of every event handed to a sub-block
equals the `frameOffset` of that sub-block, which is its first frame. -/
theorem midi_slice_is_leading_due_events {σ : Type} (ctx : RenderContext)
    (fuel maxFramesPerBlock : Nat) (render : RenderContext → σ → RenderContext × σ) (user : σ)
    (hRender : ∀ rc u, (render rc u).1.frameOffset = rc.frameOffset) :
    (∀ (before : List RenderContext) (c : RenderContext) (after : List RenderContext),
      (ctx.iterateInBlocks fuel maxFramesPerBlock render user).calls = before ++ c :: after →
      c.midiIn = (ctx.midiIn.drop (midiCounts before).sum).takeWhile
          (fun e => decide (e.frameIndex ≤ c.frameOffset)) ∧
      (∀ e, (ctx.midiIn.drop ((midiCounts before).sum + c.midiIn.length)).head? = some e →
        c.frameOffset < e.frameIndex) ∧
      (∀ e ∈ c.midiIn, e.frameIndex ≤ c.frameOffset)) ∧
    (ctx.frameOffset = 0 → ctx.inputChannels.getNumFrames < UINT32 →
      ctx.midiIn.Pairwise (fun a b => a.frameIndex ≤ b.frameIndex) →
      ∀ c ∈ (ctx.iterateInBlocks fuel maxFramesPerBlock render user).calls, ∀ e ∈ c.midiIn,
        e.frameIndex = c.frameOffset ∧
        c.inputChannels.firstFrame = ctx.inputChannels.firstFrame + c.frameOffset) ∧
    (∀ (rc : RenderContext) (s : AudioPlayerSession),
      (AudioPlayerSession.renderBlock rc s).1.frameOffset = rc.frameOffset) := by
  have hoff := iterateInBlocks_offsets ctx fuel maxFramesPerBlock render user hRender
  refine ⟨?_, ?_, fun _ _ => rfl⟩
  · intro before c after hcalls
    rw [hcalls, List.map_append, List.map_cons] at hoff
    obtain ⟨pb, rest, hplan, hpb, hrest⟩ := List.map_eq_append_iff.mp hoff.symm
    obtain ⟨b, pa, hrest', hb, -⟩ := List.map_eq_cons_iff.mp hrest
    subst hrest'
    simp only [Prod.mk.injEq] at hb
    obtain ⟨hbo, hbm⟩ := hb
    have hsum : (pb.map (fun p => p.midi.length)).sum = (midiCounts before).sum := by
      have := congrArg (List.map (fun t : Nat × List MIDIEvent => t.2.length)) hpb
      simp only [List.map_map, Function.comp_def] at this
      rw [midiCounts, this]
    obtain ⟨k1, k2⟩ := blockPlan_slices maxFramesPerBlock fuel _ _ _ pb b pa hplan
    rw [hsum, hbo, hbm] at k1
    rw [hsum, hbo, hbm] at k2
    refine ⟨k1, k2, ?_⟩
    intro e he
    rw [k1] at he
    simpa using List.mem_takeWhile_imp he
  · intro hOffset hFrames hSorted c hc e he
    have hplan := iterateInBlocks_subBlocks ctx fuel maxFramesPerBlock render user hOffset hFrames
    have key := (blockPlan_sorted maxFramesPerBlock fuel 0 ctx.inputChannels.getNumFrames
      ctx.midiIn hSorted (fun _ _ => Nat.zero_le _) (by omega)).1
    have hmem : c.toSubBlock ctx.inputChannels.firstFrame ∈
        blockPlan maxFramesPerBlock fuel 0 ctx.inputChannels.getNumFrames ctx.midiIn := by
      rw [← hplan]
      exact List.mem_map_of_mem _ hc
    have h1 : e.frameIndex = c.inputChannels.firstFrame - ctx.inputChannels.firstFrame :=
      key _ hmem e he
    have h3 := iterateInBlocks_firstFrame_ge ctx fuel maxFramesPerBlock render user c hc
    have hmem2 : (c.frameOffset, c.midiIn) ∈ (ctx.iterateInBlocks fuel maxFramesPerBlock render
        user).calls.map (fun c => (c.frameOffset, c.midiIn)) :=
      List.mem_map_of_mem (fun c : RenderContext => (c.frameOffset, c.midiIn)) hc
    rw [hoff, hOffset] at hmem2
    obtain ⟨b, hb, hbc⟩ := List.mem_map.mp hmem2
    simp only [Prod.mk.injEq] at hbc
    have h2 : e.frameIndex = b.frameOffset := key b hb e (by rw [hbc.2]; exact he)
    rw [hbc.1] at h2
    exact ⟨h2, by omega⟩

/-- C22, on the 1000-frame block of scenario 1 with a block limit of 400. -/
theorem midi_slice_is_leading_due_events_witness :
    (∀ (before : List RenderContext) (c : RenderContext) (after : List RenderContext),
      (scenarioContext.iterateInBlocks 1000 400 idleRender ()).calls = before ++ c :: after →
      c.midiIn = (scenarioContext.midiIn.drop (midiCounts before).sum).takeWhile
          (fun e => decide (e.frameIndex ≤ c.frameOffset)) ∧
      (∀ e, (scenarioContext.midiIn.drop ((midiCounts before).sum + c.midiIn.length)).head?
          = some e → c.frameOffset < e.frameIndex) ∧
      (∀ e ∈ c.midiIn, e.frameIndex ≤ c.frameOffset)) ∧
    (scenarioContext.frameOffset = 0 → scenarioContext.inputChannels.getNumFrames < UINT32 →
      scenarioContext.midiIn.Pairwise (fun a b => a.frameIndex ≤ b.frameIndex) →
      ∀ c ∈ (scenarioContext.iterateInBlocks 1000 400 idleRender ()).calls, ∀ e ∈ c.midiIn,
        e.frameIndex = c.frameOffset ∧
        c.inputChannels.firstFrame = scenarioContext.inputChannels.firstFrame + c.frameOffset) ∧
    (∀ (rc : RenderContext) (s : AudioPlayerSession),
      (AudioPlayerSession.renderBlock rc s).1.frameOffset = rc.frameOffset) :=
  midi_slice_is_leading_due_events scenarioContext 1000 400 idleRender () (fun _ _ => rfl)


/-! ## The active-session list over all sessions of a venue -/

theorem stop_venue (v : AudioPlayerVenue) (s : AudioPlayerSession) :
    (AudioPlayerSession.stop v s).1 = v ∨
      (AudioPlayerSession.stop v s).1 = v.call (VenueCall.stopSession s.self) := by
  simp only [AudioPlayerSession.stop]
  split_ifs
  · exact Or.inr rfl
  · exact Or.inl rfl

theorem unload_self (v : AudioPlayerVenue) (s : AudioPlayerSession) :
    (AudioPlayerSession.unload v s).2.self = s.self := by
  simp only [AudioPlayerSession.unload, setState_self]
  exact (stop_fields v s).2.1

theorem load_self_venue (v : AudioPlayerVenue) (s : AudioPlayerSession) (program : Program) :
    (AudioPlayerSession.load v s program).2.2.self = s.self ∧
      ((AudioPlayerSession.load v s program).2.1 = v ∨
        (AudioPlayerSession.load v s program).2.1 = v.call (VenueCall.stopSession s.self)) := by
  have hu := unload_self v s
  have hv : (AudioPlayerSession.unload v s).1 = (AudioPlayerSession.stop v s).1 :=
    (unload_fields v s).2.2.2.2.2.2.2
  obtain ⟨l1, l2, l3⟩ := load_eq v s program
  cases hE : program.isEmpty with
  | true => rw [l1 hE]; exact ⟨rfl, Or.inl rfl⟩
  | false =>
    cases hL : ((AudioPlayerSession.unload v s).2.performer.load program).1 with
    | true =>
      rw [l2 hE hL]
      refine ⟨?_, ?_⟩
      · simp only [setState_self]; exact hu
      · show (AudioPlayerSession.unload v s).1 = v ∨ _
        rw [hv]; exact stop_venue v s
    | false =>
      rw [l3 hE hL]
      refine ⟨hu, ?_⟩
      show (AudioPlayerSession.unload v s).1 = v ∨ _
      rw [hv]; exact stop_venue v s

theorem start_self_venue (v v' : AudioPlayerVenue) (s s' : AudioPlayerSession) (result : Bool)
    (h : AudioPlayerSession.start v s = some (result, v', s')) :
    s'.self = s.self ∧ (v' = v ∨ v' = v.call (VenueCall.startSession s.self)) := by
  obtain ⟨s1, s2, s3⟩ := start_cases v s
  by_cases hs : s.state = SessionState.linked
  · cases hp : s.performer.isLinked with
    | true =>
      rw [s2 hs hp] at h
      simp only [Option.some.injEq, Prod.mk.injEq] at h
      obtain ⟨-, hv, hs'⟩ := h
      subst hv; subst hs'
      exact ⟨setState_self _ _, Or.inr rfl⟩
    | false => rw [s3 hs hp] at h; cases h
  · rw [s1 hs] at h
    simp only [Option.some.injEq, Prod.mk.injEq] at h
    obtain ⟨-, hv, hs'⟩ := h
    subst hv; subst hs'
    exact ⟨rfl, Or.inl rfl⟩

/-- A call on the session at `p` that keeps the identity of the session, leaves it and the
venue in a state satisfying `SessionInvariant`, and changes the venue at most by one
`startSession` or `stopSession` of that session, preserves `WorldInvariant`. -/
theorem world_step (w : VenueWorld) (p : Nat) (s s' : AudioPlayerSession)
    (v' : AudioPlayerVenue) (h : WorldInvariant w) (hs : w.sessions p = some s)
    (hself : s'.self = s.self) (hinv : SessionInvariant v' s')
    (hv : v' = w.venue ∨ v' = w.venue.call (VenueCall.startSession s.self) ∨
      v' = w.venue.call (VenueCall.stopSession s.self)) :
    WorldInvariant (w.set p v' s') := by
  have hp : s.self = p := h.self p s hs
  refine ⟨?_, ?_, ?_, hinv.nodup, hinv.sources, hinv.sinks⟩
  · intro q t ht
    simp only [VenueWorld.set] at ht
    by_cases hq : q = p
    · subst hq
      rw [Function.update_same] at ht
      cases ht
      rw [hself, hp]
    · rw [Function.update_noteq hq] at ht
      exact h.self q t ht
  · intro q t ht
    simp only [VenueWorld.set] at ht ⊢
    by_cases hq : q = p
    · subst hq
      rw [Function.update_same] at ht
      cases ht
      exact hinv
    · rw [Function.update_noteq hq] at ht
      have htq : t.self = q := h.self q t ht
      have hne : s.self ≠ t.self := by rw [hp, htq]; exact fun hc => hq hc.symm
      rcases hv with hv | hv | hv
      · rw [hv]; exact h.session q t ht
      · rw [hv]
        exact invariant_otherCall _ _ _ (h.session q t ht)
          (fun hc => hne (VenueCall.startSession.inj hc)) (fun hc => by cases hc)
      · rw [hv]
        exact invariant_otherCall _ _ _ (h.session q t ht)
          (fun hc => by cases hc) (fun hc => hne (VenueCall.stopSession.inj hc))
  · intro q hq
    simp only [VenueWorld.set] at hq ⊢
    have hqp : q ≠ p := by
      intro hc
      subst hc
      rw [Function.update_same] at hq
      cases hq
    rw [Function.update_noteq hqp] at hq
    have hout := h.absent q hq
    rcases hv with hv | hv | hv
    · rw [hv]; exact hout
    · rw [hv]
      simp only [AudioPlayerVenue.call, (startSession_fields w.venue s.self).1]
      split_ifs
      · exact hout
      · simp only [List.mem_append, List.mem_singleton, not_or]
        exact ⟨hout, by rw [hp]; exact hqp⟩
    · rw [hv]
      simp only [AudioPlayerVenue.call, (stopSession_fields w.venue s.self).1]
      exact fun hc => hout (List.mem_of_mem_erase hc)

/-- Destroying a session that is not running, in a world satisfying `WorldInvariant`. -/
theorem world_remove (w : VenueWorld) (p : Nat) (s' : AudioPlayerSession)
    (v' : AudioPlayerVenue) (h : WorldInvariant (w.set p v' s'))
    (hstate : s'.state ≠ SessionState.running) : WorldInvariant (w.remove p v') := by
  have hp : (w.set p v' s').sessions p = some s' := by
    simp only [VenueWorld.set, Function.update_same]
  have hother : ∀ q, q ≠ p → (w.remove p v').sessions q = (w.set p v' s').sessions q := by
    intro q hq
    simp only [VenueWorld.remove, VenueWorld.set, Function.update_noteq hq]
  refine ⟨?_, ?_, ?_, h.nodup, h.sources, h.sinks⟩
  · intro q t ht
    by_cases hq : q = p
    · subst hq
      simp only [VenueWorld.remove, Function.update_same] at ht
      cases ht
    · rw [hother q hq] at ht
      exact h.self q t ht
  · intro q t ht
    by_cases hq : q = p
    · subst hq
      simp only [VenueWorld.remove, Function.update_same] at ht
      cases ht
    · rw [hother q hq] at ht
      exact h.session q t ht
  · intro q hq
    by_cases hqp : q = p
    · subst hqp
      have hinv := h.session q s' hp
      have hself := h.self q s' hp
      intro hc
      apply hstate
      apply hinv.active.mp
      rw [hself]
      exact hc
    · rw [hother q hqp] at hq
      exact h.absent q hq

theorem world_invariant (w : VenueWorld) (h : VenueReachable w) : WorldInvariant w := by
  induction h with
  | create a b c d =>
    have hinv := invariant_create a b c d 0 demoPerformer
    refine ⟨?_, ?_, ?_, hinv.nodup, hinv.sources, hinv.sinks⟩
    · intro p s hs; cases hs
    · intro p s hs; cases hs
    · intro p _
      simp [freshVenue, AudioPlayerVenue.create]
  | createSession w p performer _ hnone ih =>
    have hnew : SessionInvariant w.venue (AudioPlayerSession.create p performer) :=
      ⟨ih.nodup, by simpa [AudioPlayerSession.create] using ih.absent p hnone,
        fun _ => rfl, by simp [AudioPlayerSession.create], ih.sources, ih.sinks⟩
    refine ⟨?_, ?_, ?_, ih.nodup, ih.sources, ih.sinks⟩
    · intro q t ht
      simp only [VenueWorld.set] at ht
      by_cases hq : q = p
      · subst hq
        rw [Function.update_same] at ht
        cases ht
        rfl
      · rw [Function.update_noteq hq] at ht
        exact ih.self q t ht
    · intro q t ht
      simp only [VenueWorld.set] at ht ⊢
      by_cases hq : q = p
      · subst hq
        rw [Function.update_same] at ht
        cases ht
        exact hnew
      · rw [Function.update_noteq hq] at ht
        exact ih.session q t ht
    · intro q hq
      simp only [VenueWorld.set] at hq ⊢
      by_cases hqp : q = p
      · subst hqp
        rw [Function.update_same] at hq
        cases hq
      · rw [Function.update_noteq hqp] at hq
        exact ih.absent q hq
  | load w p s program _ hs ih =>
    obtain ⟨h1, h2⟩ := load_self_venue w.venue s program
    exact world_step w p s _ _ ih hs h1 (invariant_load _ _ _ (ih.session p s hs))
      (h2.elim Or.inl (fun h => Or.inr (Or.inr h)))
  | link w p s settings result s' _ hs hlink ih =>
    exact world_step w p s s' w.venue ih hs (link_fields s s' settings result hlink).1
      (invariant_link _ _ _ settings result (ih.session p s hs) hlink) (Or.inl rfl)
  | start w p s result v' s' _ hs hstart ih =>
    obtain ⟨h1, h2⟩ := start_self_venue w.venue v' s s' result hstart
    exact world_step w p s s' v' ih hs h1
      (invariant_start _ _ _ _ result (ih.session p s hs) hstart)
      (h2.elim Or.inl (fun h => Or.inr (Or.inl h)))
  | stop w p s _ hs ih =>
    exact world_step w p s _ _ ih hs (stop_fields w.venue s).2.1
      (invariant_stop _ _ (ih.session p s hs))
      ((stop_venue w.venue s).elim Or.inl (fun h => Or.inr (Or.inr h)))
  | unload w p s _ hs ih =>
    have hv : (AudioPlayerSession.unload w.venue s).1 = (AudioPlayerSession.stop w.venue s).1 :=
      (unload_fields w.venue s).2.2.2.2.2.2.2
    exact world_step w p s _ _ ih hs (unload_self w.venue s)
      (invariant_unload _ _ (ih.session p s hs))
      (by rw [hv]; exact (stop_venue w.venue s).elim Or.inl (fun h => Or.inr (Or.inr h)))
  | destroy w p s _ hs ih =>
    have hv : (AudioPlayerSession.unload w.venue s).1 = (AudioPlayerSession.stop w.venue s).1 :=
      (unload_fields w.venue s).2.2.2.2.2.2.2
    have hstep := world_step w p s _ _ ih hs (unload_self w.venue s)
      (invariant_unload _ _ (ih.session p s hs))
      (by rw [hv]; exact (stop_venue w.venue s).elim Or.inl (fun h => Or.inr (Or.inr h)))
    refine world_remove w p _ _ hstep ?_
    rw [(unload_fields w.venue s).1]
    decide

theorem demoWorld_reachable : VenueReachable demoWorld := by
  have h0 : VenueReachable emptyWorld := VenueReachable.create 2 2 512 0
  have h1 := VenueReachable.createSession _ 1 demoPerformer h0 rfl
  have h2 := VenueReachable.load _ 1 _ demoProgram h1 rfl
  have h3 := VenueReachable.link _ 1 _ { maxBlockSize := 512 } true linkedSession h2 rfl rfl
  have h4 := VenueReachable.start _ 1 _ true runningVenue runningSession h3 rfl rfl
  have h5 := VenueReachable.createSession _ 2 demoPerformer h4 rfl
  have h6 := VenueReachable.load _ 2 _ demoProgram h5 rfl
  have hw : ∀ w : VenueWorld, w.venue = demoWorld.venue → (∀ q, w.sessions q = demoWorld.sessions q) →
      w = demoWorld := by
    intro w hv hq
    cases w
    simp only [demoWorld, VenueWorld.mk.injEq] at hv hq ⊢
    exact ⟨hv, funext hq⟩
  have key : ∀ w : VenueWorld, VenueReachable w → w.venue = demoWorld.venue →
      (∀ q, w.sessions q = demoWorld.sessions q) → VenueReachable demoWorld := by
    intro w h hv hq
    rw [← hw w hv hq]
    exact h
  refine key _ h6 rfl ?_
  intro q
  simp only [demoWorld, VenueWorld.set, emptyWorld, Function.update_apply]
  split_ifs <;> rfl


/-- C24: active-set invariant. In every state of a venue and its sessions that is reached
from the constructed venue by any sequence of `createSession`, `load`, `link`, `start`,
`stop` and `unload` calls on its sessions (and of session destructors, which run `unload`),
the active-session list contains no session twice, every live session is found under its
own address and is in the active-session list iff its state is running, and every entry
of the list is a live session whose state is running. -/
theorem active_list_is_the_running_sessions (w : VenueWorld) (h : VenueReachable w) :
    w.venue.activeSessions.Nodup ∧
    (∀ p s, w.sessions p = some s →
      s.self = p ∧ (p ∈ w.venue.activeSessions ↔ s.state = SessionState.running)) ∧
    (∀ p ∈ w.venue.activeSessions,
      ∃ s, w.sessions p = some s ∧ s.state = SessionState.running) := by
  have inv := world_invariant w h
  refine ⟨inv.nodup, ?_, ?_⟩
  · intro p s hs
    have hself := inv.self p s hs
    refine ⟨hself, ?_⟩
    rw [← hself]
    exact (inv.session p s hs).active
  · intro p hp
    cases hs : w.sessions p with
    | none => exact absurd hp (inv.absent p hs)
    | some s =>
      refine ⟨s, rfl, ?_⟩
      have hself := inv.self p s hs
      apply (inv.session p s hs).active.mp
      rw [hself]
      exact hp

/-- C24, on the demo venue with a running session at address 1 and a loaded one at
address 2. -/
theorem active_list_is_the_running_sessions_witness :
    VenueReachable demoWorld ∧ demoWorld.venue.activeSessions = [1] ∧
    demoWorld.venue.activeSessions.Nodup ∧
    (∀ p s, demoWorld.sessions p = some s →
      s.self = p ∧ (p ∈ demoWorld.venue.activeSessions ↔ s.state = SessionState.running)) ∧
    (∀ p ∈ demoWorld.venue.activeSessions,
      ∃ s, demoWorld.sessions p = some s ∧ s.state = SessionState.running) :=
  ⟨demoWorld_reachable, rfl, active_list_is_the_running_sessions demoWorld demoWorld_reachable⟩

/-! ## The lock of the active-session list -/

theorem lock_free (l l' : RecursiveMutex) (t : Nat) (hne : l.owner ≠ some t)
    (h : l.lock t = some l') : l.owner = none ∧ l' = { owner := some t, depth := 1 } := by
  unfold RecursiveMutex.lock at h
  cases ho : l.owner with
  | none =>
    rw [ho] at h
    simp only [Option.some.injEq] at h
    exact ⟨rfl, h.symm⟩
  | some o =>
    rw [ho] at h hne
    have hot : o ≠ t := fun hc => hne (by rw [hc])
    simp [hot] at h

theorem lock_waits (l : RecursiveMutex) (t u : Nat) (ho : l.owner = some t) (hu : u ≠ t) :
    l.lock u = none := by
  unfold RecursiveMutex.lock
  rw [ho]
  simp [Ne.symm hu]

theorem lock_again (l : RecursiveMutex) (t : Nat) (ho : l.owner = some t) :
    l.lock t = some { owner := some t, depth := l.depth + 1 } := by
  unfold RecursiveMutex.lock
  rw [ho]
  simp

theorem lock_first (l : RecursiveMutex) (t : Nat) (ho : l.owner = none) :
    l.lock t = some { owner := some t, depth := 1 } := by
  unfold RecursiveMutex.lock
  rw [ho]

/-- A step of thread `t` that leaves the lock alone and keeps the number of its calls that
hold the lock. -/
theorem lockInvariant_same (m m' : VenueMachine) (t : Nat) (stack : List Activity)
    (h : LockInvariant m) (hlock : m'.activeSessionLock = m.activeSessionLock)
    (hthreads : m'.threads = Function.update m.threads t stack)
    (hcount : stack.countP Activity.holdsLock = (m.threads t).countP Activity.holdsLock) :
    LockInvariant m' := by
  refine ⟨?_, ?_, ?_⟩
  · intro u
    rw [hlock, hthreads]
    by_cases hu : u = t
    · subst hu
      rw [Function.update_same, hcount]
      exact h.held u
    · rw [Function.update_noteq hu]
      exact h.held u
  · rw [hlock]; exact h.free
  · rw [hlock]; exact h.owned

/-- Thread `t` constructs a `std::lock_guard`. -/
theorem lockInvariant_acquire (m m' : VenueMachine) (t : Nat) (stack : List Activity)
    (valid : Bool) (events : List VenueEvent) (h : LockInvariant m)
    (hacq : m.acquire t stack valid events = some m')
    (hcount : stack.countP Activity.holdsLock =
      (m.threads t).countP Activity.holdsLock + 1) :
    LockInvariant m' := by
  unfold VenueMachine.acquire at hacq
  cases ho : m.activeSessionLock.owner with
  | none =>
    rw [lock_first _ t ho] at hacq
    simp only [Option.some.injEq] at hacq
    subst hacq
    have hzero : ∀ u, (m.threads u).countP Activity.holdsLock = 0 := by
      intro u
      have := h.held u
      rw [ho] at this
      simpa using this
    refine ⟨?_, ?_, ?_⟩
    · intro u
      show (Function.update m.threads t stack u).countP Activity.holdsLock =
        if some t = some u then 1 else 0
      by_cases hu : u = t
      · subst hu
        rw [Function.update_same, hcount, hzero u]
        simp
      · rw [Function.update_noteq hu, hzero u]
        simp [Ne.symm hu]
    · intro hc; cases hc
    · intro u _; exact Nat.le_refl 1
  | some o =>
    by_cases hot : o = t
    · subst hot
      rw [lock_again _ o ho] at hacq
      simp only [Option.some.injEq] at hacq
      subst hacq
      refine ⟨?_, ?_, ?_⟩
      · intro u
        show (Function.update m.threads o stack u).countP Activity.holdsLock =
          if some o = some u then m.activeSessionLock.depth + 1 else 0
        by_cases hu : u = o
        · subst hu
          rw [Function.update_same, hcount]
          have := h.held u
          rw [ho] at this
          simp only [if_true] at this ⊢
          rw [this]
        · rw [Function.update_noteq hu]
          have := h.held u
          rw [ho] at this
          have hne : (some o : Option Nat) ≠ some u := fun hc => hu (Option.some.inj hc).symm
          rw [if_neg hne] at this ⊢
          exact this
      · intro hc; cases hc
      · intro u _; exact Nat.le_add_left 1 _
    · rw [lock_waits _ o t ho (Ne.symm hot)] at hacq
      cases hacq

/-- Thread `t` destroys a `std::lock_guard`. -/
theorem lockInvariant_release (m : VenueMachine) (t : Nat) (stack : List Activity)
    (events : List VenueEvent) (h : LockInvariant m)
    (hcount : (m.threads t).countP Activity.holdsLock =
      stack.countP Activity.holdsLock + 1) :
    LockInvariant (m.release t stack events) := by
  have hheld := h.held t
  have hown : m.activeSessionLock.owner = some t := by
    by_contra hc
    rw [if_neg hc] at hheld
    omega
  rw [if_pos hown] at hheld
  have hothers : ∀ u, u ≠ t → (m.threads u).countP Activity.holdsLock = 0 := by
    intro u hu
    have := h.held u
    rw [hown] at this
    rw [this]
    simp [Ne.symm hu]
  by_cases hd : m.activeSessionLock.depth ≤ 1
  · have hunlock : m.activeSessionLock.unlock = { owner := none, depth := 0 } := by
      simp [RecursiveMutex.unlock, hd]
    refine ⟨?_, ?_, ?_⟩
    · intro u
      simp only [VenueMachine.release, hunlock]
      by_cases hu : u = t
      · subst hu
        rw [Function.update_same, if_neg (by simp)]
        omega
      · rw [Function.update_noteq hu, hothers u hu]
        simp
    · intro _
      simp only [VenueMachine.release, hunlock]
    · intro u hu
      simp only [VenueMachine.release, hunlock] at hu
      cases hu
  · have hunlock : m.activeSessionLock.unlock =
        { owner := some t, depth := m.activeSessionLock.depth - 1 } := by
      simp [RecursiveMutex.unlock, hd, hown]
    refine ⟨?_, ?_, ?_⟩
    · intro u
      simp only [VenueMachine.release, hunlock]
      by_cases hu : u = t
      · subst hu
        rw [Function.update_same, if_pos rfl]
        omega
      · rw [Function.update_noteq hu, hothers u hu]
        simp [Ne.symm hu]
    · intro hc
      simp only [VenueMachine.release, hunlock] at hc
      cases hc
    · intro u _
      simp only [VenueMachine.release, hunlock]
      omega

theorem move_lockInvariant (m m' : VenueMachine) (mv : Move) (h : LockInvariant m)
    (hm : m.move mv = some m') : LockInvariant m' := by
  cases mv with
  | call t r =>
    simp only [VenueMachine.move] at hm
    cases hst : m.threads t with
    | nil =>
      rw [hst] at hm
      simp only [Option.some.injEq] at hm
      subst hm
      exact lockInvariant_same m _ t [r.called] h rfl rfl (by rw [hst]; cases r <;> simp [List.countP_cons, VenueRequest.called, Activity.holdsLock])
    | cons a rest =>
      rw [hst] at hm
      cases a <;> try (cases hm)
      cases r <;> simp only [Option.some.injEq] at hm <;> try (cases hm)
      all_goals
        exact lockInvariant_same m _ t _ h rfl rfl
          (by rw [hst]; simp [List.countP_cons, VenueRequest.called, Activity.holdsLock])
  | advance t =>
    simp only [VenueMachine.move] at hm
    cases hst : m.threads t with
    | nil => rw [hst] at hm; cases hm
    | cons a rest =>
      rw [hst] at hm
      cases a with
      | startSessionCalled s =>
        exact lockInvariant_acquire m m' t _ _ _ h hm (by rw [hst]; simp [List.countP_cons, Activity.holdsLock])
      | stopSessionCalled s =>
        exact lockInvariant_acquire m m' t _ _ _ h hm (by rw [hst]; simp [List.countP_cons, Activity.holdsLock])
      | renderCalled =>
        exact lockInvariant_acquire m m' t _ _ _ h hm (by rw [hst]; simp [List.countP_cons, Activity.holdsLock])
      | startSessionLocked s =>
        simp only [Option.some.injEq] at hm
        subst hm
        exact lockInvariant_same m _ t _ h rfl rfl (by rw [hst]; simp [List.countP_cons, Activity.holdsLock])
      | stopSessionLocked s =>
        simp only [Option.some.injEq] at hm
        subst hm
        exact lockInvariant_same m _ t _ h rfl rfl (by rw [hst]; simp [List.countP_cons, Activity.holdsLock])
      | startSessionReturning s =>
        simp only [Option.some.injEq] at hm
        subst hm
        exact lockInvariant_release m t rest [] h (by rw [hst]; simp [List.countP_cons, Activity.holdsLock])
      | stopSessionReturning s =>
        simp only [Option.some.injEq] at hm
        subst hm
        exact lockInvariant_release m t rest [] h (by rw [hst]; simp [List.countP_cons, Activity.holdsLock])
      | renderReturning =>
        simp only [Option.some.injEq] at hm
        subst hm
        exact lockInvariant_release m t rest _ h (by rw [hst]; simp [List.countP_cons, Activity.holdsLock])
      | renderProcessing next last =>
        simp only [Option.some.injEq] at hm
        subst hm
        exact lockInvariant_same m _ t _ h rfl rfl (by rw [hst]; simp [List.countP_cons, Activity.holdsLock])
      | renderDispatching next last =>
        simp only at hm
        split_ifs at hm with hv hlt
        · cases hg : m.venue.activeSessions[next]? with
          | none => rw [hg] at hm; cases hm
          | some s =>
            rw [hg] at hm
            simp only [Option.some.injEq] at hm
            subst hm
            exact lockInvariant_same m _ t _ h rfl rfl (by rw [hst]; simp [List.countP_cons, Activity.holdsLock])
        · simp only [Option.some.injEq] at hm
          subst hm
          exact lockInvariant_same m _ t _ h rfl rfl (by rw [hst]; simp [List.countP_cons, Activity.holdsLock])

theorem create_lockInvariant (numInputChannels numOutputChannels : Int)
    (deviceBlockSize : Nat) (deviceXruns : Int) :
    LockInvariant
      (VenueMachine.create numInputChannels numOutputChannels deviceBlockSize deviceXruns) := by
  refine ⟨?_, fun _ => rfl, ?_⟩
  · intro t
    simp [VenueMachine.create]
  · intro t hc
    simp [VenueMachine.create] at hc

theorem run_lockInvariant (schedule : List Move) (m : VenueMachine) (h : LockInvariant m) :
    LockInvariant (m.run schedule) := by
  induction schedule generalizing m with
  | nil => exact h
  | cons mv rest ih =>
    simp only [VenueMachine.run, List.foldl_cons]
    cases hm : m.move mv with
    | none => exact ih m h
    | some m' => exact ih m' (move_lockInvariant m m' mv h hm)

/-! ## Calls made one after the other -/

theorem serialTrace_append (v : AudioPlayerVenue) (ops extra : List VenueOperation) :
    serialTrace v (ops ++ extra) =
      serialTrace v ops ++ serialTrace (ops.foldl AudioPlayerVenue.perform v) extra := by
  induction ops generalizing v with
  | nil => simp [serialTrace]
  | cons o rest ih =>
    cases o with
    | call c => simp [serialTrace, ih, AudioPlayerVenue.perform]
    | render => simp [serialTrace, ih, AudioPlayerVenue.perform]

theorem inFlight_owner (m : VenueMachine) (t : Nat) (h : m.activeSessionLock.owner = some t) :
    m.inFlight = stackInFlight (m.threads t) m.venue.activeSessions := by
  simp only [VenueMachine.inFlight, h]

theorem inFlight_free (m : VenueMachine) (h : m.activeSessionLock.owner = none) :
    m.inFlight = [] := by
  simp only [VenueMachine.inFlight, h]

theorem holdsLock_of_dispatching (stack rest : List Activity) (next last : Nat)
    (h : stack = Activity.renderDispatching next last :: rest) :
    stackHoldsLock stack = true := by
  subst h; rfl

theorem holdsLock_of_processing (stack rest : List Activity) (next last : Nat)
    (h : stack = Activity.renderProcessing next last :: rest) :
    stackHoldsLock stack = true := by
  subst h; rfl

/-- A step of thread `t` that does not touch the lock: a thread that does not own the lock
changes neither the venue nor the events, and the owner continues the sequence of calls. -/
theorem plain_local (origin : AudioPlayerVenue) (m m' : VenueMachine) (t : Nat)
    (stack : List Activity) (events : List VenueEvent) (extra : List VenueOperation)
    (h : PlainInvariant origin m)
    (hlock : m'.activeSessionLock = m.activeSessionLock)
    (hthreads : m'.threads = Function.update m.threads t stack)
    (htr : m'.trace = m.trace ++ events)
    (hsingle : stack.length ≤ 1)
    (hhold : stackHoldsLock stack = stackHoldsLock (m.threads t))
    (hdisp : ∀ next last rest, stack = Activity.renderDispatching next last :: rest →
      last = m'.venue.activeSessions.length ∧ next ≤ last ∧ m'.iteratorsValid = true)
    (hproc : ∀ next last rest, stack = Activity.renderProcessing next last :: rest →
      last = m'.venue.activeSessions.length ∧ next < last ∧ m'.iteratorsValid = true)
    (hvenue : m'.venue = extra.foldl AudioPlayerVenue.perform m.venue)
    (hquiet : stackHoldsLock (m.threads t) = false →
      m'.venue = m.venue ∧ m'.iteratorsValid = m.iteratorsValid ∧ events = [] ∧ extra = [])
    (htrace : stackHoldsLock (m.threads t) = true →
      stackInFlight (m.threads t) m.venue.activeSessions ++ events =
        serialTrace m.venue extra ++ stackInFlight stack m'.venue.activeSessions) :
    PlainInvariant origin m' := by
  have hother : ∀ u, u ≠ t → m'.threads u = m.threads u := by
    intro u hu
    rw [hthreads, Function.update_noteq hu]
  have hself : m'.threads t = stack := by rw [hthreads, Function.update_same]
  have hrender : ∀ u, u ≠ t → stackHoldsLock (m.threads u) = true →
      m'.venue = m.venue ∧ m'.iteratorsValid = m.iteratorsValid := by
    intro u hu hh
    have hown := (h.holder u).mp hh
    cases ht : stackHoldsLock (m.threads t) with
    | true =>
      have := (h.holder t).mp ht
      rw [hown] at this
      exact absurd (Option.some.inj this) hu
    | false => exact ⟨(hquiet ht).1, (hquiet ht).2.1⟩
  refine ⟨?_, ?_, ?_, ?_, ?_, ?_⟩
  · intro u
    by_cases hu : u = t
    · subst hu; rw [hself]; exact hsingle
    · rw [hother u hu]; exact h.single u
  · rw [hlock]; exact h.depth
  · intro u
    rw [hlock]
    by_cases hu : u = t
    · subst hu
      rw [hself, hhold]
      exact h.holder u
    · rw [hother u hu]
      exact h.holder u
  · intro u next last rest hu
    by_cases hut : u = t
    · subst hut
      rw [hself] at hu
      exact hdisp next last rest hu
    · rw [hother u hut] at hu
      obtain ⟨q1, q2⟩ := hrender u hut (holdsLock_of_dispatching _ _ _ _ hu)
      rw [q1, q2]
      exact h.dispatching u next last rest hu
  · intro u next last rest hu
    by_cases hut : u = t
    · subst hut
      rw [hself] at hu
      exact hproc next last rest hu
    · rw [hother u hut] at hu
      obtain ⟨q1, q2⟩ := hrender u hut (holdsLock_of_processing _ _ _ _ hu)
      rw [q1, q2]
      exact h.processing u next last rest hu
  · obtain ⟨ops, hops, hv⟩ := h.serial
    refine ⟨ops ++ extra, ?_, ?_⟩
    · rw [htr]
      cases ht : stackHoldsLock (m.threads t) with
      | true =>
        have hown := (h.holder t).mp ht
        have hnew : m'.inFlight = stackInFlight stack m'.venue.activeSessions := by
          rw [inFlight_owner m' t (by rw [hlock]; exact hown), hself]
        rw [hnew, hops, inFlight_owner m t hown, serialTrace_append, ← hv, List.append_assoc,
          htrace ht, List.append_assoc]
      | false =>
        obtain ⟨q1, -, q3, q4⟩ := hquiet ht
        subst q3; subst q4
        have hnew : m'.inFlight = m.inFlight := by
          cases ho : m.activeSessionLock.owner with
          | none => rw [inFlight_free m' (by rw [hlock]; exact ho), inFlight_free m ho]
          | some o =>
            have hot : o ≠ t := by
              intro hc
              subst hc
              have := (h.holder o).mpr ho
              rw [ht] at this
              cases this
            rw [inFlight_owner m' o (by rw [hlock]; exact ho), inFlight_owner m o ho,
              hother o hot, q1]
        rw [hnew, List.append_nil, List.append_nil, hops]
    · rw [List.foldl_append, ← hv]
      exact hvenue

/-- Thread `t` constructs its `std::lock_guard`. -/
theorem plain_acquire (origin : AudioPlayerVenue) (m m' : VenueMachine) (t : Nat)
    (stack : List Activity) (valid : Bool) (events : List VenueEvent)
    (h : PlainInvariant origin m)
    (hnot : stackHoldsLock (m.threads t) = false) (hs : stackHoldsLock stack = true)
    (hsingle : stack.length ≤ 1)
    (hacq : m.acquire t stack valid events = some m')
    (hdisp : ∀ next last rest, stack = Activity.renderDispatching next last :: rest →
      last = m.venue.activeSessions.length ∧ next ≤ last ∧ valid = true)
    (hproc : ∀ next last rest, stack ≠ Activity.renderProcessing next last :: rest)
    (hevents : stackInFlight stack m.venue.activeSessions = events) :
    PlainInvariant origin m' := by
  have hne : m.activeSessionLock.owner ≠ some t := by
    intro hc
    have := (h.holder t).mpr hc
    rw [hnot] at this
    cases this
  unfold VenueMachine.acquire at hacq
  cases hl : m.activeSessionLock.lock t with
  | none => rw [hl] at hacq; cases hacq
  | some l =>
    rw [hl] at hacq
    simp only [Option.some.injEq] at hacq
    obtain ⟨hfree, hl'⟩ := lock_free _ _ t hne hl
    subst hl'
    subst hacq
    have hidle : ∀ u, stackHoldsLock (m.threads u) = false := by
      intro u
      cases hu : stackHoldsLock (m.threads u) with
      | false => rfl
      | true =>
        have := (h.holder u).mp hu
        rw [hfree] at this
        cases this
    refine ⟨?_, rfl, ?_, ?_, ?_, ?_⟩
    · intro u
      show (Function.update m.threads t stack u).length ≤ 1
      by_cases hu : u = t
      · subst hu; rw [Function.update_same]; exact hsingle
      · rw [Function.update_noteq hu]; exact h.single u
    · intro u
      show stackHoldsLock (Function.update m.threads t stack u) = true ↔ some t = some u
      by_cases hu : u = t
      · subst hu
        rw [Function.update_same, hs]
        simp
      · rw [Function.update_noteq hu, hidle u]
        simp [Ne.symm hu]
    · intro u next last rest hu
      show last = m.venue.activeSessions.length ∧ next ≤ last ∧ valid = true
      change Function.update m.threads t stack u = _ at hu
      by_cases hut : u = t
      · subst hut
        rw [Function.update_same] at hu
        exact hdisp next last rest hu
      · rw [Function.update_noteq hut] at hu
        have := holdsLock_of_dispatching _ _ _ _ hu
        rw [hidle u] at this
        cases this
    · intro u next last rest hu
      change Function.update m.threads t stack u = _ at hu
      by_cases hut : u = t
      · subst hut
        rw [Function.update_same] at hu
        exact absurd hu (hproc next last rest)
      · rw [Function.update_noteq hut] at hu
        have := holdsLock_of_processing _ _ _ _ hu
        rw [hidle u] at this
        cases this
    · obtain ⟨ops, hops, hv⟩ := h.serial
      refine ⟨ops, ?_, hv⟩
      rw [inFlight_owner _ t rfl]
      show m.trace ++ events = _ ++ stackInFlight (Function.update m.threads t stack t) _
      rw [Function.update_same, hops, inFlight_free m hfree, List.append_nil]
      show _ = _ ++ stackInFlight stack m.venue.activeSessions
      rw [hevents]

/-- Thread `t`, the owner of the lock, destroys its `std::lock_guard` and returns. -/
theorem plain_release (origin : AudioPlayerVenue) (m : VenueMachine) (t : Nat)
    (events : List VenueEvent) (extra : List VenueOperation) (h : PlainInvariant origin m)
    (hhold : stackHoldsLock (m.threads t) = true)
    (htrace : stackInFlight (m.threads t) m.venue.activeSessions ++ events =
      serialTrace m.venue extra)
    (hvenue : extra.foldl AudioPlayerVenue.perform m.venue = m.venue) :
    PlainInvariant origin (m.release t [] events) := by
  have hown := (h.holder t).mp hhold
  have hdepth : m.activeSessionLock.depth = 1 := by
    have := h.depth
    rw [hown] at this
    simpa using this
  have hunlock : m.activeSessionLock.unlock = { owner := none, depth := 0 } := by
    simp [RecursiveMutex.unlock, hdepth]
  have hothers : ∀ u, u ≠ t → stackHoldsLock (m.threads u) = false := by
    intro u hu
    cases hh : stackHoldsLock (m.threads u) with
    | false => rfl
    | true =>
      have := (h.holder u).mp hh
      rw [hown] at this
      exact absurd (Option.some.inj this).symm hu
  refine ⟨?_, ?_, ?_, ?_, ?_, ?_⟩
  · intro u
    simp only [VenueMachine.release]
    by_cases hu : u = t
    · subst hu; rw [Function.update_same]; exact Nat.zero_le _
    · rw [Function.update_noteq hu]; exact h.single u
  · simp only [VenueMachine.release, hunlock]
    rfl
  · intro u
    simp only [VenueMachine.release, hunlock]
    by_cases hu : u = t
    · subst hu
      rw [Function.update_same]
      simp [stackHoldsLock]
    · rw [Function.update_noteq hu, hothers u hu]
      simp
  · intro u next last rest hu
    simp only [VenueMachine.release] at hu ⊢
    by_cases hut : u = t
    · subst hut
      rw [Function.update_same] at hu
      cases hu
    · rw [Function.update_noteq hut] at hu
      have := holdsLock_of_dispatching _ _ _ _ hu
      rw [hothers u hut] at this
      cases this
  · intro u next last rest hu
    simp only [VenueMachine.release] at hu ⊢
    by_cases hut : u = t
    · subst hut
      rw [Function.update_same] at hu
      cases hu
    · rw [Function.update_noteq hut] at hu
      have := holdsLock_of_processing _ _ _ _ hu
      rw [hothers u hut] at this
      cases this
  · obtain ⟨ops, hops, hv⟩ := h.serial
    refine ⟨ops ++ extra, ?_, ?_⟩
    · have hnew : (m.release t [] events).inFlight = [] :=
        inFlight_free _ (by simp only [VenueMachine.release, hunlock])
      rw [hnew, List.append_nil]
      show m.trace ++ events = _
      rw [hops, inFlight_owner m t hown, serialTrace_append, ← hv, List.append_assoc, htrace]
    · show m.venue = _
      rw [List.foldl_append, ← hv, hvenue]

theorem stack_single (stack rest : List Activity) (a : Activity) (h : stack = a :: rest)
    (hsingle : stack.length ≤ 1) : rest = [] := by
  subst h
  cases rest with
  | nil => rfl
  | cons b more => simp at hsingle

theorem take_succ_processBlock (active : List Nat) (next : Nat) (s : Nat)
    (hget : active[next]? = some s) :
    (active.take (next + 1)).map VenueEvent.processBlock =
      (active.take next).map VenueEvent.processBlock ++ [VenueEvent.processBlock s] := by
  rw [List.take_succ, hget, List.map_append]
  rfl

theorem move_nestedCalls (m m' : VenueMachine) (mv : Move) (hm : m.move mv = some m') :
    m'.nestedCalls = m.nestedCalls ∨ m'.nestedCalls = m.nestedCalls + 1 := by
  cases mv with
  | call t r =>
    simp only [VenueMachine.move] at hm
    cases hst : m.threads t with
    | nil =>
      rw [hst] at hm
      simp only [Option.some.injEq] at hm
      subst hm
      exact Or.inl rfl
    | cons a rest =>
      rw [hst] at hm
      cases a <;> try (cases hm)
      cases r <;> simp only [Option.some.injEq] at hm <;> try (cases hm)
      all_goals
        exact Or.inr rfl
  | advance t =>
    left
    simp only [VenueMachine.move] at hm
    cases hst : m.threads t with
    | nil => rw [hst] at hm; cases hm
    | cons a rest =>
      rw [hst] at hm
      cases a <;> simp only [VenueMachine.acquire] at hm
      case startSessionCalled s =>
        cases hl : m.activeSessionLock.lock t with
        | none => rw [hl] at hm; cases hm
        | some l =>
          rw [hl] at hm
          simp only [Option.some.injEq] at hm
          subst hm; rfl
      case stopSessionCalled s =>
        cases hl : m.activeSessionLock.lock t with
        | none => rw [hl] at hm; cases hm
        | some l =>
          rw [hl] at hm
          simp only [Option.some.injEq] at hm
          subst hm; rfl
      case renderCalled =>
        cases hl : m.activeSessionLock.lock t with
        | none => rw [hl] at hm; cases hm
        | some l =>
          rw [hl] at hm
          simp only [Option.some.injEq] at hm
          subst hm; rfl
      case renderDispatching next last =>
        split_ifs at hm with hv hlt
        · cases hg : m.venue.activeSessions[next]? with
          | none => rw [hg] at hm; cases hm
          | some s =>
            rw [hg] at hm
            simp only [Option.some.injEq] at hm
            subst hm; rfl
        · simp only [Option.some.injEq] at hm
          subst hm; rfl
      all_goals
        simp only [Option.some.injEq] at hm
        subst hm
        rfl

theorem move_plain (origin : AudioPlayerVenue) (m m' : VenueMachine) (mv : Move)
    (h : PlainInvariant origin m) (hm : m.move mv = some m')
    (hn : m'.nestedCalls = m.nestedCalls) : PlainInvariant origin m' := by
  cases mv with
  | call t r =>
    simp only [VenueMachine.move] at hm
    cases hst : m.threads t with
    | nil =>
      rw [hst] at hm
      simp only [Option.some.injEq] at hm
      subst hm
      refine plain_local origin m _ t [r.called] [] [] h rfl rfl rfl (by simp)
        (by rw [hst]; cases r <;> rfl) ?_ ?_ rfl (fun _ => ⟨rfl, rfl, rfl, rfl⟩) ?_
      · intro next last rest hc
        cases r <;> cases hc
      · intro next last rest hc
        cases r <;> cases hc
      · intro hc
        rw [hst] at hc
        cases hc
    | cons a rest =>
      rw [hst] at hm
      cases a <;> try (cases hm)
      cases r <;> simp only [Option.some.injEq] at hm <;> try (cases hm)
      all_goals
        simp only [VenueMachine.nest] at hn
        omega
  | advance t =>
    simp only [VenueMachine.move] at hm
    cases hst : m.threads t with
    | nil => rw [hst] at hm; cases hm
    | cons a rest =>
      have hrest : rest = [] := stack_single _ rest a hst (h.single t)
      subst hrest
      rw [hst] at hm
      cases a with
      | startSessionCalled s =>
        exact plain_acquire origin m m' t [Activity.startSessionLocked s] m.iteratorsValid []
          h (by rw [hst]; rfl) rfl (by simp) hm (by intro _ _ _ hc; cases hc)
          (by intro _ _ _ hc; cases hc) rfl
      | stopSessionCalled s =>
        exact plain_acquire origin m m' t [Activity.stopSessionLocked s] m.iteratorsValid []
          h (by rw [hst]; rfl) rfl (by simp) hm (by intro _ _ _ hc; cases hc)
          (by intro _ _ _ hc; cases hc) rfl
      | renderCalled =>
        refine plain_acquire origin m m' t
          [Activity.renderDispatching 0 m.venue.activeSessions.length] true
          [VenueEvent.renderBegin] h (by rw [hst]; rfl) rfl (by simp) hm ?_
          (by intro _ _ _ hc; cases hc) ?_
        · intro next last rest hc
          cases hc
          exact ⟨rfl, Nat.zero_le _, rfl⟩
        · simp [stackInFlight, Activity.inFlight]
      | startSessionLocked s =>
        simp only [Option.some.injEq] at hm
        subst hm
        exact plain_local origin m _ t [Activity.startSessionReturning s]
          [VenueEvent.call (VenueCall.startSession s)]
          [VenueOperation.call (VenueCall.startSession s)] h rfl rfl rfl (by simp)
          (by rw [hst]; rfl) (by intro _ _ _ hc; cases hc) (by intro _ _ _ hc; cases hc) rfl
          (by intro hc; rw [hst] at hc; cases hc)
          (by intro _; rw [hst]; simp [stackInFlight, Activity.inFlight, serialTrace])
      | stopSessionLocked s =>
        simp only [Option.some.injEq] at hm
        subst hm
        exact plain_local origin m _ t [Activity.stopSessionReturning s]
          [VenueEvent.call (VenueCall.stopSession s)]
          [VenueOperation.call (VenueCall.stopSession s)] h rfl rfl rfl (by simp)
          (by rw [hst]; rfl) (by intro _ _ _ hc; cases hc) (by intro _ _ _ hc; cases hc) rfl
          (by intro hc; rw [hst] at hc; cases hc)
          (by intro _; rw [hst]; simp [stackInFlight, Activity.inFlight, serialTrace])
      | startSessionReturning s =>
        simp only [Option.some.injEq] at hm
        subst hm
        exact plain_release origin m t [] [] h (by rw [hst]; rfl)
          (by rw [hst]; simp [stackInFlight, Activity.inFlight, serialTrace]) rfl
      | stopSessionReturning s =>
        simp only [Option.some.injEq] at hm
        subst hm
        exact plain_release origin m t [] [] h (by rw [hst]; rfl)
          (by rw [hst]; simp [stackInFlight, Activity.inFlight, serialTrace]) rfl
      | renderReturning =>
        simp only [Option.some.injEq] at hm
        subst hm
        exact plain_release origin m t [VenueEvent.renderEnd] [VenueOperation.render] h
          (by rw [hst]; rfl)
          (by rw [hst]; simp [stackInFlight, Activity.inFlight, serialTrace, renderEvents]) rfl
      | renderProcessing next last =>
        simp only [Option.some.injEq] at hm
        subst hm
        obtain ⟨p1, p2, p3⟩ := h.processing t next last [] hst
        refine plain_local origin m _ t [Activity.renderDispatching (next + 1) last] [] [] h
          rfl rfl rfl (by simp) (by rw [hst]; rfl) ?_ (by intro _ _ _ hc; cases hc) rfl
          (by intro hc; rw [hst] at hc; cases hc) ?_
        · intro n l r hc
          cases hc
          exact ⟨p1, by omega, p3⟩
        · intro _
          rw [hst]
          simp [stackInFlight, Activity.inFlight, serialTrace, VenueMachine.proceed]
      | renderDispatching next last =>
        obtain ⟨p1, p2, p3⟩ := h.dispatching t next last [] hst
        simp only [p3, if_true] at hm
        by_cases hlt : next < last
        · simp only [hlt, if_true] at hm
          have hlen : next < m.venue.activeSessions.length := lt_of_lt_of_eq hlt p1
          have hget : m.venue.activeSessions[next]? = some (m.venue.activeSessions[next]) :=
            List.getElem?_eq_getElem hlen
          rw [hget] at hm
          simp only [Option.some.injEq] at hm
          subst hm
          refine plain_local origin m _ t [Activity.renderProcessing next last]
            [VenueEvent.processBlock (m.venue.activeSessions[next])] [] h rfl rfl rfl (by simp)
            (by rw [hst]; rfl) (by intro _ _ _ hc; cases hc) ?_ rfl
            (by intro hc; rw [hst] at hc; cases hc) ?_
          · intro n l r hc
            cases hc
            exact ⟨p1, hlt, p3⟩
          · intro _
            rw [hst]
            simp only [stackInFlight, Activity.inFlight, serialTrace, List.nil_append,
              List.cons_append, VenueMachine.proceed,
              take_succ_processBlock _ next _ hget]
        · simp only [hlt, if_false, Option.some.injEq] at hm
          subst hm
          refine plain_local origin m _ t [Activity.renderReturning] [] [] h rfl rfl rfl
            (by simp) (by rw [hst]; rfl) (by intro _ _ _ hc; cases hc)
            (by intro _ _ _ hc; cases hc) rfl (by intro hc; rw [hst] at hc; cases hc) ?_
          intro _
          rw [hst]
          have hnext : next = m.venue.activeSessions.length := by omega
          simp [stackInFlight, Activity.inFlight, serialTrace, VenueMachine.proceed, hnext]

theorem create_plain (numInputChannels numOutputChannels : Int) (deviceBlockSize : Nat)
    (deviceXruns : Int) :
    PlainInvariant (freshVenue numInputChannels numOutputChannels deviceBlockSize deviceXruns)
      (VenueMachine.create numInputChannels numOutputChannels deviceBlockSize deviceXruns) := by
  refine ⟨?_, rfl, ?_, ?_, ?_, ⟨[], rfl, rfl⟩⟩
  · intro t
    simp [VenueMachine.create]
  · intro t
    simp [VenueMachine.create, stackHoldsLock]
  · intro t next last rest hc
    simp [VenueMachine.create] at hc
  · intro t next last rest hc
    simp [VenueMachine.create] at hc

theorem run_nestedCalls (schedule : List Move) (m : VenueMachine) :
    m.nestedCalls ≤ (m.run schedule).nestedCalls := by
  induction schedule generalizing m with
  | nil => exact Nat.le_refl _
  | cons mv rest ih =>
    simp only [VenueMachine.run, List.foldl_cons]
    cases hm : m.move mv with
    | none => exact ih m
    | some m' =>
      have h1 := ih m'
      simp only [VenueMachine.run] at h1
      rcases move_nestedCalls m m' mv hm with h2 | h2 <;>
        simp only [Option.getD_some] <;> omega

theorem run_plain (origin : AudioPlayerVenue) (schedule : List Move) (m : VenueMachine)
    (h : PlainInvariant origin m) (hn : (m.run schedule).nestedCalls = m.nestedCalls) :
    PlainInvariant origin (m.run schedule) := by
  induction schedule generalizing m with
  | nil => exact h
  | cons mv rest ih =>
    simp only [VenueMachine.run, List.foldl_cons] at hn ⊢
    cases hm : m.move mv with
    | none =>
      rw [hm] at hn
      exact ih m h hn
    | some m' =>
      rw [hm] at hn
      simp only [Option.getD_some] at hn ⊢
      have h1 := run_nestedCalls rest m'
      simp only [VenueMachine.run] at h1
      have h2 : m'.nestedCalls = m.nestedCalls := by
        rcases move_nestedCalls m m' mv hm with h2 | h2
        · exact h2
        · omega
      exact ih m' (move_plain origin m m' mv h hm h2) (by rw [h2]; exact hn)

/-! ## Calls that run to their end -/

theorem run_cons (m : VenueMachine) (mv : Move) (rest : List Move) :
    m.run (mv :: rest) = ((m.move mv).getD m).run rest := rfl

theorem run_append (m : VenueMachine) (first second : List Move) :
    m.run (first ++ second) = (m.run first).run second := by
  simp only [VenueMachine.run, List.foldl_append]

theorem advances_succ (t k : Nat) : advances t (k + 1) = Move.advance t :: advances t k := rfl

theorem run_advances_idle (t k : Nat) (m : VenueMachine) (h : m.threads t = []) :
    m.run (advances t k) = m := by
  induction k with
  | zero => rfl
  | succ k ih =>
    rw [advances_succ, run_cons]
    have hmove : m.move (Move.advance t) = none := by
      simp only [VenueMachine.move, h]
    rw [hmove]
    exact ih

theorem mutex_eq (l : RecursiveMutex) (t : Nat) (ho : l.owner = some t) (hd : l.depth = 1) :
    l = { owner := some t, depth := 1 } := by
  cases l
  simp only at ho hd
  subst ho; subst hd
  rfl

/-- The loop of `render`, from the comparison of its iterator at index `next` on, when only
thread `t` moves: it calls `processBlock` on the entries from `next` on and returns. -/
theorem render_finishes (t : Nat) :
    ∀ (n next last k : Nat) (m : VenueMachine),
      last - next = n →
      m.threads t = [Activity.renderDispatching next last] →
      m.activeSessionLock = { owner := some t, depth := 1 } →
      m.iteratorsValid = true →
      last = m.venue.activeSessions.length → next ≤ last → 2 * n + 2 ≤ k →
      m.run (advances t k) =
        { venue := m.venue, activeSessionLock := { owner := none, depth := 0 },
          threads := Function.update m.threads t [], iteratorsValid := m.iteratorsValid,
          nestedCalls := m.nestedCalls,
          trace := m.trace ++ ((m.venue.activeSessions.drop next).map VenueEvent.processBlock
            ++ [VenueEvent.renderEnd]) } := by
  intro n
  induction n with
  | zero =>
    intro next last k m hn hst hlock hvalid hlast hle hk
    obtain ⟨k, rfl⟩ : ∃ j, k = j + 2 := ⟨k - 2, by omega⟩
    have hnot : ¬ next < last := by omega
    have h1 : m.move (Move.advance t) =
        some (m.proceed t [Activity.renderReturning] []) := by
      simp only [VenueMachine.move, hst, hvalid, if_true, hnot, if_false]
    have h2 : (m.proceed t [Activity.renderReturning] []).move (Move.advance t) =
        some ((m.proceed t [Activity.renderReturning] []).release t [] [VenueEvent.renderEnd]) := by
      simp only [VenueMachine.move, VenueMachine.proceed, Function.update_same]
    rw [advances_succ, run_cons, h1, Option.getD_some, advances_succ, run_cons, h2,
      Option.getD_some, run_advances_idle t k _ (by simp [VenueMachine.release])]
    have hdrop : m.venue.activeSessions.drop next = [] := by
      apply List.drop_eq_nil_of_le
      omega
    simp [VenueMachine.release, VenueMachine.proceed, hlock, RecursiveMutex.unlock, hdrop]
  | succ n ih =>
    intro next last k m hn hst hlock hvalid hlast hle hk
    obtain ⟨k, rfl⟩ : ∃ j, k = j + 2 := ⟨k - 2, by omega⟩
    have hlt : next < last := by omega
    have hlen : next < m.venue.activeSessions.length := lt_of_lt_of_eq hlt hlast
    have hget : m.venue.activeSessions[next]? = some (m.venue.activeSessions[next]) :=
      List.getElem?_eq_getElem hlen
    have h1 : m.move (Move.advance t) =
        some (m.proceed t [Activity.renderProcessing next last]
          [VenueEvent.processBlock (m.venue.activeSessions[next])]) := by
      simp only [VenueMachine.move, hst, hvalid, if_true, hlt, hget]
    have h2 : (m.proceed t [Activity.renderProcessing next last]
          [VenueEvent.processBlock (m.venue.activeSessions[next])]).move (Move.advance t) =
        some ((m.proceed t [Activity.renderProcessing next last]
          [VenueEvent.processBlock (m.venue.activeSessions[next])]).proceed t
            [Activity.renderDispatching (next + 1) last] []) := by
      simp only [VenueMachine.move, VenueMachine.proceed, Function.update_same]
    rw [advances_succ, run_cons, h1, Option.getD_some, advances_succ, run_cons, h2,
      Option.getD_some]
    rw [ih (next + 1) last k _ (by omega) (by simp [VenueMachine.proceed])
      (by simp [VenueMachine.proceed, hlock]) (by simp [VenueMachine.proceed, hvalid])
      (by simp [VenueMachine.proceed, hlast]) (by omega) (by omega)]
    have hdrop : (m.venue.activeSessions.drop next).map VenueEvent.processBlock =
        VenueEvent.processBlock (m.venue.activeSessions[next]) ::
          (m.venue.activeSessions.drop (next + 1)).map VenueEvent.processBlock := by
      rw [List.drop_eq_getElem_cons hlen]
      rfl
    simp only [VenueMachine.proceed, Function.update_idem, hdrop, List.append_assoc,
      List.append_nil, List.cons_append, List.nil_append]

/-- A `render` in flight on thread `t`, when only thread `t` moves: it calls `processBlock`
on the entries of the active list that are still to come and returns. -/
theorem inflight_finishes (t : Nat) (a : Activity) (k : Nat) (m : VenueMachine)
    (hst : m.threads t = [a]) (ha : a.inRender = true)
    (hlock : m.activeSessionLock = { owner := some t, depth := 1 })
    (hdisp : ∀ next last, a = Activity.renderDispatching next last →
      last = m.venue.activeSessions.length ∧ next ≤ last ∧ m.iteratorsValid = true)
    (hproc : ∀ next last, a = Activity.renderProcessing next last →
      last = m.venue.activeSessions.length ∧ next < last ∧ m.iteratorsValid = true)
    (hk : 2 * m.venue.activeSessions.length + 2 ≤ k) :
    m.run (advances t k) =
      { venue := m.venue, activeSessionLock := { owner := none, depth := 0 },
        threads := Function.update m.threads t [], iteratorsValid := m.iteratorsValid,
        nestedCalls := m.nestedCalls,
        trace := m.trace ++ a.toCome m.venue.activeSessions } := by
  cases a with
  | renderDispatching next last =>
    obtain ⟨p1, p2, p3⟩ := hdisp next last rfl
    exact render_finishes t (last - next) next last k m rfl hst hlock p3 p1 p2 (by omega)
  | renderProcessing next last =>
    obtain ⟨p1, p2, p3⟩ := hproc next last rfl
    obtain ⟨k, rfl⟩ : ∃ j, k = j + 1 := ⟨k - 1, by omega⟩
    have h1 : m.move (Move.advance t) =
        some (m.proceed t [Activity.renderDispatching (next + 1) last] []) := by
      simp only [VenueMachine.move, hst]
    have hfin := render_finishes t (last - (next + 1)) (next + 1) last k
      (m.proceed t [Activity.renderDispatching (next + 1) last] []) rfl
      (by simp only [VenueMachine.proceed, Function.update_same]) hlock p3 p1 (by omega)
      (by omega)
    rw [advances_succ, run_cons, h1, Option.getD_some, hfin]
    simp only [VenueMachine.proceed, Function.update_idem, Activity.toCome, List.append_nil]
  | renderReturning =>
    obtain ⟨k, rfl⟩ : ∃ j, k = j + 1 := ⟨k - 1, by omega⟩
    have h1 : m.move (Move.advance t) = some (m.release t [] [VenueEvent.renderEnd]) := by
      simp only [VenueMachine.move, hst]
    rw [advances_succ, run_cons, h1, Option.getD_some,
      run_advances_idle t k _ (by simp [VenueMachine.release])]
    simp [VenueMachine.release, hlock, RecursiveMutex.unlock, Activity.toCome]
  | startSessionCalled s => cases ha
  | startSessionLocked s => cases ha
  | startSessionReturning s => cases ha
  | stopSessionCalled s => cases ha
  | stopSessionLocked s => cases ha
  | stopSessionReturning s => cases ha
  | renderCalled => cases ha

/-- A `startSession (s)` that thread `u` has called, when the lock is free and only thread
`u` moves: it takes the lock, runs its statements and returns. -/
theorem startSession_finishes (u s k : Nat) (m : VenueMachine)
    (hst : m.threads u = [Activity.startSessionCalled s])
    (hfree : m.activeSessionLock.owner = none) (hk : 3 ≤ k) :
    m.run (advances u k) =
      { venue := (m.venue.startSession s).2,
        activeSessionLock := { owner := none, depth := 0 },
        threads := Function.update m.threads u [],
        iteratorsValid := m.iteratorsValid &&
          decide ((m.venue.startSession s).2.activeSessions = m.venue.activeSessions),
        nestedCalls := m.nestedCalls,
        trace := m.trace ++ [VenueEvent.call (VenueCall.startSession s)] } := by
  obtain ⟨k, rfl⟩ : ∃ j, k = j + 3 := ⟨k - 3, by omega⟩
  have h1 : m.move (Move.advance u) =
      some { venue := m.venue, activeSessionLock := { owner := some u, depth := 1 },
             threads := Function.update m.threads u [Activity.startSessionLocked s],
             iteratorsValid := m.iteratorsValid, nestedCalls := m.nestedCalls,
             trace := m.trace ++ [] } := by
    simp only [VenueMachine.move, hst, VenueMachine.acquire, lock_first _ u hfree]
  rw [advances_succ, run_cons, h1, Option.getD_some, advances_succ, run_cons]
  simp only [VenueMachine.move, Function.update_same, Option.getD_some, VenueMachine.edit]
  rw [advances_succ, run_cons]
  simp only [VenueMachine.move, Function.update_same, Option.getD_some, VenueMachine.release]
  rw [run_advances_idle u k _ (by simp)]
  simp [RecursiveMutex.unlock]

/-- A `render` that thread `t` calls when the lock is free, when only thread `t` moves: it
calls `processBlock` once on each session of the active list, in the order of the list,
and returns. -/
theorem render_runs (t k : Nat) (m : VenueMachine) (hst : m.threads t = [])
    (hfree : m.activeSessionLock.owner = none)
    (hk : 2 * m.venue.activeSessions.length + 3 ≤ k) :
    m.run (Move.call t VenueRequest.render :: advances t k) =
      { venue := m.venue, activeSessionLock := { owner := none, depth := 0 },
        threads := Function.update m.threads t [], iteratorsValid := true,
        nestedCalls := m.nestedCalls,
        trace := m.trace ++ renderEvents m.venue.activeSessions } := by
  obtain ⟨k, rfl⟩ : ∃ j, k = j + 1 := ⟨k - 1, by omega⟩
  have h1 : m.move (Move.call t VenueRequest.render) =
      some (m.proceed t [Activity.renderCalled] []) := by
    simp only [VenueMachine.move, hst, VenueRequest.called]
  have h2 : (m.proceed t [Activity.renderCalled] []).move (Move.advance t) =
      some { venue := m.venue, activeSessionLock := { owner := some t, depth := 1 },
             threads := Function.update m.threads t
               [Activity.renderDispatching 0 m.venue.activeSessions.length],
             iteratorsValid := true, nestedCalls := m.nestedCalls,
             trace := m.trace ++ [] ++ [VenueEvent.renderBegin] } := by
    simp only [VenueMachine.move, VenueMachine.proceed, Function.update_same,
      VenueMachine.acquire, lock_first _ t hfree, Function.update_idem]
  have hfin := render_finishes t (m.venue.activeSessions.length - 0) 0
    m.venue.activeSessions.length k
    { venue := m.venue, activeSessionLock := { owner := some t, depth := 1 },
      threads := Function.update m.threads t
        [Activity.renderDispatching 0 m.venue.activeSessions.length],
      iteratorsValid := true, nestedCalls := m.nestedCalls,
      trace := m.trace ++ [] ++ [VenueEvent.renderBegin] }
    rfl (by simp only [Function.update_same]) rfl rfl rfl (Nat.zero_le _) (by omega)
  rw [run_cons, h1, Option.getD_some, advances_succ, run_cons, h2, Option.getD_some, hfin]
  simp [renderEvents, Function.update_idem]

theorem inFlight_toCome (a : Activity) (active : List Nat) (ha : a.inRender = true) :
    a.inFlight active ++ a.toCome active = renderEvents active := by
  cases a <;> first
    | (simp only [Activity.inFlight, Activity.toCome, renderEvents, List.cons_append,
        ← List.append_assoc, ← List.map_append, List.take_append_drop]; done)
    | cases ha

theorem startSession_adds (v : AudioPlayerVenue) (s : Nat) :
    s ∈ (v.startSession s).2.activeSessions ∧
      (v.startSession s).2.activeSessions.length ≤ v.activeSessions.length + 1 := by
  rw [(startSession_fields v s).1]
  split_ifs with h
  · exact ⟨h, Nat.le_succ _⟩
  · simp

theorem processBlock_mem_renderEvents (active : List Nat) (s : Nat) :
    VenueEvent.processBlock s ∈ renderEvents active ↔ s ∈ active := by
  simp [renderEvents]

/-- A session that `startSession` adds while a `render` is in flight, on a machine without
calls from inside `processBlock`: the `render` in flight on thread `t` goes on to call
`processBlock` on the sessions of the active list as it is and returns, the
`startSession (s)` that thread `u` has called then adds `s`, and the next `render` calls
`processBlock` on the list that holds `s`. -/
theorem next_callback (origin : AudioPlayerVenue) (m : VenueMachine)
    (h : PlainInvariant origin m) (t u s : Nat) (a : Activity) (k k' : Nat)
    (ht : m.threads t = [a]) (ha : a.inRender = true)
    (hu : m.threads u = [Activity.startSessionCalled s])
    (hk : 2 * m.venue.activeSessions.length + 2 ≤ k)
    (hk' : 2 * m.venue.activeSessions.length + 5 ≤ k') :
    ∃ ops : List VenueOperation,
      m.trace = serialTrace origin ops ++ a.inFlight m.venue.activeSessions ∧
      (m.run (advances t k)).trace =
        serialTrace origin ops ++ renderEvents m.venue.activeSessions ∧
      (m.run (advances t k)).venue = m.venue ∧
      (m.run (advances t k ++ advances u 3)).venue = (m.venue.startSession s).2 ∧
      (m.run (advances t k ++ advances u 3)).trace =
        serialTrace origin ops ++ renderEvents m.venue.activeSessions ++
          [VenueEvent.call (VenueCall.startSession s)] ∧
      (m.run (advances t k ++ advances u 3 ++
          Move.call t VenueRequest.render :: advances t k')).trace =
        serialTrace origin ops ++ renderEvents m.venue.activeSessions ++
          [VenueEvent.call (VenueCall.startSession s)] ++
          renderEvents (m.venue.startSession s).2.activeSessions := by
  have hhold : stackHoldsLock (m.threads t) = true := by
    rw [ht]
    cases a <;> first
      | rfl
      | cases ha
  have hown := (h.holder t).mp hhold
  have hdepth : m.activeSessionLock.depth = 1 := by
    have := h.depth
    rw [hown] at this
    simpa using this
  have hlock := mutex_eq _ t hown hdepth
  have htu : u ≠ t := by
    intro hc
    subst hc
    rw [ht] at hu
    simp only [List.cons.injEq, and_true] at hu
    subst hu
    cases ha
  obtain ⟨ops, hops, -⟩ := h.serial
  rw [inFlight_owner m t hown, ht] at hops
  have h1 := inflight_finishes t a k m ht ha hlock
    (fun next last hc => h.dispatching t next last [] (by rw [ht, hc]))
    (fun next last hc => h.processing t next last [] (by rw [ht, hc])) hk
  have h2 := startSession_finishes u s 3 (m.run (advances t k))
    (by rw [h1]; simp only [Function.update_noteq htu]; exact hu) (by rw [h1]) (Nat.le_refl 3)
  have hlen := (startSession_adds m.venue s).2
  have h3 := render_runs t k' ((m.run (advances t k)).run (advances u 3))
    (by rw [h2, h1]; simp only [Function.update_noteq (Ne.symm htu), Function.update_same])
    (by rw [h2])
    (by rw [h2, h1]; simp only; omega)
  have htrace1 : (m.run (advances t k)).trace =
      serialTrace origin ops ++ renderEvents m.venue.activeSessions := by
    rw [h1]
    show m.trace ++ a.toCome m.venue.activeSessions = _
    rw [hops]
    simp only [stackInFlight, List.append_assoc, inFlight_toCome a _ ha]
  have hvenue1 : (m.run (advances t k)).venue = m.venue := by rw [h1]
  have htrace2 : ((m.run (advances t k)).run (advances u 3)).trace =
      serialTrace origin ops ++ renderEvents m.venue.activeSessions ++
        [VenueEvent.call (VenueCall.startSession s)] := by
    rw [h2]
    show (m.run (advances t k)).trace ++ _ = _
    rw [htrace1]
  have hvenue2 : ((m.run (advances t k)).run (advances u 3)).venue =
      (m.venue.startSession s).2 := by
    rw [h2]
    show ((m.run (advances t k)).venue.startSession s).2 = _
    rw [hvenue1]
  refine ⟨ops, hops, htrace1, hvenue1, ?_, ?_, ?_⟩
  · rw [run_append]; exact hvenue2
  · rw [run_append]; exact htrace2
  · rw [run_append, run_append, h3]
    show ((m.run (advances t k)).run (advances u 3)).trace ++
      renderEvents ((m.run (advances t k)).run (advances u 3)).venue.activeSessions = _
    rw [htrace2, hvenue2]

theorem holding_owner (m : VenueMachine) (h : LockInvariant m) (t : Nat)
    (ht : stackHoldsLock (m.threads t) = true) : m.activeSessionLock.owner = some t := by
  by_contra hc
  have hheld := h.held t
  rw [if_neg hc] at hheld
  simp only [stackHoldsLock, List.any_eq_true] at ht
  obtain ⟨a, ha, hp⟩ := ht
  have : 0 < (m.threads t).countP Activity.holdsLock := List.countP_pos_iff.mpr ⟨a, ha, hp⟩
  omega

theorem inRender_holding (stack : List Activity) (h : stackInRender stack = true) :
    stackHoldsLock stack = true := by
  simp only [stackInRender, stackHoldsLock, List.any_eq_true] at h ⊢
  obtain ⟨a, ha, hp⟩ := h
  refine ⟨a, ha, ?_⟩
  cases a <;> first
    | rfl
    | cases hp

/-- While thread `t` owns the lock, no other thread can take a step of a call. -/
theorem others_wait (m : VenueMachine) (h : LockInvariant m) (t u : Nat)
    (ho : m.activeSessionLock.owner = some t) (hu : u ≠ t) :
    m.move (Move.advance u) = none := by
  have hzero : (m.threads u).countP Activity.holdsLock = 0 := by
    have := h.held u
    rw [ho] at this
    rw [this]
    simp [Ne.symm hu]
  simp only [VenueMachine.move]
  cases hst : m.threads u with
  | nil => rfl
  | cons a rest =>
    rw [hst] at hzero
    have hfalse : a.holdsLock = false := by
      cases hh : a.holdsLock with
      | false => rfl
      | true =>
        rw [List.countP_cons_of_pos _ _ hh] at hzero
        omega
    cases a <;> first
      | (simp only [VenueMachine.acquire, lock_waits _ t u ho hu]; done)
      | cases hfalse

/-- A thread that makes a call does not change the venue by that. -/
theorem call_keeps_venue (m m' : VenueMachine) (u : Nat) (r : VenueRequest)
    (hm : m.move (Move.call u r) = some m') : m'.venue = m.venue ∧ m'.trace = m.trace := by
  simp only [VenueMachine.move] at hm
  cases hst : m.threads u with
  | nil =>
    rw [hst] at hm
    simp only [Option.some.injEq] at hm
    subst hm
    exact ⟨rfl, List.append_nil _⟩
  | cons a rest =>
    rw [hst] at hm
    cases a <;> try (cases hm)
    cases r <;> simp only [Option.some.injEq] at hm <;> try (cases hm)
    all_goals exact ⟨rfl, rfl⟩

/-- A call of `startSession` or `stopSession` made from inside `processBlock` on the thread
of the `render`, which owns the lock: the call takes the lock once more and runs its
statements, with the `render` still in flight. -/
theorem nested_call_runs (m : VenueMachine) (t s next last : Nat) (rest : List Activity)
    (hst : m.threads t = Activity.renderProcessing next last :: rest)
    (hown : m.activeSessionLock.owner = some t) :
    (m.run [Move.call t (VenueRequest.stopSession s), Move.advance t, Move.advance t]) =
      { venue := (m.venue.stopSession s).2,
        activeSessionLock := { owner := some t, depth := m.activeSessionLock.depth + 1 },
        threads := Function.update m.threads t
          (Activity.stopSessionReturning s :: Activity.renderProcessing next last :: rest),
        iteratorsValid := m.iteratorsValid &&
          decide ((m.venue.stopSession s).2.activeSessions = m.venue.activeSessions),
        nestedCalls := m.nestedCalls + 1,
        trace := m.trace ++ [] ++ [VenueEvent.call (VenueCall.stopSession s)] } ∧
    (m.run [Move.call t (VenueRequest.startSession s), Move.advance t, Move.advance t]) =
      { venue := (m.venue.startSession s).2,
        activeSessionLock := { owner := some t, depth := m.activeSessionLock.depth + 1 },
        threads := Function.update m.threads t
          (Activity.startSessionReturning s :: Activity.renderProcessing next last :: rest),
        iteratorsValid := m.iteratorsValid &&
          decide ((m.venue.startSession s).2.activeSessions = m.venue.activeSessions),
        nestedCalls := m.nestedCalls + 1,
        trace := m.trace ++ [] ++ [VenueEvent.call (VenueCall.startSession s)] } := by
  constructor
  · simp only [VenueMachine.run, List.foldl_cons, List.foldl_nil, VenueMachine.move, hst,
      VenueRequest.called, Option.getD_some, VenueMachine.nest, Function.update_same,
      VenueMachine.acquire, lock_again _ t hown, VenueMachine.edit, Function.update_idem]
  · simp only [VenueMachine.run, List.foldl_cons, List.foldl_nil, VenueMachine.move, hst,
      VenueRequest.called, Option.getD_some, VenueMachine.nest, Function.update_same,
      VenueMachine.acquire, lock_again _ t hown, VenueMachine.edit, Function.update_idem]

/-! ## What the lock guarantees -/

/-- C21, as amended: threads make `startSession`, `stopSession` and `render` calls on a
venue in any interleaving, and a callable that `processBlock` runs may call `startSession`
or `stopSession` on the thread of the `render`; each call constructs a `std::lock_guard`
on the venue's one `std::recursive_mutex` as its first statement and destroys it on
return. After every schedule of moves:
at most one thread is between the construction and the destruction of a guard;
while a `render` is in flight on a thread, that thread owns the lock, no other thread can
take a step of a call (it waits for the lock), and a thread that makes a call does not
change the venue by that, so that only steps of the thread of the `render` can add or
remove a session;
as long as no call was made from inside `processBlock`, the events so far are those of a
sequence of calls made one after the other, each `render` calling `processBlock` on the
sessions that were active when it took the lock, followed by the events of the `render`
in flight;
a `render` called when the lock is free and run to its end calls `processBlock` once on
each session of the active list, in the order of the list;
and, as long as no call was made from inside `processBlock`, when a `render` is in flight
on thread `t` and thread `u` has called `startSession (s)`: the `render`, run to its end,
has called `processBlock` on exactly the sessions of the active list as it is now, so not
on `s` unless `s` is active already; the `startSession (s)`, run to its end after that,
leaves `s` in the active list; and the next `render` calls `processBlock` on the sessions
of that list, `s` among them;
whereas a callable that runs inside `processBlock` on the thread of the `render` and calls
`stopSession (s)` or `startSession (s)` is let through by the mutex, and the statements of
that call run on the venue, removing or adding `s`, while the `render` is still in
flight. -/
theorem render_excludes_other_threads (numInputChannels numOutputChannels : Int)
    (deviceBlockSize : Nat) (deviceXruns : Int) (schedule : List Move) (m : VenueMachine)
    (hm : m = (VenueMachine.create numInputChannels numOutputChannels deviceBlockSize
      deviceXruns).run schedule) :
    (∀ t u, stackHoldsLock (m.threads t) = true → stackHoldsLock (m.threads u) = true →
      t = u) ∧
    (∀ t, stackInRender (m.threads t) = true →
      m.activeSessionLock.owner = some t ∧
      (∀ u, u ≠ t → m.move (Move.advance u) = none) ∧
      (∀ u r m', m.move (Move.call u r) = some m' → m'.venue = m.venue)) ∧
    (m.nestedCalls = 0 →
      ∃ ops : List VenueOperation,
        m.trace =
          serialTrace (freshVenue numInputChannels numOutputChannels deviceBlockSize
            deviceXruns) ops ++ m.inFlight ∧
        m.venue = ops.foldl AudioPlayerVenue.perform
          (freshVenue numInputChannels numOutputChannels deviceBlockSize deviceXruns)) ∧
    (∀ t k, m.threads t = [] → m.activeSessionLock.owner = none →
      2 * m.venue.activeSessions.length + 3 ≤ k →
      (m.run (Move.call t VenueRequest.render :: advances t k)).trace =
        m.trace ++ renderEvents m.venue.activeSessions ∧
      (m.run (Move.call t VenueRequest.render :: advances t k)).venue = m.venue) ∧
    (m.nestedCalls = 0 →
      ∀ t u s a k k', m.threads t = [a] → a.inRender = true →
        m.threads u = [Activity.startSessionCalled s] →
        2 * m.venue.activeSessions.length + 2 ≤ k →
        2 * m.venue.activeSessions.length + 5 ≤ k' →
        (s ∉ m.venue.activeSessions →
          VenueEvent.processBlock s ∉ renderEvents m.venue.activeSessions) ∧
        s ∈ (m.venue.startSession s).2.activeSessions ∧
        VenueEvent.processBlock s ∈ renderEvents (m.venue.startSession s).2.activeSessions ∧
        ∃ ops : List VenueOperation,
          m.trace =
            serialTrace (freshVenue numInputChannels numOutputChannels deviceBlockSize
              deviceXruns) ops ++ a.inFlight m.venue.activeSessions ∧
          (m.run (advances t k)).trace =
            serialTrace (freshVenue numInputChannels numOutputChannels deviceBlockSize
              deviceXruns) ops ++ renderEvents m.venue.activeSessions ∧
          (m.run (advances t k)).venue = m.venue ∧
          (m.run (advances t k ++ advances u 3)).venue = (m.venue.startSession s).2 ∧
          (m.run (advances t k ++ advances u 3)).trace =
            serialTrace (freshVenue numInputChannels numOutputChannels deviceBlockSize
              deviceXruns) ops ++ renderEvents m.venue.activeSessions ++
              [VenueEvent.call (VenueCall.startSession s)] ∧
          (m.run (advances t k ++ advances u 3 ++
              Move.call t VenueRequest.render :: advances t k')).trace =
            serialTrace (freshVenue numInputChannels numOutputChannels deviceBlockSize
              deviceXruns) ops ++ renderEvents m.venue.activeSessions ++
              [VenueEvent.call (VenueCall.startSession s)] ++
              renderEvents (m.venue.startSession s).2.activeSessions) ∧
    (∀ t s next last rest, m.threads t = Activity.renderProcessing next last :: rest →
      (m.run [Move.call t (VenueRequest.stopSession s), Move.advance t,
        Move.advance t]).venue = (m.venue.stopSession s).2 ∧
      stackInRender ((m.run [Move.call t (VenueRequest.stopSession s), Move.advance t,
        Move.advance t]).threads t) = true ∧
      (m.run [Move.call t (VenueRequest.startSession s), Move.advance t,
        Move.advance t]).venue = (m.venue.startSession s).2 ∧
      stackInRender ((m.run [Move.call t (VenueRequest.startSession s), Move.advance t,
        Move.advance t]).threads t) = true) := by
  have hlock : LockInvariant m := by
    rw [hm]
    exact run_lockInvariant schedule _
      (create_lockInvariant numInputChannels numOutputChannels deviceBlockSize deviceXruns)
  have hplain : m.nestedCalls = 0 →
      PlainInvariant (freshVenue numInputChannels numOutputChannels deviceBlockSize
        deviceXruns) m := by
    intro hn
    rw [hm] at hn ⊢
    exact run_plain _ schedule _
      (create_plain numInputChannels numOutputChannels deviceBlockSize deviceXruns) hn
  refine ⟨?_, ?_, ?_, ?_, ?_, ?_⟩
  rotate_left 5
  · intro t s next last rest hst
    have hown := holding_owner m hlock t (by rw [hst]; rfl)
    obtain ⟨h1, h2⟩ := nested_call_runs m t s next last rest hst hown
    rw [h1, h2]
    simp [stackInRender, Activity.inRender]
  · intro t u ht hu
    have h1 := holding_owner m hlock t ht
    have h2 := holding_owner m hlock u hu
    rw [h1] at h2
    exact Option.some.inj h2
  · intro t ht
    have ho := holding_owner m hlock t (inRender_holding _ ht)
    exact ⟨ho, fun u hu => others_wait m hlock t u ho hu,
      fun u r m' hmove => (call_keeps_venue m m' u r hmove).1⟩
  · intro hn
    exact (hplain hn).serial
  · intro t k ht hfree hk
    rw [render_runs t k m ht hfree hk]
    exact ⟨rfl, rfl⟩
  · intro hn t u s a k k' ht ha hu hk hk'
    refine ⟨fun hs hc => hs ((processBlock_mem_renderEvents _ s).mp hc),
      (startSession_adds m.venue s).1,
      (processBlock_mem_renderEvents _ s).mpr (startSession_adds m.venue s).1, ?_⟩
    exact next_callback _ m (hplain hn) t u s a k k' ht ha hu hk hk'

/-- C21, as amended, on `demoInFlight`: session 1 is active, the `render` of thread 0 is in
flight and about to call `processBlock` on session 1, and thread 2 has called
`startSession (2)` and waits. The `render`, run to its end, has called `processBlock` on
session 1 only; `startSession (2)` then adds session 2; the next `render` calls
`processBlock` on sessions 1 and 2. -/
theorem render_excludes_other_threads_witness :
    demoInFlight.nestedCalls = 0 ∧
    demoInFlight.venue.activeSessions = [1] ∧
    demoInFlight.threads 0 = [Activity.renderDispatching 0 1] ∧
    demoInFlight.threads 2 = [Activity.startSessionCalled 2] ∧
    demoInFlight.move (Move.advance 2) = none ∧
    ((2 : Nat) ∉ demoInFlight.venue.activeSessions →
      VenueEvent.processBlock 2 ∉ renderEvents demoInFlight.venue.activeSessions) ∧
    2 ∈ (demoInFlight.venue.startSession 2).2.activeSessions ∧
    VenueEvent.processBlock 2 ∈
      renderEvents (demoInFlight.venue.startSession 2).2.activeSessions ∧
    ∃ ops : List VenueOperation,
      demoInFlight.trace =
        serialTrace (freshVenue 2 2 512 0) ops ++
          (Activity.renderDispatching 0 1).inFlight demoInFlight.venue.activeSessions ∧
      (demoInFlight.run (advances 0 4)).trace =
        serialTrace (freshVenue 2 2 512 0) ops ++ renderEvents demoInFlight.venue.activeSessions ∧
      (demoInFlight.run (advances 0 4)).venue = demoInFlight.venue ∧
      (demoInFlight.run (advances 0 4 ++ advances 2 3)).venue =
        (demoInFlight.venue.startSession 2).2 ∧
      (demoInFlight.run (advances 0 4 ++ advances 2 3)).trace =
        serialTrace (freshVenue 2 2 512 0) ops ++ renderEvents demoInFlight.venue.activeSessions ++
          [VenueEvent.call (VenueCall.startSession 2)] ∧
      (demoInFlight.run (advances 0 4 ++ advances 2 3 ++
          Move.call 0 VenueRequest.render :: advances 0 7)).trace =
        serialTrace (freshVenue 2 2 512 0) ops ++ renderEvents demoInFlight.venue.activeSessions ++
          [VenueEvent.call (VenueCall.startSession 2)] ++
          renderEvents (demoInFlight.venue.startSession 2).2.activeSessions :=
  ⟨rfl, rfl, rfl, rfl,
    ((render_excludes_other_threads 2 2 512 0 (demoSchedule.take 7) demoInFlight rfl).2.1 0
      rfl).2.1 2 (by decide),
    (render_excludes_other_threads 2 2 512 0 (demoSchedule.take 7) demoInFlight rfl).2.2.2.2.1
      rfl 0 2 2 (Activity.renderDispatching 0 1) 4 7 rfl rfl rfl (by decide) (by decide)⟩

/-- C21 fails as stated: on the schedule `reentrantSchedule`, after its first seven moves
session 1 is active and thread 0 is inside `render`, in `processBlock` of session 1; a
callable run there calls `stopSession (1)`, which takes the lock a second time on the same
thread and erases the session, so that the active list has changed while the `render` is
still in flight, and the iterators of its loop are invalid. -/
theorem render_thread_edits_active_list :
    ((VenueMachine.create 2 2 512 0).run (reentrantSchedule.take 7)).venue.activeSessions
      = [1] ∧
    ((VenueMachine.create 2 2 512 0).run (reentrantSchedule.take 7)).threads 0 =
      [Activity.renderProcessing 0 1] ∧
    ((VenueMachine.create 2 2 512 0).run (reentrantSchedule.take 7)).activeSessionLock =
      { owner := some 0, depth := 1 } ∧
    ((VenueMachine.create 2 2 512 0).run reentrantSchedule).threads 0 =
      [Activity.stopSessionReturning 1, Activity.renderProcessing 0 1] ∧
    stackInRender (((VenueMachine.create 2 2 512 0).run reentrantSchedule).threads 0) = true ∧
    ((VenueMachine.create 2 2 512 0).run reentrantSchedule).activeSessionLock =
      { owner := some 0, depth := 2 } ∧
    ((VenueMachine.create 2 2 512 0).run reentrantSchedule).venue.activeSessions = [] ∧
    ((VenueMachine.create 2 2 512 0).run reentrantSchedule).iteratorsValid = false ∧
    ((VenueMachine.create 2 2 512 0).run reentrantSchedule).trace =
      [VenueEvent.call (VenueCall.startSession 1), VenueEvent.renderBegin,
       VenueEvent.processBlock 1, VenueEvent.call (VenueCall.stopSession 1)] :=
  ⟨rfl, rfl, rfl, rfl, rfl, rfl, rfl, rfl, rfl⟩

/-- The schedule `demoSchedule`: thread 2 calls `startSession (2)` while the first `render`
is in flight and has to wait; the first `render` calls `processBlock` on session 1 only,
session 2 is added after it, and the second `render` calls `processBlock` on both. -/
theorem demoSchedule_trace :
    ((VenueMachine.create 2 2 512 0).run demoSchedule).trace =
      [VenueEvent.call (VenueCall.startSession 1),
       VenueEvent.renderBegin, VenueEvent.processBlock 1, VenueEvent.renderEnd,
       VenueEvent.call (VenueCall.startSession 2),
       VenueEvent.renderBegin, VenueEvent.processBlock 1, VenueEvent.processBlock 2,
       VenueEvent.renderEnd] ∧
    ((VenueMachine.create 2 2 512 0).run demoSchedule).venue.activeSessions = [1, 2] ∧
    ((VenueMachine.create 2 2 512 0).run demoSchedule).nestedCalls = 0 :=
  ⟨rfl, rfl, rfl⟩

end soul.audioplayer
